import Mathlib

set_option maxRecDepth 8000

/-!
Verification of the complexity-analysis core of `oxlint-plugin-complexity`.

The development shallowly embeds the plugin's scoring and extraction pipeline:

* `src/src/extraction/boundary-detector.ts` (the first section of the staged
  file `src/unnamed/part_009`): grouping of complexity points into extraction
  candidates and the non-overlapping selection.
* `src/src/extraction/suggestion-generator.ts` (staged in
  `src/unnamed/part_007`): issue detection from a variable-flow analysis.
* `src/src/extraction/flow-analyzer.ts`: the dynamic AST walk used for
  mutation detection and self-reference (`this`) detection.
* `src/src/visitor.ts`, `src/src/combined-visitor.ts`,
  `src/src/cognitive/visitor.ts` and `src/src/cyclomatic.ts` (staged in
  `src/unnamed/part_009`), together with `src/src/cognitive/patterns.ts`
  (staged in `src/unnamed/part_001`) and `src/src/cognitive/recursion.ts`
  (staged in `src/unnamed/part_000`): the cyclomatic, cognitive and combined
  complexity scorers, run over a faithful fragment of the ESTree AST with the
  dispatch order of the repository's walker (`tests/utils/test-helpers.ts`:
  the specific handler fires first, then the wildcard handler, on enter and
  on exit alike).

Machine numbers are embedded as `Nat`/`Int`/`Rat` (all quantities involved
are exact small integers or exact rationals; no floating-point rounding is
reachable in the properties proved here).
-/

/-! ## Source locations and complexity points (`src/src/types.ts`) -/

/-- A line/column position, as in the `loc` objects of ESTree nodes. -/
structure SrcPos where
  line : Nat
  column : Nat
deriving Repr, DecidableEq

/-- A source range `{ start, end }`.  The `end` field is named `stop` here
because `end` is a Lean keyword. -/
structure SrcLoc where
  start : SrcPos
  stop : SrcPos
deriving Repr, DecidableEq

/-- `ComplexityPoint` from `src/src/types.ts`: one construct's contribution.
`complexity` is an `Int` (a JS number; every write in the code is an exact
small integer). -/
structure ComplexityPoint where
  complexity : Int
  location : SrcLoc
  message : String
deriving Repr, DecidableEq

/-- `DEFAULT_LOCATION` from `src/src/utils.ts`. -/
def DEFAULT_LOCATION : SrcLoc := ⟨⟨0, 0⟩, ⟨0, 0⟩⟩

/-! ## A stable sort standing in for JavaScript `Array.prototype.toSorted`

`toSorted` is required by the ECMAScript specification to be a stable sort;
for a comparator that induces a total preorder the stable-sorted output is
uniquely determined, so any stable sort is extensionally the same function.
We use insertion sort because it reduces inside the Lean kernel (which
`List.mergeSort` does not), and prove the two facts the claims need:
the output is a permutation of the input, and it is pairwise-ordered. -/

/-- Insert `x` into `l`, before the first element `y` with `le x y`;
keeps equal elements in their original order (stability). -/
def insertLe (le : α → α → Bool) (x : α) : List α → List α
  | [] => [x]
  | y :: ys => if le x y then x :: y :: ys else y :: insertLe le x ys

/-- Stable insertion sort: the unique stable sort for a total preorder
comparator, hence exactly JS `toSorted`. -/
def sortLe (le : α → α → Bool) : List α → List α
  | [] => []
  | x :: xs => insertLe le x (sortLe le xs)

theorem insertLe_perm (le : α → α → Bool) (x : α) (l : List α) :
    List.Perm (insertLe le x l) (x :: l) := by
  induction l with
  | nil => simp [insertLe]
  | cons y ys ih =>
    simp only [insertLe]
    by_cases h : le x y
    · simp [h]
    · simp only [h]
      exact List.Perm.trans (List.Perm.cons y ih) (List.Perm.swap x y ys)

theorem sortLe_perm (le : α → α → Bool) (l : List α) :
    List.Perm (sortLe le l) l := by
  induction l with
  | nil => simp [sortLe]
  | cons x xs ih =>
    exact List.Perm.trans (insertLe_perm le x (sortLe le xs)) (List.Perm.cons x ih)

theorem insertLe_pairwise (le : α → α → Bool)
    (htot : ∀ a b, le a b = true ∨ le b a = true)
    (htrans : ∀ a b c, le a b = true → le b c = true → le a c = true)
    (x : α) (l : List α) (hl : List.Pairwise (fun a b => le a b = true) l) :
    List.Pairwise (fun a b => le a b = true) (insertLe le x l) := by
  induction l with
  | nil => simp [insertLe]
  | cons y ys ih =>
    rcases hl with - | ⟨hy, hys⟩
    simp only [insertLe]
    by_cases h : le x y = true
    · rw [if_pos h]
      refine List.Pairwise.cons ?_ (List.Pairwise.cons hy hys)
      intro b hb
      rcases List.mem_cons.mp hb with rfl | hb2
      · exact h
      · exact htrans x y b h (hy _ hb2)
    · rw [if_neg h]
      refine List.Pairwise.cons ?_ (ih hys)
      intro b hb
      have hperm := insertLe_perm le x ys
      have hb' : b ∈ x :: ys := hperm.mem_iff.mp hb
      rcases List.mem_cons.mp hb' with hbx | hbys
      · subst hbx
        rcases htot y b with hyb | hby
        · exact hyb
        · exact absurd hby h
      · exact hy _ hbys

theorem sortLe_pairwise (le : α → α → Bool)
    (htot : ∀ a b, le a b = true ∨ le b a = true)
    (htrans : ∀ a b c, le a b = true → le b c = true → le a c = true)
    (l : List α) :
    List.Pairwise (fun a b => le a b = true) (sortLe le l) := by
  induction l with
  | nil => simp [sortLe]
  | cons x xs ih => exact insertLe_pairwise le htot htrans x (sortLe le xs) ih

/-! ## Boundary detector (`src/src/extraction/boundary-detector.ts`) -/

def DEFAULT_MIN_COMPLEXITY_PERCENTAGE : Int := 30
def DEFAULT_MAX_COMPLEXITY_PERCENTAGE : Int := 70
def DEFAULT_MAX_LINE_GAP : Nat := 2
def DEFAULT_MAX_CANDIDATES : Nat := 3

/-- `ExtractionOptions` from `src/src/extraction/types.ts` (the fields the
boundary detector reads). -/
structure ExtractionOptions where
  minComplexityPercentage : Option Int := none
  maxComplexityPercentage : Option Int := none
  maxLineGap : Option Nat := none
  maxCandidates : Option Nat := none
deriving Repr

/-- `ExtractionCandidate` from `src/src/extraction/types.ts`. -/
structure ExtractionCandidate where
  startLine : Nat
  endLine : Nat
  complexity : Int
  complexityPercentage : Int
  points : List ComplexityPoint
  constructs : List String
deriving Repr, DecidableEq

/-- The effect of `replace(/^'|'$/g, "")` in `extractConstruct`: strip one
leading and one trailing apostrophe. -/
def stripOuterQuotes (s : String) : String :=
  let s1 := if s.startsWith "\'" then s.drop 1 else s
  if s1.endsWith "\'" then s1.dropRight 1 else s1

/-- `extractConstruct`: take what follows the first `:` of the message
(`message.match(/:\s*(.+)$/)`), trimmed, with outer quotes stripped;
`"unknown"` when there is no colon or nothing follows it.  (Messages are
single-line, so the regex match succeeds exactly when a nonempty remainder
follows the first colon, and `\s*` plus `.trim()` collapse to a trim.) -/
def extractConstruct (message : String) : String :=
  match message.splitOn ":" with
  | [] => "unknown"
  | [_] => "unknown"
  | _ :: rest =>
    let remainder := String.intercalate ":" rest
    if remainder.isEmpty then "unknown" else stripOuterQuotes remainder.trim

/-- `getUniqueConstructs`: first-occurrence deduplication, as a JS `Set`
preserves insertion order. -/
def getUniqueConstructs (points : List ComplexityPoint) : List String :=
  (points.map (fun p => extractConstruct p.message)).eraseDups

/-- `PointGroup` (internal to the boundary detector). -/
structure PointGroup where
  points : List ComplexityPoint
  startLine : Nat
  endLine : Nat
  totalComplexity : Int
deriving Repr

/-- The loop body of `groupAdjacentPoints` (the `for` loop over the sorted
points, with the accumulated groups and the current group). -/
def groupLoop (maxLineGap : Nat) :
    List ComplexityPoint → PointGroup → List PointGroup → List PointGroup
  | [], cur, acc => acc ++ [cur]
  | p :: rest, cur, acc =>
    if p.location.start.line ≤ cur.endLine + maxLineGap then
      groupLoop maxLineGap rest
        { cur with
          points := cur.points ++ [p]
          endLine := p.location.start.line
          totalComplexity := cur.totalComplexity + p.complexity } acc
    else
      groupLoop maxLineGap rest
        ⟨[p], p.location.start.line, p.location.start.line, p.complexity⟩
        (acc ++ [cur])

/-- `groupAdjacentPoints`: sort by start line, then merge points whose start
line is within `maxLineGap` of the current group's end line. -/
def groupAdjacentPoints (points : List ComplexityPoint) (maxLineGap : Nat) :
    List PointGroup :=
  match sortLe (fun a b => a.location.start.line ≤ b.location.start.line) points with
  | [] => []
  | p0 :: rest =>
    groupLoop maxLineGap rest
      ⟨[p0], p0.location.start.line, p0.location.start.line, p0.complexity⟩ []

/-- `Math.round(x)` for a rational argument: ECMAScript rounds half toward
positive infinity, which is the floor of `x + 1/2`. -/
def jsRound (x : Rat) : Int := Int.floor (x + 1 / 2)

/-- `groupToCandidate`.  `group.points` is nonempty for every group built by
`groupAdjacentPoints`; the `getLastD` default is never reached through
`findExtractionCandidates`. -/
def groupToCandidate (group : PointGroup) (totalComplexity : Int) :
    ExtractionCandidate :=
  let lastPoint := group.points.getLastD ⟨0, DEFAULT_LOCATION, ""⟩
  { startLine := group.startLine
    endLine := lastPoint.location.stop.line
    complexity := group.totalComplexity
    complexityPercentage :=
      jsRound ((group.totalComplexity : Rat) / (totalComplexity : Rat) * 100)
    points := group.points
    constructs := getUniqueConstructs group.points }

/-- `candidatesOverlap`. -/
def candidatesOverlap (a b : ExtractionCandidate) : Bool :=
  a.startLine ≤ b.endLine && b.startLine ≤ a.endLine

/-- The `for` loop of `selectNonOverlapping`: greedy selection until
`maxCandidates` are accepted (the `break`), skipping overlapping candidates. -/
def selectLoop (maxCandidates : Nat) :
    List ExtractionCandidate → List ExtractionCandidate → List ExtractionCandidate
  | [], selected => selected
  | c :: rest, selected =>
    if maxCandidates ≤ selected.length then selected
    else if selected.any (fun s => candidatesOverlap s c) then
      selectLoop maxCandidates rest selected
    else selectLoop maxCandidates rest (selected ++ [c])

/-- `selectNonOverlapping`: sort by descending complexity, greedily accept
non-overlapping candidates, then present in ascending start-line order. -/
def selectNonOverlapping (candidates : List ExtractionCandidate)
    (maxCandidates : Nat) : List ExtractionCandidate :=
  let sorted := sortLe (fun a b => b.complexity ≤ a.complexity) candidates
  sortLe (fun a b => a.startLine ≤ b.startLine) (selectLoop maxCandidates sorted [])

/-- `findExtractionCandidates`. -/
def findExtractionCandidates (points : List ComplexityPoint)
    (totalComplexity : Int) (options : ExtractionOptions := {}) :
    List ExtractionCandidate :=
  let minPercentage := options.minComplexityPercentage.getD DEFAULT_MIN_COMPLEXITY_PERCENTAGE
  let maxPercentage := options.maxComplexityPercentage.getD DEFAULT_MAX_COMPLEXITY_PERCENTAGE
  let maxLineGap := options.maxLineGap.getD DEFAULT_MAX_LINE_GAP
  let maxCandidates := options.maxCandidates.getD DEFAULT_MAX_CANDIDATES
  if points.length = 0 ∨ totalComplexity = 0 then []
  else
    let groups := groupAdjacentPoints points maxLineGap
    let candidates :=
      (groups.map (fun group => groupToCandidate group totalComplexity)).filter
        (fun candidate =>
          minPercentage ≤ candidate.complexityPercentage &&
          candidate.complexityPercentage ≤ maxPercentage)
    selectNonOverlapping candidates maxCandidates

/-! ### Properties of the boundary detector -/

theorem candidatesOverlap_comm (a b : ExtractionCandidate) :
    candidatesOverlap a b = candidatesOverlap b a := by
  simp [candidatesOverlap, Bool.and_comm]

theorem selectLoop_length (maxCandidates : Nat) (l sel : List ExtractionCandidate)
    (h : sel.length ≤ maxCandidates) :
    (selectLoop maxCandidates l sel).length ≤ maxCandidates := by
  induction l generalizing sel with
  | nil => simpa [selectLoop] using h
  | cons c rest ih =>
    simp only [selectLoop]
    by_cases hb : maxCandidates ≤ sel.length
    · simpa [hb] using h
    · rw [if_neg hb]
      by_cases hov : sel.any (fun s => candidatesOverlap s c)
      · rw [if_pos hov]; exact ih sel h
      · rw [if_neg hov]
        exact ih (sel ++ [c]) (by simpa using Nat.lt_of_not_le hb)

theorem selectLoop_subset (maxCandidates : Nat) (l sel : List ExtractionCandidate) :
    ∀ x ∈ selectLoop maxCandidates l sel, x ∈ sel ∨ x ∈ l := by
  induction l generalizing sel with
  | nil => intro x hx; exact Or.inl (by simpa [selectLoop] using hx)
  | cons c rest ih =>
    intro x hx
    simp only [selectLoop] at hx
    by_cases hb : maxCandidates ≤ sel.length
    · rw [if_pos hb] at hx; exact Or.inl hx
    · rw [if_neg hb] at hx
      by_cases hov : sel.any (fun s => candidatesOverlap s c)
      · rw [if_pos hov] at hx
        rcases ih sel x hx with h1 | h2
        · exact Or.inl h1
        · exact Or.inr (List.mem_cons_of_mem c h2)
      · rw [if_neg hov] at hx
        rcases ih (sel ++ [c]) x hx with h1 | h2
        · rcases List.mem_append.mp h1 with h1a | h1b
          · exact Or.inl h1a
          · exact Or.inr (by simpa using Or.inl (List.mem_singleton.mp h1b))
        · exact Or.inr (List.mem_cons_of_mem c h2)


theorem mem_sortLe (le : α → α → Bool) (l : List α) (x : α) :
    x ∈ sortLe le l ↔ x ∈ l :=
  (sortLe_perm le l).mem_iff

theorem selectLoop_pairwise (maxCandidates : Nat) (l sel : List ExtractionCandidate)
    (h : List.Pairwise (fun a b => candidatesOverlap a b = false) sel) :
    List.Pairwise (fun a b => candidatesOverlap a b = false)
      (selectLoop maxCandidates l sel) := by
  induction l generalizing sel with
  | nil => simpa [selectLoop] using h
  | cons c rest ih =>
    simp only [selectLoop]
    by_cases hb : maxCandidates ≤ sel.length
    · simpa [hb] using h
    · rw [if_neg hb]
      by_cases hov : sel.any (fun s => candidatesOverlap s c) = true
      · rw [if_pos hov]; exact ih sel h
      · rw [if_neg hov]
        refine ih (sel ++ [c]) ?_
        rw [List.pairwise_append]
        refine ⟨h, List.pairwise_singleton _ _, ?_⟩
        intro a ha b hb2
        rw [List.mem_singleton.mp hb2]
        have hno : sel.any (fun s => candidatesOverlap s c) = false :=
          Bool.eq_false_iff.mpr hov
        exact Bool.eq_false_iff.mpr (List.any_eq_false.mp hno a ha)

/-- C5: for every point list, total and options, the selected extraction
candidates pairwise never overlap, every returned candidate's percentage lies
within the configured bounds, at most `maxCandidates` are returned, and the
result is ordered by ascending start line. -/
theorem findExtractionCandidates_invariants
    (points : List ComplexityPoint) (totalComplexity : Int)
    (options : ExtractionOptions) :
    List.Pairwise (fun a b => candidatesOverlap a b = false)
        (findExtractionCandidates points totalComplexity options) ∧
      (∀ c ∈ findExtractionCandidates points totalComplexity options,
          options.minComplexityPercentage.getD DEFAULT_MIN_COMPLEXITY_PERCENTAGE ≤
              c.complexityPercentage ∧
            c.complexityPercentage ≤
              options.maxComplexityPercentage.getD DEFAULT_MAX_COMPLEXITY_PERCENTAGE) ∧
      (findExtractionCandidates points totalComplexity options).length ≤
        options.maxCandidates.getD DEFAULT_MAX_CANDIDATES ∧
      List.Pairwise (fun a b => a.startLine ≤ b.startLine)
        (findExtractionCandidates points totalComplexity options) := by
  classical
  have hsymm : ∀ {x y : ExtractionCandidate},
      candidatesOverlap x y = false → candidatesOverlap y x = false := by
    intro x y h
    rw [candidatesOverlap_comm]
    exact h
  unfold findExtractionCandidates
  by_cases hz : points.length = 0 ∨ totalComplexity = 0
  · rw [if_pos hz]
    simp
  · rw [if_neg hz]
    simp only [selectNonOverlapping]
    set maxCandidates := options.maxCandidates.getD DEFAULT_MAX_CANDIDATES with hmax
    set filtered :=
      (List.map (fun group =>
          groupToCandidate group totalComplexity)
        (groupAdjacentPoints points (options.maxLineGap.getD DEFAULT_MAX_LINE_GAP))).filter
        (fun candidate =>
          decide (options.minComplexityPercentage.getD DEFAULT_MIN_COMPLEXITY_PERCENTAGE ≤
            candidate.complexityPercentage) &&
          decide (candidate.complexityPercentage ≤
            options.maxComplexityPercentage.getD DEFAULT_MAX_COMPLEXITY_PERCENTAGE))
      with hfil
    set picked := selectLoop maxCandidates
      (sortLe (fun a b => decide (b.complexity ≤ a.complexity)) filtered) [] with hpicked
    have hperm := sortLe_perm (fun a b => decide (a.startLine ≤ b.startLine)) picked
    refine ⟨?_, ?_, ?_, ?_⟩
    · have hp : List.Pairwise (fun a b => candidatesOverlap a b = false) picked :=
        selectLoop_pairwise _ _ [] (List.Pairwise.nil)
      exact (hperm.pairwise_iff (fun h => hsymm h)).mpr hp
    · intro c hc
      have h1 : c ∈ picked := hperm.mem_iff.mp hc
      rcases selectLoop_subset _ _ _ c h1 with h2 | h2
      · simp at h2
      · have h3 : c ∈ filtered := (mem_sortLe _ _ _).mp h2
        have h4 := List.of_mem_filter h3
        simp only [Bool.and_eq_true, decide_eq_true_eq] at h4
        exact h4
    · rw [hperm.length_eq]
      exact selectLoop_length _ _ [] (Nat.zero_le _)
    · have hsort := sortLe_pairwise (fun a b => decide (a.startLine ≤ b.startLine))
        (fun a b => by
          rcases Nat.le_total a.startLine b.startLine with h | h
          · exact Or.inl (by simpa using h)
          · exact Or.inr (by simpa using h))
        (fun a b c hab hbc => by
          simp only [decide_eq_true_eq] at hab hbc ⊢
          exact Nat.le_trans hab hbc) picked
      exact hsort.imp (fun h => by simpa using h)

/-- C10: the boundary detector returns the empty list whenever the point list
is empty or the total complexity is zero, so the percentage division in
`groupToCandidate` is never evaluated with a zero divisor. -/
theorem findExtractionCandidates_zero_guard
    (points : List ComplexityPoint) (totalComplexity : Int)
    (options : ExtractionOptions)
    (h : points = [] ∨ totalComplexity = 0) :
    findExtractionCandidates points totalComplexity options = [] := by
  unfold findExtractionCandidates
  have hz : points.length = 0 ∨ totalComplexity = 0 := by
    rcases h with h | h
    · exact Or.inl (by simp [h])
    · exact Or.inr h
  rw [if_pos hz]

/-- Witness for C10 at a concrete input. -/
theorem findExtractionCandidates_zero_guard_witness :
    findExtractionCandidates [] 5 {} = [] :=
  findExtractionCandidates_zero_guard [] 5 {} (Or.inl rfl)

/-! ## Variable-flow data model (`src/src/extraction/types.ts`)

Fields that no embedded function reads (`declarationType`, `scopeLevel`, the
optional type annotation) are omitted; they never influence the functions
verified here. -/

/-- `VariableReference`: one reference to a tracked variable.  The reference
kind is the string `"read"`, `"write"` or `"readwrite"`. -/
structure VariableReference where
  line : Nat
  column : Nat
  type : String
deriving Repr, DecidableEq

/-- `VariableInfo` (the fields read by the flow analyzer). -/
structure VariableInfo where
  name : String
  declarationLine : Nat
  declarationColumn : Nat
  isMutable : Bool
  references : List VariableReference
deriving Repr, DecidableEq

/-- `MutationInfo`: `mutationType` is `"assignment"`, `"increment"` or
`"method-call"`.  The source field `variable` is named `varInfo` here because
`variable` is a Lean keyword. -/
structure MutationInfo where
  varInfo : VariableInfo
  mutationLine : Nat
  mutationType : String
deriving Repr, DecidableEq

/-- `ClosureInfo` (source field `variable` renamed `varInfo`; Lean keyword). -/
structure ClosureInfo where
  varInfo : VariableInfo
  closureStartLine : Nat
  closureEndLine : Nat
  issue : String
deriving Repr, DecidableEq

/-- `VariableFlowAnalysis`. -/
structure VariableFlowAnalysis where
  inputs : List VariableInfo
  outputs : List VariableInfo
  internalOnly : List VariableInfo
  mutations : List MutationInfo
  closures : List ClosureInfo
  hasEarlyReturn : Bool
  hasThisReference : Bool
deriving Repr

/-- `ExtractionIssue` from `src/src/extraction/types.ts`; the issue kind is
one of the strings of the `ExtractionIssue["type"]` union (which includes
`"this-reference"`). -/
structure ExtractionIssue where
  type : String
  description : String
  line : Option Nat := none
  varName : Option String := none
deriving Repr, DecidableEq

/-! ## Suggestion generator (`src/src/extraction/suggestion-generator.ts`,
staged in `src/unnamed/part_007`) -/

def MAX_HIGH_CONFIDENCE_INPUTS : Nat := 3
def MAX_HIGH_CONFIDENCE_OUTPUTS : Nat := 1
def MAX_MEDIUM_CONFIDENCE_INPUTS : Nat := 5
def MAX_MEDIUM_CONFIDENCE_OUTPUTS : Nat := 2

/-- `detectIssues`: the issue list built from a flow analysis.  The candidate
argument is unused by the source (`_candidate`).  Note the function has no
branch for `flow.hasThisReference`: no `"this-reference"` issue is ever
emitted. -/
def detectIssues (_candidate : ExtractionCandidate)
    (flow : VariableFlowAnalysis) : List ExtractionIssue :=
  (flow.mutations.map (fun m =>
    { type := "mutation"
      description := "Mutates external variable \'" ++ m.varInfo.name ++ "\'"
      line := some m.mutationLine
      varName := some m.varInfo.name })) ++
  (flow.closures.map (fun c =>
    { type := "closure"
      description := "Closure captures mutable variable \'" ++ c.varInfo.name ++ "\'"
      line := some c.closureStartLine
      varName := some c.varInfo.name })) ++
  (if MAX_MEDIUM_CONFIDENCE_INPUTS < flow.inputs.length then
    [{ type := "too-many-params"
       description := s!"Would require {flow.inputs.length} parameters" }]
   else []) ++
  (if MAX_MEDIUM_CONFIDENCE_OUTPUTS < flow.outputs.length then
    [{ type := "multiple-outputs"
       description := s!"Would require returning {flow.outputs.length} values" }]
   else []) ++
  (if flow.hasEarlyReturn then
    [{ type := "early-return"
       description := "Contains early return statements that complicate extraction" }]
   else [])

/-- A dummy candidate (the `detectIssues` source ignores its candidate). -/
def emptyCandidate : ExtractionCandidate :=
  { startLine := 1, endLine := 2, complexity := 0, complexityPercentage := 0
    points := [], constructs := [] }

/-- A flow analysis whose only flag is `hasThisReference`. -/
def flowWithThisOnly : VariableFlowAnalysis :=
  { inputs := [], outputs := [], internalOnly := [], mutations := []
    closures := [], hasEarlyReturn := false, hasThisReference := true }

/-- C7: `detectIssues` emits one issue per mutation, one per closure, one
when `inputs.length > 5`, one when `outputs.length > 2` and one when
`hasEarlyReturn` — but never a `"this-reference"` issue, even when
`hasThisReference` is set (where the spec, the `ExtractionIssue` type union
and the repository's test suite expect one): on a flow whose only flag is
`hasThisReference` the issue list is empty. -/
theorem detectIssues_counts (cand : ExtractionCandidate)
    (flow : VariableFlowAnalysis) :
    ((detectIssues cand flow).filter (fun i => i.type == "mutation")).length =
        flow.mutations.length ∧
      ((detectIssues cand flow).filter (fun i => i.type == "closure")).length =
        flow.closures.length ∧
      ((detectIssues cand flow).filter (fun i => i.type == "too-many-params")).length =
        (if 5 < flow.inputs.length then 1 else 0) ∧
      ((detectIssues cand flow).filter (fun i => i.type == "multiple-outputs")).length =
        (if 2 < flow.outputs.length then 1 else 0) ∧
      ((detectIssues cand flow).filter (fun i => i.type == "early-return")).length =
        (if flow.hasEarlyReturn then 1 else 0) ∧
      ((detectIssues cand flow).filter (fun i => i.type == "this-reference")).length = 0 ∧
      detectIssues emptyCandidate flowWithThisOnly = [] := by
  rcases flow with ⟨ins, outs, int, muts, clos, he, ht⟩
  refine ⟨?_, ?_, ?_, ?_, ?_, ?_, by rfl⟩ <;>
    · simp only [detectIssues, List.filter_append, List.length_append,
        MAX_MEDIUM_CONFIDENCE_INPUTS, MAX_MEDIUM_CONFIDENCE_OUTPUTS,
        List.filter_map]
      by_cases h1 : 5 < ins.length <;> by_cases h2 : 2 < outs.length <;>
        by_cases h3 : he = true <;>
          simp [h1, h2, h3, Function.comp_def]

/-! ## The flow analyzer's dynamic AST walk
(`src/src/extraction/flow-analyzer.ts`)

The flow analyzer duck-types over arbitrary node shapes (`walkChildren`
iterates `Object.keys`), so its embedding uses a generic node: a `type` tag,
an optional location, and a keyed property list whose values are a child
node, an array of child nodes, or a primitive (only string primitives are
ever read, for `Identifier.name`).  Walk order is `Object.keys` order, i.e.
the property-list order. -/

mutual
inductive JSNode where
  | mk : String → Option SrcLoc → List (String × JsProp) → JSNode
inductive JsProp where
  | child : JSNode → JsProp
  | childList : List JSNode → JsProp
  | str : String → JsProp
end

def JSNode.type : JSNode → String
  | .mk t _ _ => t

def JSNode.loc : JSNode → Option SrcLoc
  | .mk _ l _ => l

def JSNode.props : JSNode → List (String × JsProp)
  | .mk _ _ p => p

/-- `getNodeProp` (a JS object lookup; keys are unique in an object). -/
def getNodeProp (n : JSNode) (key : String) : Option JsProp :=
  (n.props.find? (fun kv => kv.1 == key)).map (fun kv => kv.2)

def NESTED_FUNCTION_TYPES : List String :=
  ["FunctionDeclaration", "FunctionExpression", "ArrowFunctionExpression"]

def SKIP_WALK_KEYS : List String := ["parent", "loc", "range"]

/-- `isOutsideRange`: a node with no location is never outside. -/
def isOutsideRange (n : JSNode) (startLine endLine : Nat) : Bool :=
  match n.loc with
  | none => false
  | some l => l.stop.line < startLine || endLine < l.start.line

/-- `n.loc?.start.line ?? 0`. -/
def nodeStartLine (n : JSNode) : Nat :=
  match n.loc with
  | some l => l.start.line
  | none => 0

/-! `walkInRange`, reified as the list of visited nodes in visit order:
skip nodes outside the range, never descend into (or visit) a non-root node
whose type is a nested-function type. -/
mutual
def walkNode (s e : Nat) (isRoot : Bool) : JSNode → List JSNode
  | .mk t l props =>
    if isOutsideRange (.mk t l props) s e then []
    else if !isRoot && NESTED_FUNCTION_TYPES.contains t then []
    else .mk t l props :: walkProps s e props
def walkProps (s e : Nat) : List (String × JsProp) → List JSNode
  | [] => []
  | (k, v) :: rest =>
    (if SKIP_WALK_KEYS.contains k then [] else walkVal s e v) ++ walkProps s e rest
def walkVal (s e : Nat) : JsProp → List JSNode
  | .child m => walkNode s e false m
  | .childList ms => walkNodes s e ms
  | .str _ => []
def walkNodes (s e : Nat) : List JSNode → List JSNode
  | [] => []
  | m :: ms => walkNode s e false m ++ walkNodes s e ms
end

/-! `resolveRootIdentifier`: walk a member-expression chain down its `object`
links to the root; return the root's name when it is an `Identifier` (an
absent or non-string name behaves like the source's falsy check).  The
source's `getNodeProp(current, "object")` lookup is inlined as the mutual
helper `resolveObjectProp` — the first property named `object` is taken, and
a non-node value stops the walk — so that the function is structurally
recursive and computes inside the kernel. -/
mutual
def resolveRootIdentifier : JSNode → Option String
  | .mk t l props =>
    if t == "MemberExpression" then resolveObjectProp props
    else if t == "Identifier" then
      match getNodeProp (.mk t l props) "name" with
      | some (JsProp.str s) => some s
      | _ => none
    else none
def resolveObjectProp : List (String × JsProp) → Option String
  | [] => none
  | (k, v) :: rest =>
    if k == "object" then
      match v with
      | JsProp.child m => resolveRootIdentifier m
      | _ => none
    else resolveObjectProp rest
end

/-- `isDeclaredInRange`. -/
def isDeclaredInRange (v : VariableInfo) (startLine endLine : Nat) : Bool :=
  startLine ≤ v.declarationLine && v.declarationLine ≤ endLine

/-- The variable map (a JS `Map<string, VariableInfo>`, iterated in insertion
order; keys are unique in any map the variable tracker builds).  Lookup is
the first entry with the given name. -/
abbrev VarMap := List VariableInfo

def varMapGet (vars : VarMap) (name : String) : Option VariableInfo :=
  List.find? (fun v => v.name == name) vars

/-- `MUTATING_METHODS`. -/
def MUTATING_METHODS : List String :=
  ["push", "pop", "shift", "unshift", "splice", "sort", "reverse", "fill",
   "copyWithin", "set", "add", "delete", "clear"]

/-- `findExternalVariable`: resolve the member chain's root identifier to a
tracked variable declared outside the range (a falsy — empty — root name is
rejected like the source's `!rootName` check). -/
def findExternalVariable (memberExpr : JSNode) (vars : VarMap)
    (startLine endLine : Nat) : Option VariableInfo :=
  match resolveRootIdentifier memberExpr with
  | none => none
  | some rootName =>
    if rootName == "" then none
    else
      match varMapGet vars rootName with
      | none => none
      | some v =>
        if isDeclaredInRange v startLine endLine then none else some v

/-- `checkPropertyAssignment`: `obj.x = ...` on an external variable. -/
def checkPropertyAssignment (n : JSNode) (vars : VarMap)
    (startLine endLine : Nat) : Option MutationInfo :=
  match getNodeProp n "left" with
  | some (JsProp.child left) =>
    if left.type == "MemberExpression" then
      (findExternalVariable left vars startLine endLine).map
        (fun v => ⟨v, nodeStartLine n, "assignment"⟩)
    else none
  | _ => none

/-- `checkPropertyUpdate`: `obj.x++` on an external variable. -/
def checkPropertyUpdate (n : JSNode) (vars : VarMap)
    (startLine endLine : Nat) : Option MutationInfo :=
  match getNodeProp n "argument" with
  | some (JsProp.child arg) =>
    if arg.type == "MemberExpression" then
      (findExternalVariable arg vars startLine endLine).map
        (fun v => ⟨v, nodeStartLine n, "increment"⟩)
    else none
  | _ => none

/-- `checkMethodCallMutation`: `arr.push(...)` and the other mutating method
names, on an external variable. -/
def checkMethodCallMutation (n : JSNode) (vars : VarMap)
    (startLine endLine : Nat) : Option MutationInfo :=
  match getNodeProp n "callee" with
  | some (JsProp.child callee) =>
    if callee.type == "MemberExpression" then
      match getNodeProp callee "property" with
      | some (JsProp.child prop) =>
        if prop.type == "Identifier" then
          match getNodeProp prop "name" with
          | some (JsProp.str methodName) =>
            if MUTATING_METHODS.contains methodName then
              (findExternalVariable callee vars startLine endLine).map
                (fun v => ⟨v, nodeStartLine n, "method-call"⟩)
            else none
          | _ => none
        else none
      | _ => none
    else none
  | _ => none

/-- The `AST_MUTATION_CHECKERS` dispatch table. -/
def runMutationChecker (n : JSNode) (vars : VarMap)
    (startLine endLine : Nat) : Option MutationInfo :=
  if n.type == "AssignmentExpression" then
    checkPropertyAssignment n vars startLine endLine
  else if n.type == "UpdateExpression" then
    checkPropertyUpdate n vars startLine endLine
  else if n.type == "CallExpression" then
    checkMethodCallMutation n vars startLine endLine
  else none

/-- `detectAstMutations`: run the checkers over every node visited by
`walkInRange`, in visit order. -/
def detectAstMutations (candidate : ExtractionCandidate) (vars : VarMap)
    (functionNode : JSNode) : List MutationInfo :=
  (walkNode candidate.startLine candidate.endLine true functionNode).filterMap
    (fun n => runMutationChecker n vars candidate.startLine candidate.endLine)

/-- `getWritesInRange`. -/
def getWritesInRange (v : VariableInfo) (startLine endLine : Nat) :
    List VariableReference :=
  v.references.filter (fun r =>
    (r.type == "write" || r.type == "readwrite") &&
    startLine ≤ r.line && r.line ≤ endLine)

/-- `detectDirectMutations`: a write reference inside the range on a variable
declared outside it (`readwrite` reported as `increment`, `write` as
`assignment`). -/
def detectDirectMutations (candidate : ExtractionCandidate)
    (vars : VarMap) : List MutationInfo :=
  (vars.filter (fun v =>
      !(isDeclaredInRange v candidate.startLine candidate.endLine))).flatMap
    (fun v =>
      (getWritesInRange v candidate.startLine candidate.endLine).map
        (fun w =>
          ⟨v, w.line, if w.type == "readwrite" then "increment" else "assignment"⟩))

/-- The dedup key `` `${m.variable.name}:${m.mutationLine}` ``. -/
def dedupKey (m : MutationInfo) : String :=
  m.varInfo.name ++ ":" ++ toString m.mutationLine

/-- The loop of `deduplicateMutations` (the `seen` set of keys). -/
def dedupLoop : List MutationInfo → List String → List MutationInfo
  | [], _ => []
  | m :: rest, seen =>
    if seen.contains (dedupKey m) then dedupLoop rest seen
    else m :: dedupLoop rest (dedupKey m :: seen)

/-- `deduplicateMutations`. -/
def deduplicateMutations (mutationSets : List (List MutationInfo)) :
    List MutationInfo :=
  dedupLoop mutationSets.flatten []

/-- The `mutations` field of `analyzeVariableFlow`: direct mutations, then
AST mutations, deduplicated by variable name and line. -/
def detectMutations (candidate : ExtractionCandidate) (vars : VarMap)
    (functionNode : JSNode) : List MutationInfo :=
  deduplicateMutations
    [detectDirectMutations candidate vars,
     detectAstMutations candidate vars functionNode]

/-- `detectThisReferences`: the `found` flag is set exactly when some visited
node is a `ThisExpression`. -/
def detectThisReferences (candidate : ExtractionCandidate)
    (functionNode : JSNode) : Bool :=
  (walkNode candidate.startLine candidate.endLine true functionNode).any
    (fun n => n.type == "ThisExpression")

/-! ### The walk never enters nested function literals of any flavor -/

mutual
theorem walkNode_no_nested (s e : Nat) :
    (m : JSNode) → ∀ x ∈ walkNode s e false m,
      NESTED_FUNCTION_TYPES.contains x.type = false
  | .mk t l props => by
    intro x hx
    rw [walkNode] at hx
    by_cases h1 : isOutsideRange (.mk t l props) s e
    · rw [if_pos h1] at hx; simp at hx
    · rw [if_neg h1] at hx
      by_cases h2 : NESTED_FUNCTION_TYPES.contains t = true
      · simp only [Bool.not_false, Bool.true_and, h2, if_pos] at hx
        simp at hx
      · simp only [Bool.not_false, Bool.true_and, h2, if_neg] at hx
        rcases List.mem_cons.mp hx with rfl | hx2
        · simpa [JSNode.type] using h2
        · exact walkProps_no_nested s e props x hx2
theorem walkProps_no_nested (s e : Nat) :
    (props : List (String × JsProp)) → ∀ x ∈ walkProps s e props,
      NESTED_FUNCTION_TYPES.contains x.type = false
  | [] => by intro x hx; simp [walkProps] at hx
  | (k, v) :: rest => by
    intro x hx
    rw [walkProps] at hx
    rcases List.mem_append.mp hx with h | h
    · by_cases hk : SKIP_WALK_KEYS.contains k = true
      · rw [if_pos hk] at h; simp at h
      · rw [if_neg hk] at h
        exact walkVal_no_nested s e v x h
    · exact walkProps_no_nested s e rest x h
theorem walkVal_no_nested (s e : Nat) :
    (v : JsProp) → ∀ x ∈ walkVal s e v,
      NESTED_FUNCTION_TYPES.contains x.type = false
  | .child m => by
    intro x hx
    rw [walkVal] at hx
    exact walkNode_no_nested s e m x hx
  | .childList ms => by
    intro x hx
    rw [walkVal] at hx
    exact walkNodes_no_nested s e ms x hx
  | .str sArg => by intro x hx; rw [walkVal] at hx; simp at hx
theorem walkNodes_no_nested (s e : Nat) :
    (ms : List JSNode) → ∀ x ∈ walkNodes s e ms,
      NESTED_FUNCTION_TYPES.contains x.type = false
  | [] => by intro x hx; simp [walkNodes] at hx
  | m :: ms => by
    intro x hx
    rw [walkNodes] at hx
    rcases List.mem_append.mp hx with h | h
    · exact walkNode_no_nested s e m x h
    · exact walkNodes_no_nested s e ms x h
end

/-- Every node visited by the ranged walk is the root or has a type outside
`NESTED_FUNCTION_TYPES` (the walk stops at every nested function literal,
arrow functions included). -/
theorem walkNode_root_no_nested (s e : Nat) (root : JSNode) :
    ∀ x ∈ walkNode s e true root,
      x = root ∨ NESTED_FUNCTION_TYPES.contains x.type = false := by
  rcases root with ⟨t, l, props⟩
  intro x hx
  rw [walkNode] at hx
  by_cases h1 : isOutsideRange (.mk t l props) s e
  · rw [if_pos h1] at hx; simp at hx
  · rw [if_neg h1] at hx
    simp only [Bool.not_true, Bool.false_and, Bool.false_eq_true, if_false] at hx
    rcases List.mem_cons.mp hx with rfl | hx2
    · exact Or.inl rfl
    · exact Or.inr (walkProps_no_nested s e props x hx2)

/-! ### Self-reference detection: concrete inputs -/

/-- The candidate range (lines 2..9) used by the self-reference examples. -/
def candC6 : ExtractionCandidate :=
  { startLine := 2, endLine := 9, complexity := 5, complexityPercentage := 50
    points := [], constructs := [] }

/-- `this` at line 3 of the function body. -/
def thisNodeC6 : JSNode := .mk "ThisExpression" (some ⟨⟨3, 4⟩, ⟨3, 8⟩⟩) []

/-- A function spanning lines 1..10 whose body (lines 2..9) contains, at
line 3, a function literal of kind `t` whose body is a `this` expression:
the shape of `function outer() { (<literal of kind t> => this); }`. -/
def wrapThisIn (t : String) : JSNode :=
  .mk "FunctionDeclaration" (some ⟨⟨1, 0⟩, ⟨10, 1⟩⟩)
    [("id", .child (.mk "Identifier" (some ⟨⟨1, 9⟩, ⟨1, 14⟩⟩) [("name", .str "outer")])),
     ("body", .child (.mk "BlockStatement" (some ⟨⟨2, 0⟩, ⟨9, 1⟩⟩)
       [("body", .childList
         [.mk "ExpressionStatement" (some ⟨⟨3, 0⟩, ⟨3, 24⟩⟩)
           [("expression", .child (.mk t (some ⟨⟨3, 1⟩, ⟨3, 22⟩⟩)
             [("body", .child thisNodeC6)]))]])]))]

/-- The same function with a direct `this` (inside no nested literal). -/
def rootDirectThis : JSNode :=
  .mk "FunctionDeclaration" (some ⟨⟨1, 0⟩, ⟨10, 1⟩⟩)
    [("id", .child (.mk "Identifier" (some ⟨⟨1, 9⟩, ⟨1, 14⟩⟩) [("name", .str "outer")])),
     ("body", .child (.mk "BlockStatement" (some ⟨⟨2, 0⟩, ⟨9, 1⟩⟩)
       [("body", .childList
         [.mk "ExpressionStatement" (some ⟨⟨3, 0⟩, ⟨3, 24⟩⟩)
           [("expression", .child thisNodeC6)]])]))]

/-- C6 counterexample: a direct `this` inside an arrow function lying within
the candidate range does NOT set the self-reference flag — the walk excludes
arrow literals exactly like ordinary function literals (the claim states
arrows are not excluded and the flag would be true). -/
theorem detectThisReferences_arrow_not_flagged :
    detectThisReferences candC6 (wrapThisIn "ArrowFunctionExpression") = false := by
  rfl

/-- C6 amended: the ranged walk excludes every nested function literal —
ordinary functions AND arrow functions — so a `this` inside any nested
literal in range leaves the flag false, while a direct `this` in range sets
it. -/
theorem detectThisReferences_excludes_all_nested :
    (∀ (s e : Nat) (root : JSNode), ∀ x ∈ walkNode s e true root,
        x = root ∨ NESTED_FUNCTION_TYPES.contains x.type = false) ∧
      (∀ t ∈ NESTED_FUNCTION_TYPES,
        detectThisReferences candC6 (wrapThisIn t) = false) ∧
      detectThisReferences candC6 rootDirectThis = true := by
  refine ⟨walkNode_root_no_nested, ?_, by rfl⟩
  intro t ht
  simp only [NESTED_FUNCTION_TYPES, List.mem_cons, List.not_mem_nil, or_false] at ht
  rcases ht with rfl | rfl | rfl <;> rfl

/-- Witness for the amended C6 theorem at concrete inputs. -/
theorem detectThisReferences_excludes_all_nested_witness :
    detectThisReferences candC6 (wrapThisIn "FunctionExpression") = false :=
  detectThisReferences_excludes_all_nested.2.1 "FunctionExpression" (by decide)

/-! ### Mutation detection: declared-inside is never reported,
declared-outside is always reported -/

theorem mem_of_mem_dedupLoop :
    ∀ (l : List MutationInfo) (seen : List String) (m : MutationInfo),
      m ∈ dedupLoop l seen → m ∈ l
  | [], _, m => by simp [dedupLoop]
  | x :: rest, seen, m => by
    intro hm
    rw [dedupLoop] at hm
    by_cases h : seen.contains (dedupKey x) = true
    · rw [if_pos h] at hm
      exact List.mem_cons_of_mem x (mem_of_mem_dedupLoop rest seen m hm)
    · rw [if_neg h] at hm
      rcases List.mem_cons.mp hm with rfl | hm2
      · exact List.mem_cons_self _ _
      · exact List.mem_cons_of_mem x (mem_of_mem_dedupLoop rest _ m hm2)

theorem dedupLoop_preserves_key :
    ∀ (l : List MutationInfo) (seen : List String) (m : MutationInfo),
      m ∈ l →
      dedupKey m ∈ seen ∨ ∃ m2 ∈ dedupLoop l seen, dedupKey m2 = dedupKey m
  | [], _, m => by simp
  | x :: rest, seen, m => by
    intro hm
    rw [dedupLoop]
    by_cases h : seen.contains (dedupKey x) = true
    · rw [if_pos h]
      rcases List.mem_cons.mp hm with rfl | hm2
      · exact Or.inl (List.mem_of_elem_eq_true h)
      · exact dedupLoop_preserves_key rest seen m hm2
    · rw [if_neg h]
      rcases List.mem_cons.mp hm with rfl | hm2
      · exact Or.inr ⟨m, List.mem_cons_self _ _, rfl⟩
      · rcases dedupLoop_preserves_key rest (dedupKey x :: seen) m hm2 with hseen | hex
        · rcases List.mem_cons.mp hseen with heq | hseen2
          · exact Or.inr ⟨x, List.mem_cons_self _ _, heq.symm⟩
          · exact Or.inl hseen2
        · rcases hex with ⟨m2, hm2mem, hkey⟩
          exact Or.inr ⟨m2, List.mem_cons_of_mem x hm2mem, hkey⟩


theorem findExternalVariable_not_declared {memberExpr : JSNode} {vars : VarMap}
    {s e : Nat} {v : VariableInfo}
    (h : findExternalVariable memberExpr vars s e = some v) :
    isDeclaredInRange v s e = false := by
  unfold findExternalVariable at h
  split at h
  · exact absurd h (by simp)
  · split_ifs at h with hempty
    split at h
    · exact absurd h (by simp)
    · rename_i v2 hget
      split_ifs at h with hd
      have hv : v2 = v := by simpa using h
      subst hv
      exact Bool.eq_false_iff.mpr hd

theorem checker_not_declared {n : JSNode} {vars : VarMap} {s e : Nat}
    {m : MutationInfo}
    (h : runMutationChecker n vars s e = some m) :
    isDeclaredInRange m.varInfo s e = false := by
  unfold runMutationChecker checkPropertyAssignment checkPropertyUpdate
    checkMethodCallMutation at h
  repeat' split at h
  all_goals
    first
      | (rcases Option.map_eq_some'.mp h with ⟨v, hv, hmv⟩
         have hvm : m.varInfo = v := by rw [← hmv]
         rw [hvm]
         exact findExternalVariable_not_declared hv)
      | exact absurd h (by simp)

/-- C8: a mutation on a variable declared inside the candidate range is
never reported; a property write / update / mutating method call on a node
the ranged walk visits, resolving to a tracked variable declared outside the
range, is always reported, as is a direct write reference in range on an
outside-declared variable — each surviving deduplication by the
`name:line` key. -/
theorem detectMutations_inside_never_outside_always
    (cand : ExtractionCandidate) (vars : VarMap) (root : JSNode) :
    (∀ m ∈ detectMutations cand vars root,
        isDeclaredInRange m.varInfo cand.startLine cand.endLine = false) ∧
      (∀ n ∈ walkNode cand.startLine cand.endLine true root,
        ∀ m : MutationInfo,
          runMutationChecker n vars cand.startLine cand.endLine = some m →
          ∃ m2 ∈ detectMutations cand vars root, dedupKey m2 = dedupKey m) ∧
      (∀ v ∈ vars, isDeclaredInRange v cand.startLine cand.endLine = false →
        ∀ r ∈ v.references,
          (r.type == "write" || r.type == "readwrite") = true →
          cand.startLine ≤ r.line → r.line ≤ cand.endLine →
          ∃ m2 ∈ detectMutations cand vars root,
            dedupKey m2 = v.name ++ ":" ++ toString r.line) := by
  have hunfold : detectMutations cand vars root =
      dedupLoop (detectDirectMutations cand vars ++
        detectAstMutations cand vars root) [] := by
    simp [detectMutations, deduplicateMutations]
  refine ⟨?_, ?_, ?_⟩
  · intro m hm
    rw [hunfold] at hm
    have hmem := mem_of_mem_dedupLoop _ _ m hm
    rcases List.mem_append.mp hmem with hd | ha
    · unfold detectDirectMutations at hd
      rcases List.mem_flatMap.mp hd with ⟨v, hvf, hmmap⟩
      rcases List.mem_map.mp hmmap with ⟨w, _, hwm⟩
      have hfil := List.of_mem_filter hvf
      have hvi : m.varInfo = v := by rw [← hwm]
      rw [hvi]
      simpa using hfil
    · unfold detectAstMutations at ha
      rcases List.mem_filterMap.mp ha with ⟨n, _, hchk⟩
      exact checker_not_declared hchk
  · intro n hn m hchk
    have hmA : m ∈ detectAstMutations cand vars root :=
      List.mem_filterMap.mpr ⟨n, hn, hchk⟩
    have hflat : m ∈ detectDirectMutations cand vars ++
        detectAstMutations cand vars root := List.mem_append.mpr (Or.inr hmA)
    rcases dedupLoop_preserves_key _ [] m hflat with hc | hex
    · simp at hc
    · rw [hunfold]
      exact hex
  · intro v hv hdecl r hr htype hge hle
    have hwrit : r ∈ getWritesInRange v cand.startLine cand.endLine := by
      unfold getWritesInRange
      refine List.mem_filter.mpr ⟨hr, ?_⟩
      simp only [Bool.and_eq_true, decide_eq_true_eq]
      exact ⟨⟨htype, hge⟩, hle⟩
    have hmD : (⟨v, r.line,
        if r.type == "readwrite" then "increment" else "assignment"⟩ : MutationInfo) ∈
        detectDirectMutations cand vars := by
      unfold detectDirectMutations
      refine List.mem_flatMap.mpr ⟨v, ?_, ?_⟩
      · refine List.mem_filter.mpr ⟨hv, ?_⟩
        simp [hdecl]
      · exact List.mem_map.mpr ⟨r, hwrit, rfl⟩
    have hflat : (⟨v, r.line,
        if r.type == "readwrite" then "increment" else "assignment"⟩ : MutationInfo) ∈
        detectDirectMutations cand vars ++ detectAstMutations cand vars root :=
      List.mem_append.mpr (Or.inl hmD)
    rcases dedupLoop_preserves_key _ [] _ hflat with hc | hex
    · simp at hc
    · rw [hunfold]
      rcases hex with ⟨m2, hm2, hkey⟩
      exact ⟨m2, hm2, hkey⟩

/-! ### Concrete mutation-detection scenario for the witness -/

/-- A variable `acc` declared at line 1 (outside the candidate range 2..9)
with one `write` reference at line 3. -/
def vOutC8 : VariableInfo :=
  { name := "acc", declarationLine := 1, declarationColumn := 6
    isMutable := true, references := [⟨3, 2, "write"⟩] }

def varsC8 : VarMap := [vOutC8]

def candC8 : ExtractionCandidate :=
  { startLine := 2, endLine := 9, complexity := 6, complexityPercentage := 40
    points := [], constructs := [] }

/-- `acc.push(x)` at line 4. -/
def memberC8 : JSNode :=
  .mk "MemberExpression" (some ⟨⟨4, 2⟩, ⟨4, 10⟩⟩)
    [("object", .child (.mk "Identifier" (some ⟨⟨4, 2⟩, ⟨4, 5⟩⟩) [("name", .str "acc")])),
     ("property", .child (.mk "Identifier" (some ⟨⟨4, 6⟩, ⟨4, 10⟩⟩) [("name", .str "push")]))]

def callC8 : JSNode :=
  .mk "CallExpression" (some ⟨⟨4, 2⟩, ⟨4, 13⟩⟩)
    [("callee", .child memberC8), ("arguments", .childList [])]

/-- `function f() { acc.push(x); }` spanning lines 1..10, with the call at
line 4 inside the candidate range. -/
def rootC8 : JSNode :=
  .mk "FunctionDeclaration" (some ⟨⟨1, 0⟩, ⟨10, 1⟩⟩)
    [("id", .child (.mk "Identifier" (some ⟨⟨1, 9⟩, ⟨1, 10⟩⟩) [("name", .str "f")])),
     ("body", .child (.mk "BlockStatement" (some ⟨⟨2, 0⟩, ⟨9, 1⟩⟩)
       [("body", .childList
         [.mk "ExpressionStatement" (some ⟨⟨4, 2⟩, ⟨4, 14⟩⟩)
           [("expression", .child callC8)]])]))]

def mC8 : MutationInfo := ⟨vOutC8, 4, "method-call"⟩


/-- Witness for C8 at the concrete scenario: the method call on the
outside-declared `acc` is reported, and so is its direct write at line 3. -/
theorem detectMutations_inside_never_outside_always_witness :
    (∃ m2 ∈ detectMutations candC8 varsC8 rootC8, dedupKey m2 = dedupKey mC8) ∧
      ∃ m2 ∈ detectMutations candC8 varsC8 rootC8,
        dedupKey m2 = "acc" ++ ":" ++ toString 3 := by
  constructor
  · refine (detectMutations_inside_never_outside_always candC8 varsC8 rootC8).2.1
      callC8 ?_ mC8 (by rfl)
    exact List.mem_cons_of_mem _ (List.mem_cons_of_mem _
      (List.mem_cons_of_mem _ (List.mem_cons_self _ _)))
  · exact (detectMutations_inside_never_outside_always candC8 varsC8 rootC8).2.2
      vOutC8 (List.mem_cons_self _ _) (by decide) ⟨3, 2, "write"⟩
      (List.mem_cons_self _ _) (by decide) (by decide) (by decide)

/-! ## The scorer visitors

The cyclomatic, cognitive and combined scorers dispatch on `node.type` over
the ESTree AST.  They are embedded over the following fragment of ESTree
(every construct any of their handlers mentions, plus enough expression and
statement glue to place them anywhere).  Each node carries a numeric id
standing in for JS object identity: the visitors' nesting-region sets are
`Set<ESTreeNode>` keyed by object identity, and `parent.alternate === node`
compares identities; every concrete input below uses pairwise-distinct ids.
Nodes in this fragment carry no `loc` (the code defaults absent locations to
`DEFAULT_LOCATION`, so every emitted point has the zero location and the
claims compare totals, tags and messages).  Identifier children of
`break`/`continue` labels and function names are not themselves traversed
(no visitor has a handler observing them, and they can never be members of a
nesting-region set). -/

inductive Ast where
  | iden (id : Nat) (name : String)
  | lit (id : Nat) (strVal : Option String)
  | arrayLit (id : Nat)
  | objectLit (id : Nat)
  | thisE (id : Nat)
  | jsxElem (id : Nat)
  | exprStmt (id : Nat) (e : Ast)
  | retStmt (id : Nat) (arg : Option Ast)
  | block (id : Nat) (body : List Ast)
  | varDecl (id : Nat) (kind : String) (decls : List Ast)
  | varDeclr (id : Nat) (pat : Ast) (init : Option Ast)
  | ifStmt (id : Nat) (test : Ast) (cons : Ast) (alt : Option Ast)
  | forStmt (id : Nat) (body : Ast)
  | forInStmt (id : Nat) (left : Ast) (right : Ast) (body : Ast)
  | forOfStmt (id : Nat) (left : Ast) (right : Ast) (body : Ast)
  | whileStmt (id : Nat) (test : Ast) (body : Ast)
  | doWhileStmt (id : Nat) (body : Ast) (test : Ast)
  | switchStmt (id : Nat) (disc : Ast) (cases : List Ast)
  | switchCase (id : Nat) (test : Option Ast) (body : List Ast)
  | tryStmt (id : Nat) (blk : Ast) (handler : Option Ast) (finalizer : Option Ast)
  | catchCl (id : Nat) (body : Ast)
  | condExpr (id : Nat) (test : Ast) (cons : Ast) (alt : Ast)
  | logical (id : Nat) (op : String) (l : Ast) (r : Ast)
  | assign (id : Nat) (op : String) (l : Ast) (r : Ast)
  | callE (id : Nat) (callee : Ast) (args : List Ast)
  | member (id : Nat) (obj : Ast) (prop : Ast) (computed : Bool)
  | breakStmt (id : Nat) (label : Option String)
  | contStmt (id : Nat) (label : Option String)
  | funcDecl (id : Nat) (fname : String) (body : Ast)
  | funcExpr (id : Nat) (fname : Option String) (body : Ast)
  | arrowFunc (id : Nat) (body : Ast)

/-- The node's identity surrogate. -/
def Ast.nid : Ast → Nat
  | .iden i _ | .lit i _ | .arrayLit i | .objectLit i | .thisE i | .jsxElem i
  | .exprStmt i _ | .retStmt i _ | .block i _ | .varDecl i _ _
  | .varDeclr i _ _ | .ifStmt i _ _ _ | .forStmt i _ | .forInStmt i _ _ _
  | .forOfStmt i _ _ _ | .whileStmt i _ _ | .doWhileStmt i _ _
  | .switchStmt i _ _ | .switchCase i _ _ | .tryStmt i _ _ _ | .catchCl i _
  | .condExpr i _ _ _ | .logical i _ _ _ | .assign i _ _ _ | .callE i _ _
  | .member i _ _ _ | .breakStmt i _ | .contStmt i _ | .funcDecl i _ _
  | .funcExpr i _ _ | .arrowFunc i _ => i

/-! ### `src/src/utils.ts`: constants and function-name resolution -/

def BASE_FUNCTION_COMPLEXITY : Int := 1
def DEFAULT_COMPLEXITY_INCREMENT : Int := 1
def LOGICAL_OPERATORS : List String := ["&&", "||", "??"]

/-- `LOGICAL_ASSIGNMENT_OPERATORS` (as in `src/src/cyclomatic.ts`, imported
by the combined visitor from utils). -/
def LOGICAL_ASSIGNMENT_OPERATORS : List String := ["||=", "&&=", "??="]

/-- `getFunctionName`: the node's own name, else the parent's binding name
(variable declarator or assignment target), else the anonymous placeholder
(`Property`, `MethodDefinition` and `PropertyDefinition` parents are outside
this fragment). -/
def getFunctionName (node : Ast) (parent : Option Ast) : String :=
  let fromNode : Option String :=
    match node with
    | .funcDecl _ n _ => some n
    | .funcExpr _ n _ => n
    | _ => none
  match fromNode with
  | some n => n
  | none =>
    let fromParent : Option String :=
      match parent with
      | some (.varDeclr _ (.iden _ nm) _) => some nm
      | some (.assign _ _ (.iden _ nm) _) => some nm
      | _ => none
    match fromParent with
    | some n => n
    | none =>
      match node with
      | .arrowFunc _ _ => "<arrow>"
      | _ => "<anonymous>"

/-! ### `src/src/cognitive/patterns.ts` (staged in `src/unnamed/part_001`) -/

def DEFAULT_VALUE_OPERATORS : List String := ["||", "??"]

/-- `LITERAL_TYPES` membership. -/
def isLiteralType : Ast → Bool
  | .lit _ _ | .arrayLit _ | .objectLit _ => true
  | _ => false

/-- `isElseIf`: the parent is an `IfStatement` whose `alternate` is this
node (`===` rendered as id equality).  The ancestor list has the immediate
parent first. -/
def isElseIf (node : Ast) (anc : List Ast) : Bool :=
  match anc.head? with
  | some (.ifStmt _ _ _ (some alt)) => alt.nid == node.nid
  | _ => false

/-- The loop of `getRightmostInChain`: follow `right` children while the
current node is a logical expression whose operator is in `operators`. -/
def followRight (operators : List String) : Ast → Ast
  | .logical i op l r =>
    if operators.contains op then followRight operators r
    else .logical i op l r
  | a => a

/-- `getRightmostInChain` (the argument is always a logical expression). -/
def getRightmostInChain (node : Ast) (operators : List String) : Ast :=
  match node with
  | .logical _ _ _ r => followRight operators r
  | a => a

/-- `getChainRoot`: walk up through same-family logical parents; returns the
chain root together with the root's own ancestor list. -/
def getChainRoot (operators : List String) : Ast → List Ast → Ast × List Ast
  | node, [] => (node, [])
  | node, p :: rest =>
    match p with
    | .logical i op l r =>
      if operators.contains op then getChainRoot operators (.logical i op l r) rest
      else (node, p :: rest)
    | _ => (node, p :: rest)

/-- `isDefaultValuePattern`.  `getText` abstracts
`context.sourceCode.getText` (the source text of a node); concrete runs use
the identifier-name extractor below, which agrees with source extraction on
every node the pattern compares in this fragment. -/
def isDefaultValuePattern (getText : Ast → String) (node : Ast)
    (anc : List Ast) : Bool :=
  match node with
  | .logical i op l r =>
    if !DEFAULT_VALUE_OPERATORS.contains op then false
    else
      let rightmost := getRightmostInChain (.logical i op l r) DEFAULT_VALUE_OPERATORS
      if !isLiteralType rightmost then false
      else
        let rootPair := getChainRoot DEFAULT_VALUE_OPERATORS (.logical i op l r) anc
        match rootPair.2.head? with
        | some (.varDeclr _ _ _) => true
        | some (.assign _ _ assignLeft _) =>
          match rootPair.1 with
          | .logical _ _ rootLeft _ => getText rootLeft == getText assignLeft
          | _ => false
        | _ => false
  | _ => false

/-- `isJsxShortCircuit` (JSX fragments are represented by `jsxElem` too). -/
def isJsxShortCircuit (node : Ast) : Bool :=
  match node with
  | .logical i op l r =>
    if op != "&&" then false
    else
      match getRightmostInChain (.logical i op l r) ["&&"] with
      | .jsxElem _ => true
      | _ => false
  | _ => false

/-- `context.sourceCode.getText` for the nodes the default-value pattern
compares: an identifier's text is its name. -/
def identText : Ast → String
  | .iden _ nm => nm
  | _ => "<expr>"

/-! ### `src/src/cognitive/recursion.ts` (staged in `src/unnamed/part_000`) -/

def CALL_APPLY_BIND : List String := ["call", "apply", "bind"]

/-- `getPropertyName`. -/
def getPropertyName (prop : Ast) (computed : Bool) : Option String :=
  if !computed then
    match prop with
    | .iden _ n => some n
    | _ => none
  else
    match prop with
    | .lit _ (some sv) => some sv
    | _ => none

/-- `isDirectRecursion`: `foo()` inside `function foo`. -/
def isDirectRecursion (callee : Ast) (functionName : String) : Bool :=
  match callee with
  | .iden _ n => n == functionName
  | _ => false

/-- `isCallApplyBindRecursion`: `foo.call(...)`, `foo.apply(...)`,
`foo.bind(...)`. -/
def isCallApplyBindRecursion (callee : Ast) (functionName : String) : Bool :=
  match callee with
  | .member _ (.iden _ objName) (.iden _ propName) _ =>
    objName == functionName && CALL_APPLY_BIND.contains propName
  | _ => false

/-- `isThisMethodRecursion`: `this.foo()` or `this["foo"]()`. -/
def isThisMethodRecursion (callee : Ast) (functionName : String) : Bool :=
  match callee with
  | .member _ (.thisE _) prop computed =>
    getPropertyName prop computed == some functionName
  | _ => false

/-- `isThisMethodCallApplyBindRecursion`: `this.foo.call(...)` etc. -/
def isThisMethodCABRecursion (callee : Ast) (functionName : String) : Bool :=
  match callee with
  | .member _ (.member _ (.thisE _) innerProp innerComputed) (.iden _ propName) _ =>
    CALL_APPLY_BIND.contains propName &&
      getPropertyName innerProp innerComputed == some functionName
  | _ => false

/-- `isRecursiveCall` on the call's callee. -/
def isRecursiveCall (callee : Ast) (functionName : String) : Bool :=
  isDirectRecursion callee functionName ||
    isCallApplyBindRecursion callee functionName ||
    isThisMethodRecursion callee functionName ||
    isThisMethodCABRecursion callee functionName

/-- `isRecursiveCall` applied to a call-expression node. -/
def isRecursiveCallNode (node : Ast) (functionName : String) : Bool :=
  match node with
  | .callE _ callee _ => isRecursiveCall callee functionName
  | _ => false

/-! ### Complexity points as the visitors build them

`createComplexityPoint` receives a construct label (`message` parameter),
an amount and a nesting level, and stores a formatted display message.  The
embedding keeps the label in a `tag` field next to the formatted `message`:
the display string is a function of `(tag, amount, nestingLevel)` and
determines them (the fixed formats are injective), so equality of embedded
points coincides with equality of the source's points.  The location is the
zero `DEFAULT_LOCATION` for every point because no node of the fragment
carries a `loc`. -/
structure CPoint where
  complexity : Int
  tag : String
  message : String
deriving Repr, DecidableEq

/-- `createComplexityPoint` (the location argument dropped: it is always
`DEFAULT_LOCATION` here). -/
def createCPoint (tag : String) (amount : Int := DEFAULT_COMPLEXITY_INCREMENT)
    (nestingLevel : Int := 0) : CPoint :=
  let complexity := amount + nestingLevel
  let displayMessage :=
    if nestingLevel > 0 then
      s!"+{complexity} (incl. {nestingLevel} for nesting): {tag}"
    else s!"+{amount}: {tag}"
  ⟨complexity, tag, displayMessage⟩

/-- Sum of `point.complexity` over a list (the visitors' `reduce`). -/
def sumComplexity (ps : List CPoint) : Int :=
  ps.foldl (fun acc p => acc + p.complexity) 0

/-! ### The shared walker

`tests/utils/test-helpers.ts` (`walkWithVisitor`) dispatches, for every
node: on enter the node-type handler then the `*` handler; on leave the
node-type `:exit` handler then the `*:exit` handler; children are visited
between, in ESTree field order.  The ancestor list (immediate parent first)
stands in for the walker's parent links. -/

structure EmbVisitor (σ : Type) where
  enter : Ast → List Ast → σ → σ
  leave : Ast → List Ast → σ → σ

mutual
def runVisitor (V : EmbVisitor σ) (a : Ast) (anc : List Ast) (s : σ) : σ :=
  V.leave a anc
    (match a, a :: anc, V.enter a anc s with
     | .iden _ _, _, s1 => s1
     | .lit _ _, _, s1 => s1
     | .arrayLit _, _, s1 => s1
     | .objectLit _, _, s1 => s1
     | .thisE _, _, s1 => s1
     | .jsxElem _, _, s1 => s1
     | .exprStmt _ e, anc2, s1 => runVisitor V e anc2 s1
     | .retStmt _ arg, anc2, s1 => runOpt V arg anc2 s1
     | .block _ body, anc2, s1 => runList V body anc2 s1
     | .varDecl _ _ ds, anc2, s1 => runList V ds anc2 s1
     | .varDeclr _ p i, anc2, s1 => runOpt V i anc2 (runVisitor V p anc2 s1)
     | .ifStmt _ t c alt, anc2, s1 =>
       runOpt V alt anc2 (runVisitor V c anc2 (runVisitor V t anc2 s1))
     | .forStmt _ b, anc2, s1 => runVisitor V b anc2 s1
     | .forInStmt _ l r b, anc2, s1 =>
       runVisitor V b anc2 (runVisitor V r anc2 (runVisitor V l anc2 s1))
     | .forOfStmt _ l r b, anc2, s1 =>
       runVisitor V b anc2 (runVisitor V r anc2 (runVisitor V l anc2 s1))
     | .whileStmt _ t b, anc2, s1 => runVisitor V b anc2 (runVisitor V t anc2 s1)
     | .doWhileStmt _ b t, anc2, s1 =>
       runVisitor V t anc2 (runVisitor V b anc2 s1)
     | .switchStmt _ d cs, anc2, s1 => runList V cs anc2 (runVisitor V d anc2 s1)
     | .switchCase _ t body, anc2, s1 => runList V body anc2 (runOpt V t anc2 s1)
     | .tryStmt _ b h f, anc2, s1 =>
       runOpt V f anc2 (runOpt V h anc2 (runVisitor V b anc2 s1))
     | .catchCl _ b, anc2, s1 => runVisitor V b anc2 s1
     | .condExpr _ t c alt, anc2, s1 =>
       runVisitor V alt anc2 (runVisitor V c anc2 (runVisitor V t anc2 s1))
     | .logical _ _ l r, anc2, s1 => runVisitor V r anc2 (runVisitor V l anc2 s1)
     | .assign _ _ l r, anc2, s1 => runVisitor V r anc2 (runVisitor V l anc2 s1)
     | .callE _ c args, anc2, s1 => runList V args anc2 (runVisitor V c anc2 s1)
     | .member _ o p _, anc2, s1 => runVisitor V p anc2 (runVisitor V o anc2 s1)
     | .breakStmt _ _, _, s1 => s1
     | .contStmt _ _, _, s1 => s1
     | .funcDecl _ _ b, anc2, s1 => runVisitor V b anc2 s1
     | .funcExpr _ _ b, anc2, s1 => runVisitor V b anc2 s1
     | .arrowFunc _ b, anc2, s1 => runVisitor V b anc2 s1)
def runList (V : EmbVisitor σ) : List Ast → List Ast → σ → σ
  | [], _, s => s
  | x :: xs, anc, s => runList V xs anc (runVisitor V x anc s)
def runOpt (V : EmbVisitor σ) : Option Ast → List Ast → σ → σ
  | none, _, s => s
  | some x, anc, s => runVisitor V x anc s
end

/-! ### The combined visitor (`src/src/combined-visitor.ts`) -/

structure CombScope where
  nid : Nat
  name : String
  cyclomaticPoints : List CPoint
  cognitivePoints : List CPoint
  nestingLevel : Int
  nestingNodes : List Nat
  hasRecursiveCall : Bool
deriving Repr

structure CombReport where
  nid : Nat
  name : String
  cyclomatic : Int
  cognitive : Int
  cyclomaticPoints : List CPoint
  cognitivePoints : List CPoint
deriving Repr

structure CombState where
  stack : List CombScope
  lvl : Nat
  reports : List CombReport
deriving Repr

def initComb : CombState := ⟨[], 0, []⟩

def CombState.mapTop (s : CombState) (f : CombScope → CombScope) : CombState :=
  match s.stack with
  | [] => s
  | top :: rest => { s with stack := f top :: rest }

/-- `addCyclomatic` (amount always 1 at the call sites). -/
def combAddCyclomatic (tag : String) (s : CombState) : CombState :=
  s.mapTop (fun sc =>
    { sc with cyclomaticPoints := sc.cyclomaticPoints ++ [createCPoint tag] })

/-- `addCognitive` (flat point). -/
def combAddCognitive (tag : String) (s : CombState) : CombState :=
  s.mapTop (fun sc =>
    { sc with cognitivePoints := sc.cognitivePoints ++ [createCPoint tag] })

/-- `addStructuralCognitive` (amount 1 plus the scope's nesting level). -/
def combAddStructural (tag : String) (s : CombState) : CombState :=
  s.mapTop (fun sc =>
    { sc with cognitivePoints := sc.cognitivePoints ++
        [createCPoint tag DEFAULT_COMPLEXITY_INCREMENT sc.nestingLevel] })

/-- `addNestingNode`. -/
def combAddNestingNode (n : Ast) (s : CombState) : CombState :=
  s.mapTop (fun sc => { sc with nestingNodes := sc.nestingNodes ++ [n.nid] })

/-- `handleNestingEnter` (the `*` handler). -/
def combNestingEnter (n : Ast) (s : CombState) : CombState :=
  s.mapTop (fun sc =>
    if sc.nestingNodes.contains n.nid then
      { sc with nestingLevel := sc.nestingLevel + 1 }
    else sc)

/-- `handleNestingExit` (the `*:exit` handler, also called directly by the
construct exits). -/
def combNestingExit (n : Ast) (s : CombState) : CombState :=
  s.mapTop (fun sc =>
    if sc.nestingNodes.contains n.nid then
      { sc with nestingLevel := sc.nestingLevel - 1
                nestingNodes := sc.nestingNodes.erase n.nid }
    else sc)

/-- `handleIfStatement`. -/
def combIfEnter (node : Ast) (anc : List Ast) (s : CombState) : CombState :=
  let s := combAddCyclomatic "if" s
  match node with
  | .ifStmt _ _ cons _ =>
    if isElseIf node anc then combAddCognitive "else if" s
    else combAddNestingNode cons (combAddStructural "if" s)
  | _ => s

/-- `IfStatement:exit`: release the consequent region; a plain `else` block
adds a flat point and (too late to matter) marks the alternate. -/
def combIfExit (node : Ast) (s : CombState) : CombState :=
  match node with
  | .ifStmt _ _ cons alt =>
    let s := combNestingExit cons s
    match alt with
    | some a =>
      match a with
      | .ifStmt _ _ _ _ => s
      | _ => combAddNestingNode a (combAddCognitive "else" s)
    | none => s
  | _ => s

/-- `handleLogicalExpression` (combined): cyclomatic always counts the
operator; cognitive skips excluded patterns and same-operator
continuations. -/
def combLogical (getText : Ast → String) (node : Ast) (anc : List Ast)
    (s : CombState) : CombState :=
  if s.stack.isEmpty then s
  else
    match node with
    | .logical i op l r =>
      if !LOGICAL_OPERATORS.contains op then s
      else
        let s := combAddCyclomatic op s
        if isDefaultValuePattern getText (.logical i op l r) anc ||
            isJsxShortCircuit (.logical i op l r) then s
        else
          let isContinuation :=
            match anc.head? with
            | some (.logical _ pop _ _) => pop == op
            | _ => false
          if isContinuation then s
          else combAddCognitive ("logical operator \'" ++ op ++ "\'") s
    | _ => s

/-- `handleLabeledJump`. -/
def combLabeledJump (keyword : String) (label : Option String)
    (s : CombState) : CombState :=
  match label with
  | some l => combAddCognitive (keyword ++ " to label \'" ++ l ++ "\'") s
  | none => s

/-- A loop's enter handler (`createLoopHandlers`). -/
def combLoopEnter (tag : String) (body : Ast) (s : CombState) : CombState :=
  combAddNestingNode body (combAddStructural tag (combAddCyclomatic tag s))

/-- `CallExpression`: first recursive call sets the flag and adds one flat
cognitive point. -/
def combCall (node : Ast) (s : CombState) : CombState :=
  match s.stack with
  | [] => s
  | top :: rest =>
    if top.name == "" then s
    else if !top.hasRecursiveCall && isRecursiveCallNode node top.name then
      combAddCognitive "recursive call"
        { s with stack := { top with hasRecursiveCall := true } :: rest }
    else s

/-- The base visitor's `enterFunction` followed by the combined
`onEnterFunction` (nested-function penalty onto the parent scope, then the
global counter increment). -/
def combEnterFunction (node : Ast) (anc : List Ast) (s : CombState) : CombState :=
  let name := getFunctionName node anc.head?
  let newScope : CombScope := ⟨node.nid, name, [], [], 0, [], false⟩
  let s1 := { s with stack := newScope :: s.stack }
  let s2 :=
    if !s.stack.isEmpty && s.lvl > 0 then
      match s1.stack with
      | newTop :: parent :: rest =>
        let ftype :=
          match node with
          | .arrowFunc _ _ => "arrow function"
          | _ => "function"
        { s1 with stack := newTop ::
            { parent with cognitivePoints :=
                parent.cognitivePoints ++ [createCPoint ("nested " ++ ftype)] } :: rest }
      | _ => s1
    else s1
  { s2 with lvl := s2.lvl + 1 }

/-- The base visitor's `exitFunction` with the combined `onExitFunction`:
decrement the counter, reduce both point lists to totals, report. -/
def combExitFunction (s : CombState) : CombState :=
  match s.stack with
  | [] => s
  | scope :: rest =>
    { stack := rest
      lvl := s.lvl - 1
      reports := s.reports ++
        [⟨scope.nid, scope.name,
          BASE_FUNCTION_COMPLEXITY + sumComplexity scope.cyclomaticPoints,
          sumComplexity scope.cognitivePoints,
          scope.cyclomaticPoints, scope.cognitivePoints⟩] }

/-- The combined visitor's node-type enter handlers. -/
def combEnterHandlers (getText : Ast → String) (node : Ast) (anc : List Ast)
    (s : CombState) : CombState :=
  match node with
  | .funcDecl _ _ _ | .funcExpr _ _ _ | .arrowFunc _ _ =>
    combEnterFunction node anc s
  | .ifStmt _ _ _ _ => combIfEnter node anc s
  | .forStmt _ b => combLoopEnter "for" b s
  | .forInStmt _ _ _ b => combLoopEnter "for-in" b s
  | .forOfStmt _ _ _ b => combLoopEnter "for-of" b s
  | .whileStmt _ _ b => combLoopEnter "while" b s
  | .doWhileStmt _ b _ => combLoopEnter "do-while" b s
  | .switchCase _ t _ =>
    match t with
    | some _ => combAddCyclomatic "case" s
    | none => s
  | .switchStmt _ _ _ =>
    combAddNestingNode node (combAddStructural "switch" s)
  | .catchCl _ b =>
    combAddNestingNode b (combAddStructural "catch" (combAddCyclomatic "catch" s))
  | .condExpr _ _ c a =>
    combAddNestingNode a (combAddNestingNode c
      (combAddStructural "ternary operator" (combAddCyclomatic "ternary" s)))
  | .logical _ _ _ _ => combLogical getText node anc s
  | .assign _ op _ _ =>
    if LOGICAL_ASSIGNMENT_OPERATORS.contains op then combAddCyclomatic op s
    else s
  | .breakStmt _ label => combLabeledJump "break" label s
  | .contStmt _ label => combLabeledJump "continue" label s
  | .callE _ _ _ => combCall node s
  | _ => s

/-- The combined visitor's node-type exit handlers. -/
def combLeaveHandlers (node : Ast) (s : CombState) : CombState :=
  match node with
  | .funcDecl _ _ _ | .funcExpr _ _ _ | .arrowFunc _ _ => combExitFunction s
  | .ifStmt _ _ _ _ => combIfExit node s
  | .forStmt _ b => combNestingExit b s
  | .forInStmt _ _ _ b => combNestingExit b s
  | .forOfStmt _ _ _ b => combNestingExit b s
  | .whileStmt _ _ b => combNestingExit b s
  | .doWhileStmt _ b _ => combNestingExit b s
  | .switchStmt _ _ _ => combNestingExit node s
  | .catchCl _ b => combNestingExit b s
  | _ => s

/-- The combined visitor: specific handler first, then the wildcard. -/
def combVisitor (getText : Ast → String) : EmbVisitor CombState :=
  ⟨fun a anc s => combNestingEnter a (combEnterHandlers getText a anc s),
   fun a _ s => combNestingExit a (combLeaveHandlers a s)⟩

/-- Run the combined visitor on a top-level node. -/
def combRun (getText : Ast → String) (a : Ast) : CombState :=
  runVisitor (combVisitor getText) a [] initComb

/-! ### The standalone cyclomatic visitor (`src/src/cyclomatic.ts`, staged
in `src/unnamed/part_009`) -/

structure CycScope where
  nid : Nat
  name : String
  points : List CPoint
deriving Repr

structure CycReport where
  nid : Nat
  name : String
  total : Int
  points : List CPoint
deriving Repr

structure CycState where
  stack : List CycScope
  reports : List CycReport
deriving Repr

def initCyc : CycState := ⟨[], []⟩

/-- The base visitor's `addComplexity` (amount 1). -/
def cycAdd (tag : String) (s : CycState) : CycState :=
  match s.stack with
  | [] => s
  | top :: rest =>
    { s with stack := { top with points := top.points ++ [createCPoint tag] } :: rest }

def cycEnterFunction (node : Ast) (anc : List Ast) (s : CycState) : CycState :=
  { s with stack := ⟨node.nid, getFunctionName node anc.head?, []⟩ :: s.stack }

/-- `exitFunction`; the cyclomatic `onComplexityCalculated` wrapper adds
`BASE_FUNCTION_COMPLEXITY` to the reduced total. -/
def cycExitFunction (s : CycState) : CycState :=
  match s.stack with
  | [] => s
  | scope :: rest =>
    { stack := rest
      reports := s.reports ++
        [⟨scope.nid, scope.name,
          sumComplexity scope.points + BASE_FUNCTION_COMPLEXITY, scope.points⟩] }

/-- The cyclomatic visitor has no wildcard handlers. -/
def cycVisitor : EmbVisitor CycState :=
  ⟨fun a anc s =>
    match a with
    | .funcDecl _ _ _ | .funcExpr _ _ _ | .arrowFunc _ _ => cycEnterFunction a anc s
    | .ifStmt _ _ _ _ => cycAdd "if" s
    | .forStmt _ _ => cycAdd "for" s
    | .forInStmt _ _ _ _ => cycAdd "for...in" s
    | .forOfStmt _ _ _ _ => cycAdd "for...of" s
    | .whileStmt _ _ _ => cycAdd "while" s
    | .doWhileStmt _ _ _ => cycAdd "do...while" s
    | .catchCl _ _ => cycAdd "catch" s
    | .condExpr _ _ _ _ => cycAdd "ternary" s
    | .switchCase _ t _ =>
      match t with
      | some _ => cycAdd "case" s
      | none => s
    | .logical _ op _ _ =>
      if LOGICAL_OPERATORS.contains op then cycAdd op s else s
    | .assign _ op _ _ =>
      if LOGICAL_ASSIGNMENT_OPERATORS.contains op then cycAdd op s else s
    | _ => s,
   fun a _ s =>
    match a with
    | .funcDecl _ _ _ | .funcExpr _ _ _ | .arrowFunc _ _ => cycExitFunction s
    | _ => s⟩

def cycRun (a : Ast) : CycState := runVisitor cycVisitor a [] initCyc

/-! ### The standalone cognitive visitor (`src/src/cognitive/visitor.ts`)

Its `onEnterFunction` is declared as `onEnterFunction(_scope, parentScope,
node)` while the base visitor (`src/src/visitor.ts` line 58) calls
`config.onEnterFunction?.(parentScope, node, scope)`: inside the handler's
body the binder named `parentScope` therefore denotes the freshly entered
AST **node** (always truthy, no `points` property) and the binder named
`node` denotes the newly created scope.  When
`globalFunctionNestingLevel > 0` the statement
`parentScope.points.push(...)` reads `.push` off `undefined` and throws a
TypeError, so the embedding of entering a nested function literal is an
`Except.error`.  (The combined visitor and the earlier revision of this
file staged in `src/unnamed/part_000` both use the correct parameter order
and push the penalty onto the enclosing scope.) -/

structure CogScope where
  nid : Nat
  name : String
  points : List CPoint
  nestingLevel : Int
  nestingNodes : List Nat
  hasRecursiveCall : Bool
deriving Repr

structure CogReport where
  nid : Nat
  name : String
  total : Int
  points : List CPoint
deriving Repr

structure CogState where
  stack : List CogScope
  lvl : Nat
  reports : List CogReport
deriving Repr

def initCog : CogState := ⟨[], 0, []⟩

def CogState.mapTop (s : CogState) (f : CogScope → CogScope) : CogState :=
  match s.stack with
  | [] => s
  | top :: rest => { s with stack := f top :: rest }

def cogAdd (tag : String) (s : CogState) : CogState :=
  s.mapTop (fun sc => { sc with points := sc.points ++ [createCPoint tag] })

def cogAddStructural (tag : String) (s : CogState) : CogState :=
  s.mapTop (fun sc =>
    { sc with points := sc.points ++
        [createCPoint tag DEFAULT_COMPLEXITY_INCREMENT sc.nestingLevel] })

def cogAddNestingNode (n : Ast) (s : CogState) : CogState :=
  s.mapTop (fun sc => { sc with nestingNodes := sc.nestingNodes ++ [n.nid] })

def cogNestingEnter (n : Ast) (s : CogState) : CogState :=
  s.mapTop (fun sc =>
    if sc.nestingNodes.contains n.nid then
      { sc with nestingLevel := sc.nestingLevel + 1 }
    else sc)

def cogNestingExit (n : Ast) (s : CogState) : CogState :=
  s.mapTop (fun sc =>
    if sc.nestingNodes.contains n.nid then
      { sc with nestingLevel := sc.nestingLevel - 1
                nestingNodes := sc.nestingNodes.erase n.nid }
    else sc)

/-- `handleIfStatement` (cognitive): else-if is flat, the consequent is
always a nesting region, and a plain `else` block is marked and charged at
enter time (point node = the alternate). -/
def cogIfEnter (node : Ast) (anc : List Ast) (s : CogState) : CogState :=
  match node with
  | .ifStmt _ _ cons alt =>
    let s :=
      if isElseIf node anc then cogAdd "else if" s
      else cogAddStructural "if" s
    let s := cogAddNestingNode cons s
    match alt with
    | some a =>
      match a with
      | .ifStmt _ _ _ _ => s
      | _ => cogAdd "else" (cogAddNestingNode a s)
    | none => s
  | _ => s

/-- `handleLogicalExpression` (cognitive). -/
def cogLogical (getText : Ast → String) (node : Ast) (anc : List Ast)
    (s : CogState) : CogState :=
  if s.stack.isEmpty then s
  else
    match node with
    | .logical i op l r =>
      if isJsxShortCircuit (.logical i op l r) ||
          isDefaultValuePattern getText (.logical i op l r) anc then s
      else
        let isPartOfSameSequence :=
          match anc.head? with
          | some (.logical _ pop _ _) => pop == op
          | _ => false
        if isPartOfSameSequence then s
        else cogAdd ("logical operator \'" ++ op ++ "\'") s
    | _ => s

/-- The base `enterFunction` followed by the cognitive `onEnterFunction`
with its scrambled binders: pushing the nested-function penalty attempts
`(AST node).points.push(...)` and throws whenever the global counter is
positive; otherwise the counter is incremented. -/
def cogEnterFunction (node : Ast) (anc : List Ast) (s : CogState) :
    Except String CogState :=
  let name := getFunctionName node anc.head?
  let newScope : CogScope := ⟨node.nid, name, [], 0, [], false⟩
  let s1 := { s with stack := newScope :: s.stack }
  if s.lvl > 0 then
    Except.error "TypeError: Cannot read properties of undefined (reading \'push\')"
  else Except.ok { s1 with lvl := s1.lvl + 1 }

/-- `exitFunction` with the cognitive `onExitFunction` (recursion bonus at
exit) and the base total reduction. -/
def cogExitFunction (s : CogState) : CogState :=
  match s.stack with
  | [] => s
  | scope :: rest =>
    let scope :=
      if scope.hasRecursiveCall then
        { scope with points := scope.points ++ [createCPoint "recursion"] }
      else scope
    { stack := rest
      lvl := s.lvl - 1
      reports := s.reports ++
        [⟨scope.nid, scope.name, sumComplexity scope.points, scope.points⟩] }

/-- `CallExpression` (cognitive): only sets the flag. -/
def cogCall (node : Ast) (s : CogState) : CogState :=
  match s.stack with
  | [] => s
  | top :: rest =>
    if top.name == "" then s
    else if isRecursiveCallNode node top.name then
      { s with stack := { top with hasRecursiveCall := true } :: rest }
    else s

/-- The cognitive visitor's node-type enter handlers (pure part). -/
def cogEnterHandlers (getText : Ast → String) (node : Ast) (anc : List Ast)
    (s : CogState) : CogState :=
  match node with
  | .ifStmt _ _ _ _ => cogIfEnter node anc s
  | .forStmt _ b => cogAddNestingNode b (cogAddStructural "for" s)
  | .forInStmt _ _ _ b => cogAddNestingNode b (cogAddStructural "for...in" s)
  | .forOfStmt _ _ _ b => cogAddNestingNode b (cogAddStructural "for...of" s)
  | .whileStmt _ _ b => cogAddNestingNode b (cogAddStructural "while" s)
  | .doWhileStmt _ b _ => cogAddNestingNode b (cogAddStructural "do...while" s)
  | .switchStmt _ _ cases =>
    (cases.foldl (fun acc c => cogAddNestingNode c acc) (cogAddStructural "switch" s))
  | .catchCl _ b => cogAddNestingNode b (cogAddStructural "catch" s)
  | .condExpr _ _ c a =>
    cogAddNestingNode a (cogAddNestingNode c (cogAddStructural "ternary operator" s))
  | .breakStmt _ label =>
    match label with
    | some l => cogAdd ("break to label \'" ++ l ++ "\'") s
    | none => s
  | .contStmt _ label =>
    match label with
    | some l => cogAdd ("continue to label \'" ++ l ++ "\'") s
    | none => s
  | .logical _ _ _ _ => cogLogical getText node anc s
  | .callE _ _ _ => cogCall node s
  | _ => s

/-- A visitor whose enter step may throw (the scrambled cognitive
`onEnterFunction`). -/
structure EmbVisitorE (σ : Type) where
  enter : Ast → List Ast → σ → Except String σ
  leave : Ast → List Ast → σ → σ

mutual
def runVisitorE (V : EmbVisitorE σ) (a : Ast) (anc : List Ast) (s : σ) :
    Except String σ :=
  (match a, a :: anc, V.enter a anc s with
    | .iden _ _, _, r => r
    | .lit _ _, _, r => r
    | .arrayLit _, _, r => r
    | .objectLit _, _, r => r
    | .thisE _, _, r => r
    | .jsxElem _, _, r => r
    | .exprStmt _ e, anc2, r => do runVisitorE V e anc2 (← r)
    | .retStmt _ arg, anc2, r => do runOptE V arg anc2 (← r)
    | .block _ body, anc2, r => do runListE V body anc2 (← r)
    | .varDecl _ _ ds, anc2, r => do runListE V ds anc2 (← r)
    | .varDeclr _ p i, anc2, r => do
      runOptE V i anc2 (← runVisitorE V p anc2 (← r))
    | .ifStmt _ t c alt, anc2, r => do
      runOptE V alt anc2 (← runVisitorE V c anc2 (← runVisitorE V t anc2 (← r)))
    | .forStmt _ b, anc2, r => do runVisitorE V b anc2 (← r)
    | .forInStmt _ l r b, anc2, rr => do
      runVisitorE V b anc2 (← runVisitorE V r anc2 (← runVisitorE V l anc2 (← rr)))
    | .forOfStmt _ l r b, anc2, rr => do
      runVisitorE V b anc2 (← runVisitorE V r anc2 (← runVisitorE V l anc2 (← rr)))
    | .whileStmt _ t b, anc2, r => do
      runVisitorE V b anc2 (← runVisitorE V t anc2 (← r))
    | .doWhileStmt _ b t, anc2, r => do
      runVisitorE V t anc2 (← runVisitorE V b anc2 (← r))
    | .switchStmt _ d cs, anc2, r => do
      runListE V cs anc2 (← runVisitorE V d anc2 (← r))
    | .switchCase _ t body, anc2, r => do
      runListE V body anc2 (← runOptE V t anc2 (← r))
    | .tryStmt _ b h f, anc2, r => do
      runOptE V f anc2 (← runOptE V h anc2 (← runVisitorE V b anc2 (← r)))
    | .catchCl _ b, anc2, r => do runVisitorE V b anc2 (← r)
    | .condExpr _ t c alt, anc2, r => do
      runVisitorE V alt anc2
        (← runVisitorE V c anc2 (← runVisitorE V t anc2 (← r)))
    | .logical _ _ l r, anc2, rr => do
      runVisitorE V r anc2 (← runVisitorE V l anc2 (← rr))
    | .assign _ _ l r, anc2, rr => do
      runVisitorE V r anc2 (← runVisitorE V l anc2 (← rr))
    | .callE _ c args, anc2, r => do
      runListE V args anc2 (← runVisitorE V c anc2 (← r))
    | .member _ o p _, anc2, r => do
      runVisitorE V p anc2 (← runVisitorE V o anc2 (← r))
    | .breakStmt _ _, _, r => r
    | .contStmt _ _, _, r => r
    | .funcDecl _ _ b, anc2, r => do runVisitorE V b anc2 (← r)
    | .funcExpr _ _ b, anc2, r => do runVisitorE V b anc2 (← r)
    | .arrowFunc _ b, anc2, r => do runVisitorE V b anc2 (← r)).map
    (V.leave a anc)
def runListE (V : EmbVisitorE σ) : List Ast → List Ast → σ → Except String σ
  | [], _, s => pure s
  | x :: xs, anc, s => do runListE V xs anc (← runVisitorE V x anc s)
def runOptE (V : EmbVisitorE σ) : Option Ast → List Ast → σ → Except String σ
  | none, _, s => pure s
  | some x, anc, s => runVisitorE V x anc s
end

/-- The cognitive visitor: the function-enter step can throw; everything
else is pure.  Specific handler first, then the wildcard, on enter and
exit. -/
def cogVisitor (getText : Ast → String) : EmbVisitorE CogState :=
  ⟨fun a anc s =>
    match a with
    | .funcDecl _ _ _ | .funcExpr _ _ _ | .arrowFunc _ _ =>
      (cogEnterFunction a anc s).map (cogNestingEnter a)
    | _ => Except.ok (cogNestingEnter a (cogEnterHandlers getText a anc s)),
   fun a _ s =>
    match a with
    | .funcDecl _ _ _ | .funcExpr _ _ _ | .arrowFunc _ _ =>
      cogNestingExit a (cogExitFunction s)
    | _ => cogNestingExit a s⟩

def cogRun (getText : Ast → String) (a : Ast) : Except String CogState :=
  runVisitorE (cogVisitor getText) a [] initCog

/-! ### Concrete scorer inputs -/

/-- Project the error branch of an `Except String` result. -/
def exceptError {α : Type} : Except String α → Option String
  | .error e => some e
  | .ok _ => none

/-- `function f(a, b, c) { if (a) {} else if (b) { if (c) {} }
for (x of xs) {} }` — an else-if with a nested `if`, plus a `for...of`
loop. -/
def astC1 : Ast :=
  .funcDecl 1 "f" (.block 2 [
    .ifStmt 3 (.iden 4 "a") (.block 5 []) (some
      (.ifStmt 6 (.iden 7 "b") (.block 8 [
        .ifStmt 9 (.iden 10 "c") (.block 11 []) none]) none)),
    .forOfStmt 12 (.iden 13 "x") (.iden 14 "xs") (.block 15 [])])

/-- C1 counterexample: on `astC1` the combined scorer's cognitive total is
4 while the standalone cognitive scorer's is 5 (the standalone marks the
else-if consequent as a nesting region, the combined does not), and the
cyclomatic point labels differ (`for-of` vs `for...of`) although the
cyclomatic totals agree — so the combined output is not bit-for-bit the
standalone outputs. -/
theorem combined_not_equal_standalone_on_astC1 :
    (combRun identText astC1).reports.map
        (fun r => (r.nid, r.cyclomatic, r.cognitive)) = [(1, 5, 4)] ∧
      ((cogRun identText astC1).map
        (fun st => st.reports.map (fun r => (r.nid, r.total)))).toOption =
        some [(1, 5)] ∧
      (cycRun astC1).reports.map (fun r => (r.nid, r.total)) = [(1, 5)] ∧
      (combRun identText astC1).reports.map
        (fun r => r.cyclomaticPoints.map (fun p => p.tag)) =
        [["if", "if", "if", "for-of"]] ∧
      (cycRun astC1).reports.map (fun r => r.points.map (fun p => p.tag)) =
        [["if", "if", "if", "for...of"]] ∧
      (4 : Int) ≠ 5 ∧ "for-of" ≠ "for...of" := by
  refine ⟨by decide, by decide, by decide, by decide, by decide,
    by decide, by decide⟩

/-- `function outer() { (function () {}); }`. -/
def astC2 : Ast :=
  .funcDecl 1 "outer" (.block 2 [.exprStmt 3 (.funcExpr 4 none (.block 5 []))])

/-- C2: entering the nested function literal of `astC2` makes the
standalone cognitive visitor throw (its `onEnterFunction` binds the base
visitor's `(parentScope, node, scope)` arguments as `(_scope, parentScope,
node)`, so it dereferences `.points` on the AST node), while the combined
visitor — whose parameter order is correct — pushes exactly one flat
`nested function` point onto the enclosing scope. -/
theorem cognitive_visitor_throws_on_nested_function :
    exceptError (cogRun identText astC2) =
      some
        "TypeError: Cannot read properties of undefined (reading \'push\')" ∧
      (combRun identText astC2).reports.map
        (fun r => (r.nid, r.name, r.cognitive,
          r.cognitivePoints.map (fun p => p.tag))) =
        [(4, "<anonymous>", 0, []), (1, "outer", 1, ["nested function"])] := by
  exact ⟨by decide, by decide⟩

/-- `return a && b && c && d;` (left-associated chain of three `&&`). -/
def chainUniform : Ast :=
  .logical 3 "&&" (.logical 4 "&&" (.logical 5 "&&"
    (.iden 6 "a") (.iden 7 "b")) (.iden 8 "c")) (.iden 9 "d")

def astC3a : Ast := .funcDecl 1 "f" (.block 2 [.retStmt 10 (some chainUniform)])

/-- `return (a && b) || c;`. -/
def chainMixed : Ast :=
  .logical 3 "||" (.logical 4 "&&" (.iden 5 "a") (.iden 6 "b")) (.iden 7 "c")

def astC3b : Ast := .funcDecl 1 "f" (.block 2 [.retStmt 8 (some chainMixed)])

/-- C3 counterexample: the spec's example figures are wrong on both
examples.  `a && b && c && d` scores cyclomatic 4 (= 1 + 3 operators), not
5, with cognitive 1; `(a && b) || c` scores cyclomatic 3 and cognitive 2,
not 4 and 3.  (The repository's own fixture
`tests/fixtures/js/logical-operators.js`, staged in `src/unnamed/part_015`,
records exactly 4/1 and 3/2.) -/
theorem chain_example_scores_differ_from_claim :
    (combRun identText astC3a).reports.map
        (fun r => (r.cyclomatic, r.cognitive)) = [(4, 1)] ∧
      (combRun identText astC3b).reports.map
        (fun r => (r.cyclomatic, r.cognitive)) = [(3, 2)] ∧
      ¬((4 : Int) = 5 ∧ (1 : Int) = 1 ∧ (3 : Int) = 4 ∧ (2 : Int) = 3) := by
  exact ⟨by decide, by decide, by decide⟩

/-- `function f() { const x = a || []; }`. -/
def astC4a : Ast :=
  .funcDecl 1 "f" (.block 2 [
    .varDecl 3 "const" [.varDeclr 4 (.iden 5 "x")
      (some (.logical 6 "||" (.iden 7 "a") (.arrayLit 8)))]])

/-- `function f() { x = x || []; }`. -/
def astC4b : Ast :=
  .funcDecl 1 "f" (.block 2 [
    .exprStmt 3 (.assign 4 "=" (.iden 5 "x")
      (.logical 6 "||" (.iden 7 "x") (.arrayLit 8)))])

/-- `function f() { const x = a || compute(); }`. -/
def astC4c : Ast :=
  .funcDecl 1 "f" (.block 2 [
    .varDecl 3 "const" [.varDeclr 4 (.iden 5 "x")
      (some (.logical 6 "||" (.iden 7 "a")
        (.callE 8 (.iden 9 "compute") [])))]])

/-- C4: `const x = a || []` and `x = x || []` are default-value patterns —
the operator contributes 0 cognitive but +1 cyclomatic (totals 2 = 1 + 1);
`const x = a || compute()` has a non-literal rightmost chain leaf, is not
excluded, and contributes +1 cognitive. -/
theorem default_value_pattern_scores :
    (combRun identText astC4a).reports.map
        (fun r => (r.cyclomatic, r.cognitive)) = [(2, 0)] ∧
      (combRun identText astC4b).reports.map
        (fun r => (r.cyclomatic, r.cognitive)) = [(2, 0)] ∧
      (combRun identText astC4c).reports.map
        (fun r => (r.cyclomatic, r.cognitive)) = [(2, 1)] ∧
      isDefaultValuePattern identText
        (.logical 6 "||" (.iden 7 "a") (.arrayLit 8))
        [.varDeclr 4 (.iden 5 "x")
          (some (.logical 6 "||" (.iden 7 "a") (.arrayLit 8))),
         .varDecl 3 "const" [], .block 2 [], astC4a] = true ∧
      isDefaultValuePattern identText
        (.logical 6 "||" (.iden 7 "x") (.arrayLit 8))
        [.assign 4 "=" (.iden 5 "x")
          (.logical 6 "||" (.iden 7 "x") (.arrayLit 8)),
         .exprStmt 3 (.iden 0 "dummy"), .block 2 [], astC4b] = true ∧
      isDefaultValuePattern identText
        (.logical 6 "||" (.iden 7 "a") (.callE 8 (.iden 9 "compute") []))
        [.varDeclr 4 (.iden 5 "x")
          (some (.logical 6 "||" (.iden 7 "a")
            (.callE 8 (.iden 9 "compute") []))),
         .varDecl 3 "const" [], .block 2 [], astC4c] = false := by
  refine ⟨by decide, by decide, by decide, by decide, by decide, by decide⟩

/-! ### The combined scorer's cyclomatic side against the standalone
cyclomatic scorer

The two visitors label some points differently (`for-of` vs `for...of`),
so the comparison projects each point to its complexity amount; function
identities, names, totals and per-point amounts are compared exactly. -/

def cycProjScope (sc : CombScope) : Nat × String × List Int :=
  (sc.nid, sc.name, sc.cyclomaticPoints.map (fun p => p.complexity))

def cycProjScopeS (sc : CycScope) : Nat × String × List Int :=
  (sc.nid, sc.name, sc.points.map (fun p => p.complexity))

def cycProjRep (r : CombReport) : Nat × String × Int × List Int :=
  (r.nid, r.name, r.cyclomatic, r.cyclomaticPoints.map (fun p => p.complexity))

def cycProjRepS (r : CycReport) : Nat × String × Int × List Int :=
  (r.nid, r.name, r.total, r.points.map (fun p => p.complexity))

def CycAgree (s : CombState) (t : CycState) : Prop :=
  s.stack.map cycProjScope = t.stack.map cycProjScopeS ∧
  s.reports.map cycProjRep = t.reports.map cycProjRepS

theorem sumComplexity_shift (l : List CPoint) (acc : Int) :
    l.foldl (fun a p => a + p.complexity) acc =
      acc + l.foldl (fun a p => a + p.complexity) 0 := by
  induction l generalizing acc with
  | nil => simp
  | cons p l ih =>
    rw [List.foldl_cons, List.foldl_cons, ih, ih (0 + p.complexity)]
    ring

theorem sumComplexity_eq_of_proj {l l' : List CPoint}
    (h : l.map (fun p => p.complexity) = l'.map (fun p => p.complexity)) :
    sumComplexity l = sumComplexity l' := by
  induction l generalizing l' with
  | nil => cases l' with
    | nil => rfl
    | cons => simp at h
  | cons p l ih =>
    cases l' with
    | nil => simp at h
    | cons q l2 =>
      simp only [List.map_cons, List.cons.injEq] at h
      unfold sumComplexity
      rw [List.foldl_cons, List.foldl_cons, sumComplexity_shift,
        sumComplexity_shift l2, h.1]
      have h2 := ih h.2
      unfold sumComplexity at h2
      rw [h2]

theorem cycAgree_mapTop {s : CombState} {t : CycState} (f : CombScope → CombScope)
    (hf : ∀ sc, cycProjScope (f sc) = cycProjScope sc) (h : CycAgree s t) :
    CycAgree (s.mapTop f) t := by
  obtain ⟨h1, h2⟩ := h
  unfold CycAgree CombState.mapTop
  split
  · exact ⟨h1, h2⟩
  · next top rest heq =>
    rw [heq] at h1
    exact ⟨by simpa [hf] using h1, h2⟩

theorem cycAgree_addCognitive (tag : String) {s : CombState} {t : CycState}
    (h : CycAgree s t) : CycAgree (combAddCognitive tag s) t :=
  cycAgree_mapTop _ (fun sc => by simp [cycProjScope]) h

theorem cycAgree_addStructural (tag : String) {s : CombState} {t : CycState}
    (h : CycAgree s t) : CycAgree (combAddStructural tag s) t :=
  cycAgree_mapTop _ (fun sc => by simp [cycProjScope]) h

theorem cycAgree_addNestingNode (n : Ast) {s : CombState} {t : CycState}
    (h : CycAgree s t) : CycAgree (combAddNestingNode n s) t :=
  cycAgree_mapTop _ (fun sc => by simp [cycProjScope]) h

theorem cycAgree_nestingEnter (n : Ast) {s : CombState} {t : CycState}
    (h : CycAgree s t) : CycAgree (combNestingEnter n s) t :=
  cycAgree_mapTop _ (fun sc => by unfold cycProjScope; split <;> rfl) h

theorem cycAgree_nestingExit (n : Ast) {s : CombState} {t : CycState}
    (h : CycAgree s t) : CycAgree (combNestingExit n s) t :=
  cycAgree_mapTop _ (fun sc => by unfold cycProjScope; split <;> rfl) h

theorem cycAgree_call (n : Ast) {s : CombState} {t : CycState}
    (h : CycAgree s t) : CycAgree (combCall n s) t := by
  obtain ⟨h1, h2⟩ := h
  unfold CycAgree combCall
  split
  · exact ⟨h1, h2⟩
  · next top rest heq =>
    rw [heq] at h1
    split
    · exact ⟨by rw [heq]; exact h1, h2⟩
    · split
      · refine cycAgree_addCognitive _ ⟨?_, h2⟩
        simpa [cycProjScope] using h1
      · exact ⟨by rw [heq]; exact h1, h2⟩

theorem cycAgree_addCyc (tag tag2 : String) {s : CombState} {t : CycState}
    (h : CycAgree s t) : CycAgree (combAddCyclomatic tag s) (cycAdd tag2 t) := by
  obtain ⟨h1, h2⟩ := h
  unfold CycAgree combAddCyclomatic CombState.mapTop cycAdd
  split
  · next heq =>
    split
    · exact ⟨h1, h2⟩
    · next ttop trest hteq =>
      rw [heq, hteq] at h1
      simp at h1
  · next top rest heq =>
    rw [heq] at h1
    split
    · next hteq =>
      rw [hteq] at h1
      simp at h1
    · next ttop trest hteq =>
      rw [hteq] at h1
      refine ⟨?_, h2⟩
      simp only [List.map_cons, List.cons.injEq] at h1 ⊢
      obtain ⟨hhead, htail⟩ := h1
      refine ⟨?_, htail⟩
      unfold cycProjScope cycProjScopeS at hhead ⊢
      simp only [Prod.mk.injEq] at hhead ⊢
      exact ⟨hhead.1, hhead.2.1, by
        simp only [List.map_append, hhead.2.2, List.map_cons, List.map_nil,
          createCPoint, DEFAULT_COMPLEXITY_INCREMENT]⟩

theorem cycAgree_enterFn (node : Ast) (anc : List Ast) {s : CombState}
    {t : CycState} (h : CycAgree s t) :
    CycAgree (combEnterFunction node anc s) (cycEnterFunction node anc t) := by
  obtain ⟨h1, h2⟩ := h
  unfold CycAgree combEnterFunction cycEnterFunction
  dsimp only
  split
  · next hc =>
    cases hs : s.stack with
    | nil => rw [hs] at hc; simp at hc
    | cons top rest =>
      rw [hs] at h1
      refine ⟨?_, by simpa using h2⟩
      simpa [cycProjScope, cycProjScopeS] using h1
  · exact ⟨by simpa [cycProjScope, cycProjScopeS] using h1, h2⟩

theorem cycAgree_exitFn {s : CombState} {t : CycState} (h : CycAgree s t) :
    CycAgree (combExitFunction s) (cycExitFunction t) := by
  obtain ⟨h1, h2⟩ := h
  unfold CycAgree combExitFunction cycExitFunction
  split
  · next heq =>
    split
    · exact ⟨h1, h2⟩
    · next ttop ttail hteq =>
      rw [heq, hteq] at h1
      simp at h1
  · next scope rest heq =>
    rw [heq] at h1
    split
    · next hteq =>
      rw [hteq] at h1
      simp at h1
    · next tscope trest hteq =>
      rw [hteq] at h1
      simp only [List.map_cons, List.cons.injEq] at h1
      obtain ⟨hhead, htail⟩ := h1
      unfold cycProjScope cycProjScopeS at hhead
      simp only [Prod.mk.injEq] at hhead
      have key : cycProjRep
          ⟨scope.nid, scope.name,
            BASE_FUNCTION_COMPLEXITY + sumComplexity scope.cyclomaticPoints,
            sumComplexity scope.cognitivePoints,
            scope.cyclomaticPoints, scope.cognitivePoints⟩ =
          cycProjRepS ⟨tscope.nid, tscope.name,
            sumComplexity tscope.points + BASE_FUNCTION_COMPLEXITY,
            tscope.points⟩ := by
        unfold cycProjRep cycProjRepS
        simp only [Prod.mk.injEq]
        refine ⟨hhead.1, hhead.2.1, ?_, hhead.2.2⟩
        rw [sumComplexity_eq_of_proj hhead.2.2]
        ring
      exact ⟨htail, by simp only [List.map_append, List.map_cons, List.map_nil,
        h2, key]⟩

theorem cycAgree_ifEnter (node : Ast) (anc : List Ast) {s : CombState}
    {t : CycState} (h : CycAgree s t) :
    CycAgree (combIfEnter node anc s) (cycAdd "if" t) := by
  unfold combIfEnter
  dsimp only
  have h' := cycAgree_addCyc "if" "if" h
  split
  · split
    · exact cycAgree_addCognitive _ h'
    · exact cycAgree_addNestingNode _ (cycAgree_addStructural _ h')
  · exact h'

theorem cycAgree_logical (g : Ast → String) (i : Nat) (op : String) (l r : Ast)
    (anc : List Ast) {s : CombState} {t : CycState} (h : CycAgree s t) :
    CycAgree (combLogical g (.logical i op l r) anc s)
      (if LOGICAL_OPERATORS.contains op then cycAdd op t else t) := by
  unfold combLogical
  by_cases hemp : s.stack.isEmpty
  · rw [if_pos hemp]
    have ht : t.stack = [] := by
      obtain ⟨h1, _⟩ := h
      cases hs : s.stack with
      | nil =>
        cases hts : t.stack with
        | nil => rfl
        | cons a b => rw [hs, hts] at h1; simp at h1
      | cons a b => rw [hs] at hemp; simp at hemp
    have hca : cycAdd op t = t := by unfold cycAdd; rw [ht]
    split
    · rw [hca]; exact h
    · exact h
  · rw [if_neg hemp]
    by_cases hop : LOGICAL_OPERATORS.contains op
    · simp only [hop, if_true, Bool.not_true, Bool.false_eq_true, if_false]
      have h' := cycAgree_addCyc op op h
      split
      · exact h'
      · split
        · exact h'
        · exact cycAgree_addCognitive _ h'
    · simp only [hop, if_false, Bool.not_false, if_true]
      exact h

theorem cycAgree_labeledJump (k : String) (lbl : Option String) {s : CombState}
    {t : CycState} (h : CycAgree s t) : CycAgree (combLabeledJump k lbl s) t := by
  unfold combLabeledJump
  split
  · exact cycAgree_addCognitive _ h
  · exact h

theorem cycAgree_ifExit (node : Ast) {s : CombState} {t : CycState}
    (h : CycAgree s t) : CycAgree (combIfExit node s) t := by
  unfold combIfExit
  split
  · next i tq c alt =>
    dsimp only
    have h' := cycAgree_nestingExit c h
    split
    · split
      · exact h'
      · exact cycAgree_addNestingNode _ (cycAgree_addCognitive _ h')
    · exact h'
  · exact h

theorem cycAgree_enterStep (g : Ast → String) (a : Ast) (anc : List Ast)
    {s : CombState} {t : CycState} (h : CycAgree s t) :
    CycAgree ((combVisitor g).enter a anc s) (cycVisitor.enter a anc t) := by
  cases a with
  | iden i n =>
    dsimp only [combVisitor, cycVisitor, combEnterHandlers]
    exact cycAgree_nestingEnter _ h
  | lit i sv =>
    dsimp only [combVisitor, cycVisitor, combEnterHandlers]
    exact cycAgree_nestingEnter _ h
  | arrayLit i =>
    dsimp only [combVisitor, cycVisitor, combEnterHandlers]
    exact cycAgree_nestingEnter _ h
  | objectLit i =>
    dsimp only [combVisitor, cycVisitor, combEnterHandlers]
    exact cycAgree_nestingEnter _ h
  | thisE i =>
    dsimp only [combVisitor, cycVisitor, combEnterHandlers]
    exact cycAgree_nestingEnter _ h
  | jsxElem i =>
    dsimp only [combVisitor, cycVisitor, combEnterHandlers]
    exact cycAgree_nestingEnter _ h
  | exprStmt i e =>
    dsimp only [combVisitor, cycVisitor, combEnterHandlers]
    exact cycAgree_nestingEnter _ h
  | retStmt i o =>
    dsimp only [combVisitor, cycVisitor, combEnterHandlers]
    exact cycAgree_nestingEnter _ h
  | block i body =>
    dsimp only [combVisitor, cycVisitor, combEnterHandlers]
    exact cycAgree_nestingEnter _ h
  | varDecl i k ds =>
    dsimp only [combVisitor, cycVisitor, combEnterHandlers]
    exact cycAgree_nestingEnter _ h
  | varDeclr i p ini =>
    dsimp only [combVisitor, cycVisitor, combEnterHandlers]
    exact cycAgree_nestingEnter _ h
  | ifStmt i tq c alt =>
    dsimp only [combVisitor, cycVisitor, combEnterHandlers]
    exact cycAgree_nestingEnter _ (cycAgree_ifEnter _ _ h)
  | forStmt i b =>
    dsimp only [combVisitor, cycVisitor, combEnterHandlers, combLoopEnter]
    exact cycAgree_nestingEnter _ (cycAgree_addNestingNode _
      (cycAgree_addStructural _ (cycAgree_addCyc "for" "for" h)))
  | forInStmt i l r b =>
    dsimp only [combVisitor, cycVisitor, combEnterHandlers, combLoopEnter]
    exact cycAgree_nestingEnter _ (cycAgree_addNestingNode _
      (cycAgree_addStructural _ (cycAgree_addCyc "for-in" "for...in" h)))
  | forOfStmt i l r b =>
    dsimp only [combVisitor, cycVisitor, combEnterHandlers, combLoopEnter]
    exact cycAgree_nestingEnter _ (cycAgree_addNestingNode _
      (cycAgree_addStructural _ (cycAgree_addCyc "for-of" "for...of" h)))
  | whileStmt i tq b =>
    dsimp only [combVisitor, cycVisitor, combEnterHandlers, combLoopEnter]
    exact cycAgree_nestingEnter _ (cycAgree_addNestingNode _
      (cycAgree_addStructural _ (cycAgree_addCyc "while" "while" h)))
  | doWhileStmt i b tq =>
    dsimp only [combVisitor, cycVisitor, combEnterHandlers, combLoopEnter]
    exact cycAgree_nestingEnter _ (cycAgree_addNestingNode _
      (cycAgree_addStructural _ (cycAgree_addCyc "do-while" "do...while" h)))
  | switchStmt i d cs =>
    dsimp only [combVisitor, cycVisitor, combEnterHandlers]
    exact cycAgree_nestingEnter _ (cycAgree_addNestingNode _
      (cycAgree_addStructural _ h))
  | switchCase i tq body =>
    cases tq with
    | some x =>
      dsimp only [combVisitor, cycVisitor, combEnterHandlers]
      exact cycAgree_nestingEnter _ (cycAgree_addCyc "case" "case" h)
    | none =>
      dsimp only [combVisitor, cycVisitor, combEnterHandlers]
      exact cycAgree_nestingEnter _ h
  | tryStmt i b hh f =>
    dsimp only [combVisitor, cycVisitor, combEnterHandlers]
    exact cycAgree_nestingEnter _ h
  | catchCl i b =>
    dsimp only [combVisitor, cycVisitor, combEnterHandlers]
    exact cycAgree_nestingEnter _ (cycAgree_addNestingNode _
      (cycAgree_addStructural _ (cycAgree_addCyc "catch" "catch" h)))
  | condExpr i tq c alt2 =>
    dsimp only [combVisitor, cycVisitor, combEnterHandlers]
    exact cycAgree_nestingEnter _ (cycAgree_addNestingNode _
      (cycAgree_addNestingNode _ (cycAgree_addStructural _
        (cycAgree_addCyc "ternary" "ternary" h))))
  | logical i op l r =>
    dsimp only [combVisitor, cycVisitor, combEnterHandlers]
    exact cycAgree_nestingEnter _ (cycAgree_logical g i op l r anc h)
  | assign i op l r =>
    dsimp only [combVisitor, cycVisitor, combEnterHandlers]
    by_cases hop : LOGICAL_ASSIGNMENT_OPERATORS.contains op
    · simp only [hop, if_true]
      exact cycAgree_nestingEnter _ (cycAgree_addCyc op op h)
    · simp only [hop, if_false, Bool.false_eq_true]
      exact cycAgree_nestingEnter _ h
  | breakStmt i lbl =>
    dsimp only [combVisitor, cycVisitor, combEnterHandlers]
    exact cycAgree_nestingEnter _ (cycAgree_labeledJump _ _ h)
  | contStmt i lbl =>
    dsimp only [combVisitor, cycVisitor, combEnterHandlers]
    exact cycAgree_nestingEnter _ (cycAgree_labeledJump _ _ h)
  | callE i c args =>
    dsimp only [combVisitor, cycVisitor, combEnterHandlers]
    exact cycAgree_nestingEnter _ (cycAgree_call _ h)
  | member i o p cflag =>
    dsimp only [combVisitor, cycVisitor, combEnterHandlers]
    exact cycAgree_nestingEnter _ h
  | funcDecl i n b =>
    dsimp only [combVisitor, cycVisitor, combEnterHandlers]
    exact cycAgree_nestingEnter _ (cycAgree_enterFn _ _ h)
  | funcExpr i n b =>
    dsimp only [combVisitor, cycVisitor, combEnterHandlers]
    exact cycAgree_nestingEnter _ (cycAgree_enterFn _ _ h)
  | arrowFunc i b =>
    dsimp only [combVisitor, cycVisitor, combEnterHandlers]
    exact cycAgree_nestingEnter _ (cycAgree_enterFn _ _ h)

theorem cycAgree_leaveStep (g : Ast → String) (a : Ast) (anc : List Ast)
    {s : CombState} {t : CycState} (h : CycAgree s t) :
    CycAgree ((combVisitor g).leave a anc s) (cycVisitor.leave a anc t) := by
  cases a with
  | funcDecl i n b =>
    dsimp only [combVisitor, cycVisitor, combLeaveHandlers]
    exact cycAgree_nestingExit _ (cycAgree_exitFn h)
  | funcExpr i n b =>
    dsimp only [combVisitor, cycVisitor, combLeaveHandlers]
    exact cycAgree_nestingExit _ (cycAgree_exitFn h)
  | arrowFunc i b =>
    dsimp only [combVisitor, cycVisitor, combLeaveHandlers]
    exact cycAgree_nestingExit _ (cycAgree_exitFn h)
  | ifStmt i tq c alt =>
    dsimp only [combVisitor, cycVisitor, combLeaveHandlers]
    exact cycAgree_nestingExit _ (cycAgree_ifExit _ h)
  | forStmt i b =>
    dsimp only [combVisitor, cycVisitor, combLeaveHandlers]
    exact cycAgree_nestingExit _ (cycAgree_nestingExit _ h)
  | forInStmt i l r b =>
    dsimp only [combVisitor, cycVisitor, combLeaveHandlers]
    exact cycAgree_nestingExit _ (cycAgree_nestingExit _ h)
  | forOfStmt i l r b =>
    dsimp only [combVisitor, cycVisitor, combLeaveHandlers]
    exact cycAgree_nestingExit _ (cycAgree_nestingExit _ h)
  | whileStmt i tq b =>
    dsimp only [combVisitor, cycVisitor, combLeaveHandlers]
    exact cycAgree_nestingExit _ (cycAgree_nestingExit _ h)
  | doWhileStmt i b tq =>
    dsimp only [combVisitor, cycVisitor, combLeaveHandlers]
    exact cycAgree_nestingExit _ (cycAgree_nestingExit _ h)
  | switchStmt i d cs =>
    dsimp only [combVisitor, cycVisitor, combLeaveHandlers]
    exact cycAgree_nestingExit _ (cycAgree_nestingExit _ h)
  | catchCl i b =>
    dsimp only [combVisitor, cycVisitor, combLeaveHandlers]
    exact cycAgree_nestingExit _ (cycAgree_nestingExit _ h)
  | iden i n =>
    dsimp only [combVisitor, cycVisitor, combLeaveHandlers]
    exact cycAgree_nestingExit _ h
  | lit i sv =>
    dsimp only [combVisitor, cycVisitor, combLeaveHandlers]
    exact cycAgree_nestingExit _ h
  | arrayLit i =>
    dsimp only [combVisitor, cycVisitor, combLeaveHandlers]
    exact cycAgree_nestingExit _ h
  | objectLit i =>
    dsimp only [combVisitor, cycVisitor, combLeaveHandlers]
    exact cycAgree_nestingExit _ h
  | thisE i =>
    dsimp only [combVisitor, cycVisitor, combLeaveHandlers]
    exact cycAgree_nestingExit _ h
  | jsxElem i =>
    dsimp only [combVisitor, cycVisitor, combLeaveHandlers]
    exact cycAgree_nestingExit _ h
  | exprStmt i e =>
    dsimp only [combVisitor, cycVisitor, combLeaveHandlers]
    exact cycAgree_nestingExit _ h
  | retStmt i o =>
    dsimp only [combVisitor, cycVisitor, combLeaveHandlers]
    exact cycAgree_nestingExit _ h
  | block i body =>
    dsimp only [combVisitor, cycVisitor, combLeaveHandlers]
    exact cycAgree_nestingExit _ h
  | varDecl i k ds =>
    dsimp only [combVisitor, cycVisitor, combLeaveHandlers]
    exact cycAgree_nestingExit _ h
  | varDeclr i p ini =>
    dsimp only [combVisitor, cycVisitor, combLeaveHandlers]
    exact cycAgree_nestingExit _ h
  | switchCase i tq body =>
    dsimp only [combVisitor, cycVisitor, combLeaveHandlers]
    exact cycAgree_nestingExit _ h
  | tryStmt i b hh f =>
    dsimp only [combVisitor, cycVisitor, combLeaveHandlers]
    exact cycAgree_nestingExit _ h
  | condExpr i tq c alt2 =>
    dsimp only [combVisitor, cycVisitor, combLeaveHandlers]
    exact cycAgree_nestingExit _ h
  | logical i op l r =>
    dsimp only [combVisitor, cycVisitor, combLeaveHandlers]
    exact cycAgree_nestingExit _ h
  | assign i op l r =>
    dsimp only [combVisitor, cycVisitor, combLeaveHandlers]
    exact cycAgree_nestingExit _ h
  | breakStmt i lbl =>
    dsimp only [combVisitor, cycVisitor, combLeaveHandlers]
    exact cycAgree_nestingExit _ h
  | contStmt i lbl =>
    dsimp only [combVisitor, cycVisitor, combLeaveHandlers]
    exact cycAgree_nestingExit _ h
  | callE i c args =>
    dsimp only [combVisitor, cycVisitor, combLeaveHandlers]
    exact cycAgree_nestingExit _ h
  | member i o p cflag =>
    dsimp only [combVisitor, cycVisitor, combLeaveHandlers]
    exact cycAgree_nestingExit _ h

mutual
theorem cycAgree_runVisitor (g : Ast → String) (a : Ast) (anc : List Ast)
    (s : CombState) (t : CycState) (h : CycAgree s t) :
    CycAgree (runVisitor (combVisitor g) a anc s)
      (runVisitor cycVisitor a anc t) := by
  cases a with
  | iden i n =>
    simp only [runVisitor]
    exact cycAgree_leaveStep g _ _ (cycAgree_enterStep g _ _ h)
  | lit i sv =>
    simp only [runVisitor]
    exact cycAgree_leaveStep g _ _ (cycAgree_enterStep g _ _ h)
  | arrayLit i =>
    simp only [runVisitor]
    exact cycAgree_leaveStep g _ _ (cycAgree_enterStep g _ _ h)
  | objectLit i =>
    simp only [runVisitor]
    exact cycAgree_leaveStep g _ _ (cycAgree_enterStep g _ _ h)
  | thisE i =>
    simp only [runVisitor]
    exact cycAgree_leaveStep g _ _ (cycAgree_enterStep g _ _ h)
  | jsxElem i =>
    simp only [runVisitor]
    exact cycAgree_leaveStep g _ _ (cycAgree_enterStep g _ _ h)
  | exprStmt i e =>
    simp only [runVisitor]
    exact cycAgree_leaveStep g _ _
      (cycAgree_runVisitor g e _ _ _ (cycAgree_enterStep g _ _ h))
  | retStmt i o =>
    simp only [runVisitor]
    exact cycAgree_leaveStep g _ _
      (cycAgree_runOpt g o _ _ _ (cycAgree_enterStep g _ _ h))
  | block i body =>
    simp only [runVisitor]
    exact cycAgree_leaveStep g _ _
      (cycAgree_runList g body _ _ _ (cycAgree_enterStep g _ _ h))
  | varDecl i k ds =>
    simp only [runVisitor]
    exact cycAgree_leaveStep g _ _
      (cycAgree_runList g ds _ _ _ (cycAgree_enterStep g _ _ h))
  | varDeclr i p ini =>
    simp only [runVisitor]
    exact cycAgree_leaveStep g _ _ (cycAgree_runOpt g ini _ _ _
      (cycAgree_runVisitor g p _ _ _ (cycAgree_enterStep g _ _ h)))
  | ifStmt i tq c alt =>
    simp only [runVisitor]
    exact cycAgree_leaveStep g _ _ (cycAgree_runOpt g alt _ _ _
      (cycAgree_runVisitor g c _ _ _ (cycAgree_runVisitor g tq _ _ _
        (cycAgree_enterStep g _ _ h))))
  | forStmt i b =>
    simp only [runVisitor]
    exact cycAgree_leaveStep g _ _
      (cycAgree_runVisitor g b _ _ _ (cycAgree_enterStep g _ _ h))
  | forInStmt i l r b =>
    simp only [runVisitor]
    exact cycAgree_leaveStep g _ _ (cycAgree_runVisitor g b _ _ _
      (cycAgree_runVisitor g r _ _ _ (cycAgree_runVisitor g l _ _ _
        (cycAgree_enterStep g _ _ h))))
  | forOfStmt i l r b =>
    simp only [runVisitor]
    exact cycAgree_leaveStep g _ _ (cycAgree_runVisitor g b _ _ _
      (cycAgree_runVisitor g r _ _ _ (cycAgree_runVisitor g l _ _ _
        (cycAgree_enterStep g _ _ h))))
  | whileStmt i tq b =>
    simp only [runVisitor]
    exact cycAgree_leaveStep g _ _ (cycAgree_runVisitor g b _ _ _
      (cycAgree_runVisitor g tq _ _ _ (cycAgree_enterStep g _ _ h)))
  | doWhileStmt i b tq =>
    simp only [runVisitor]
    exact cycAgree_leaveStep g _ _ (cycAgree_runVisitor g tq _ _ _
      (cycAgree_runVisitor g b _ _ _ (cycAgree_enterStep g _ _ h)))
  | switchStmt i d cs =>
    simp only [runVisitor]
    exact cycAgree_leaveStep g _ _ (cycAgree_runList g cs _ _ _
      (cycAgree_runVisitor g d _ _ _ (cycAgree_enterStep g _ _ h)))
  | switchCase i tq body =>
    simp only [runVisitor]
    exact cycAgree_leaveStep g _ _ (cycAgree_runList g body _ _ _
      (cycAgree_runOpt g tq _ _ _ (cycAgree_enterStep g _ _ h)))
  | tryStmt i b hh f =>
    simp only [runVisitor]
    exact cycAgree_leaveStep g _ _ (cycAgree_runOpt g f _ _ _
      (cycAgree_runOpt g hh _ _ _ (cycAgree_runVisitor g b _ _ _
        (cycAgree_enterStep g _ _ h))))
  | catchCl i b =>
    simp only [runVisitor]
    exact cycAgree_leaveStep g _ _
      (cycAgree_runVisitor g b _ _ _ (cycAgree_enterStep g _ _ h))
  | condExpr i tq c alt2 =>
    simp only [runVisitor]
    exact cycAgree_leaveStep g _ _ (cycAgree_runVisitor g alt2 _ _ _
      (cycAgree_runVisitor g c _ _ _ (cycAgree_runVisitor g tq _ _ _
        (cycAgree_enterStep g _ _ h))))
  | logical i op l r =>
    simp only [runVisitor]
    exact cycAgree_leaveStep g _ _ (cycAgree_runVisitor g r _ _ _
      (cycAgree_runVisitor g l _ _ _ (cycAgree_enterStep g _ _ h)))
  | assign i op l r =>
    simp only [runVisitor]
    exact cycAgree_leaveStep g _ _ (cycAgree_runVisitor g r _ _ _
      (cycAgree_runVisitor g l _ _ _ (cycAgree_enterStep g _ _ h)))
  | callE i c args =>
    simp only [runVisitor]
    exact cycAgree_leaveStep g _ _ (cycAgree_runList g args _ _ _
      (cycAgree_runVisitor g c _ _ _ (cycAgree_enterStep g _ _ h)))
  | member i o p cflag =>
    simp only [runVisitor]
    exact cycAgree_leaveStep g _ _ (cycAgree_runVisitor g p _ _ _
      (cycAgree_runVisitor g o _ _ _ (cycAgree_enterStep g _ _ h)))
  | breakStmt i lbl =>
    simp only [runVisitor]
    exact cycAgree_leaveStep g _ _ (cycAgree_enterStep g _ _ h)
  | contStmt i lbl =>
    simp only [runVisitor]
    exact cycAgree_leaveStep g _ _ (cycAgree_enterStep g _ _ h)
  | funcDecl i n b =>
    simp only [runVisitor]
    exact cycAgree_leaveStep g _ _
      (cycAgree_runVisitor g b _ _ _ (cycAgree_enterStep g _ _ h))
  | funcExpr i n b =>
    simp only [runVisitor]
    exact cycAgree_leaveStep g _ _
      (cycAgree_runVisitor g b _ _ _ (cycAgree_enterStep g _ _ h))
  | arrowFunc i b =>
    simp only [runVisitor]
    exact cycAgree_leaveStep g _ _
      (cycAgree_runVisitor g b _ _ _ (cycAgree_enterStep g _ _ h))

theorem cycAgree_runList (g : Ast → String) (xs : List Ast) (anc : List Ast)
    (s : CombState) (t : CycState) (h : CycAgree s t) :
    CycAgree (runList (combVisitor g) xs anc s) (runList cycVisitor xs anc t) := by
  cases xs with
  | nil => simpa [runList] using h
  | cons x rest =>
    simp only [runList]
    exact cycAgree_runList g rest _ _ _ (cycAgree_runVisitor g x _ _ _ h)

theorem cycAgree_runOpt (g : Ast → String) (o : Option Ast) (anc : List Ast)
    (s : CombState) (t : CycState) (h : CycAgree s t) :
    CycAgree (runOpt (combVisitor g) o anc s) (runOpt cycVisitor o anc t) := by
  cases o with
  | none => simpa [runOpt] using h
  | some x =>
    simp only [runOpt]
    exact cycAgree_runVisitor g x _ _ _ h
end

/-- C1 (amended): one-pass refinement holds for the cyclomatic side — for
every source-text oracle and every input tree, the combined scorer's
cyclomatic reports agree with the standalone cyclomatic scorer's reports
function-for-function: same function node, same resolved name, same total,
and the same per-point complexity amounts in the same order.  (The
cognitive sides and the point labels genuinely differ, as the
counterexample shows.) -/
theorem combined_cyclomatic_matches_standalone (g : Ast → String) (a : Ast) :
    (combRun g a).reports.map cycProjRep = (cycRun a).reports.map cycProjRepS :=
  (cycAgree_runVisitor g a [] initComb initCyc ⟨rfl, rfl⟩).2

/-! ### C9: the recursion bonus in the combined scorer

`recSites name a` counts the call sites inside `a` — not descending into
nested function literals, whose calls belong to their own scope — that the
recursion detector classifies as self-recursive against `name`.
`recReps a parent` lists, per emitted function report in emission order,
how many `recursive call` points the report should carry. -/

def recPoint : CPoint := createCPoint "recursive call"

def countRec (ps : List CPoint) : Nat :=
  (ps.filter (fun p => p == recPoint)).length

mutual
def recSites (nm : String) : Ast → Nat
  | .iden _ _ | .lit _ _ | .arrayLit _ | .objectLit _ | .thisE _
  | .jsxElem _ | .breakStmt _ _ | .contStmt _ _ => 0
  | .funcDecl _ _ _ | .funcExpr _ _ _ | .arrowFunc _ _ => 0
  | .exprStmt _ e => recSites nm e
  | .retStmt _ o => recSitesOpt nm o
  | .block _ l => recSitesList nm l
  | .varDecl _ _ l => recSitesList nm l
  | .varDeclr _ p i => recSites nm p + recSitesOpt nm i
  | .ifStmt _ t c a => recSites nm t + recSites nm c + recSitesOpt nm a
  | .forStmt _ b => recSites nm b
  | .forInStmt _ l r b => recSites nm l + recSites nm r + recSites nm b
  | .forOfStmt _ l r b => recSites nm l + recSites nm r + recSites nm b
  | .whileStmt _ t b => recSites nm t + recSites nm b
  | .doWhileStmt _ b t => recSites nm b + recSites nm t
  | .switchStmt _ d cs => recSites nm d + recSitesList nm cs
  | .switchCase _ t b => recSitesOpt nm t + recSitesList nm b
  | .tryStmt _ b h f => recSites nm b + recSitesOpt nm h + recSitesOpt nm f
  | .catchCl _ b => recSites nm b
  | .condExpr _ t c a => recSites nm t + recSites nm c + recSites nm a
  | .logical _ _ l r => recSites nm l + recSites nm r
  | .assign _ _ l r => recSites nm l + recSites nm r
  | .callE _ callee args =>
    (if isRecursiveCall callee nm then 1 else 0) + recSites nm callee +
      recSitesList nm args
  | .member _ o p _ => recSites nm o + recSites nm p
def recSitesList (nm : String) : List Ast → Nat
  | [] => 0
  | x :: xs => recSites nm x + recSitesList nm xs
def recSitesOpt (nm : String) : Option Ast → Nat
  | none => 0
  | some x => recSites nm x
end

/-- How many `recursive call` points a function report carries: one when
the resolved name is nonempty and the body has at least one recursive call
site, none otherwise — never more, regardless of the number of sites. -/
def funcRecCount (nm : String) (b : Ast) : Nat :=
  if nm != "" && decide (0 < recSites nm b) then 1 else 0

mutual
def recReps : Ast → Option Ast → List Nat
  | .iden _ _, _ | .lit _ _, _ | .arrayLit _, _ | .objectLit _, _
  | .thisE _, _ | .jsxElem _, _ | .breakStmt _ _, _ | .contStmt _ _, _ => []
  | .funcDecl i n b, parent =>
    recReps b (some (.funcDecl i n b)) ++
      [funcRecCount (getFunctionName (.funcDecl i n b) parent) b]
  | .funcExpr i n b, parent =>
    recReps b (some (.funcExpr i n b)) ++
      [funcRecCount (getFunctionName (.funcExpr i n b) parent) b]
  | .arrowFunc i b, parent =>
    recReps b (some (.arrowFunc i b)) ++
      [funcRecCount (getFunctionName (.arrowFunc i b) parent) b]
  | .exprStmt i e, _ => recReps e (some (.exprStmt i e))
  | .retStmt i o, _ => recRepsOpt o (some (.retStmt i o))
  | .block i l, _ => recRepsList l (some (.block i l))
  | .varDecl i k l, _ => recRepsList l (some (.varDecl i k l))
  | .varDeclr i p q, _ =>
    recReps p (some (.varDeclr i p q)) ++ recRepsOpt q (some (.varDeclr i p q))
  | .ifStmt i t c a, _ =>
    recReps t (some (.ifStmt i t c a)) ++ recReps c (some (.ifStmt i t c a)) ++
      recRepsOpt a (some (.ifStmt i t c a))
  | .forStmt i b, _ => recReps b (some (.forStmt i b))
  | .forInStmt i l r b, _ =>
    recReps l (some (.forInStmt i l r b)) ++
      recReps r (some (.forInStmt i l r b)) ++
      recReps b (some (.forInStmt i l r b))
  | .forOfStmt i l r b, _ =>
    recReps l (some (.forOfStmt i l r b)) ++
      recReps r (some (.forOfStmt i l r b)) ++
      recReps b (some (.forOfStmt i l r b))
  | .whileStmt i t b, _ =>
    recReps t (some (.whileStmt i t b)) ++ recReps b (some (.whileStmt i t b))
  | .doWhileStmt i b t, _ =>
    recReps b (some (.doWhileStmt i b t)) ++ recReps t (some (.doWhileStmt i b t))
  | .switchStmt i d cs, _ =>
    recReps d (some (.switchStmt i d cs)) ++
      recRepsList cs (some (.switchStmt i d cs))
  | .switchCase i t b, _ =>
    recRepsOpt t (some (.switchCase i t b)) ++
      recRepsList b (some (.switchCase i t b))
  | .tryStmt i b h f, _ =>
    recReps b (some (.tryStmt i b h f)) ++
      recRepsOpt h (some (.tryStmt i b h f)) ++
      recRepsOpt f (some (.tryStmt i b h f))
  | .catchCl i b, _ => recReps b (some (.catchCl i b))
  | .condExpr i t c a, _ =>
    recReps t (some (.condExpr i t c a)) ++
      recReps c (some (.condExpr i t c a)) ++
      recReps a (some (.condExpr i t c a))
  | .logical i op l r, _ =>
    recReps l (some (.logical i op l r)) ++ recReps r (some (.logical i op l r))
  | .assign i op l r, _ =>
    recReps l (some (.assign i op l r)) ++ recReps r (some (.assign i op l r))
  | .callE i c args, _ =>
    recReps c (some (.callE i c args)) ++ recRepsList args (some (.callE i c args))
  | .member i o p cf, _ =>
    recReps o (some (.member i o p cf)) ++ recReps p (some (.member i o p cf))
def recRepsList : List Ast → Option Ast → List Nat
  | [], _ => []
  | x :: xs, parent => recReps x parent ++ recRepsList xs parent
def recRepsOpt : Option Ast → Option Ast → List Nat
  | none, _ => []
  | some x, parent => recReps x parent
end

def recProj (sc : CombScope) : Nat × String × Bool × Nat :=
  (sc.nid, sc.name, sc.hasRecursiveCall, countRec sc.cognitivePoints)

/-- Effect of seeing `k` recursive call sites on a scope's projection:
the flag absorbs them (when the name is nonempty), and the first flag flip
is the one that adds a point. -/
def recStepN (k : Nat) : Nat × String × Bool × Nat → Nat × String × Bool × Nat
  | (i, nm, fl, c) =>
    (i, nm, fl || (nm != "" && decide (0 < k)),
      c + (if fl = false ∧ (nm != "" && decide (0 < k)) = true then 1 else 0))

def recStackRel (k : String → Nat) : List CombScope → List CombScope → Prop
  | [], l => l = []
  | top :: rest, l =>
    ∃ top', l = top' :: rest ∧ recProj top' = recStepN (k top.name) (recProj top)

def recRepProj (r : CombReport) : Nat := countRec r.cognitivePoints

theorem recStepN_zero (p : Nat × String × Bool × Nat) : recStepN 0 p = p := by
  obtain ⟨i, nm, fl, c⟩ := p
  simp [recStepN]

theorem recStepN_comp (k1 k2 : Nat) (p : Nat × String × Bool × Nat) :
    recStepN k2 (recStepN k1 p) = recStepN (k1 + k2) p := by
  obtain ⟨i, nm, fl, c⟩ := p
  simp only [recStepN, Prod.mk.injEq, true_and]
  rcases Bool.eq_false_or_eq_true (nm != "") with hnm | hnm <;>
    simp only [hnm] <;>
    cases fl <;> by_cases h1 : 0 < k1 <;> by_cases h2 : 0 < k2 <;>
      simp [h1, h2] <;> omega

theorem recStackRel_congr {k1 k2 : String → Nat} {l1 l2 : List CombScope}
    (hk : ∀ nm, k1 nm = k2 nm) (h : recStackRel k1 l1 l2) :
    recStackRel k2 l1 l2 := by
  cases l1 with
  | nil => exact h
  | cons top rest =>
    obtain ⟨t, ht, hp⟩ := h
    exact ⟨t, ht, by rw [hp, hk]⟩

theorem recStackRel_comp {k1 k2 : String → Nat} {l1 l2 l3 : List CombScope}
    (h1 : recStackRel k1 l1 l2) (h2 : recStackRel k2 l2 l3) :
    recStackRel (fun nm => k1 nm + k2 nm) l1 l3 := by
  cases l1 with
  | nil =>
    unfold recStackRel at h1
    subst h1
    exact h2
  | cons top rest =>
    obtain ⟨t1, ht1, hp1⟩ := h1
    subst ht1
    obtain ⟨t2, ht2, hp2⟩ := h2
    have hname : t1.name = top.name := by
      have := congrArg (fun q : Nat × String × Bool × Nat => q.2.1) hp1
      simpa [recProj, recStepN] using this
    exact ⟨t2, ht2, by rw [hp2, hp1, recStepN_comp, hname]⟩

theorem recStackRel_refl (l : List CombScope) : recStackRel (fun _ => 0) l l := by
  cases l with
  | nil => rfl
  | cons top rest => exact ⟨top, rfl, by rw [recStepN_zero]⟩

theorem countRec_append_ne (ps : List CPoint) (tag : String) (amt lvl : Int)
    (hne : tag ≠ "recursive call") :
    countRec (ps ++ [createCPoint tag amt lvl]) = countRec ps := by
  unfold countRec
  rw [List.filter_append]
  have hfalse : (createCPoint tag amt lvl == recPoint) = false := by
    rw [beq_eq_false_iff_ne]
    intro hcontra
    exact hne (congrArg CPoint.tag hcontra)
  simp [List.filter, hfalse]

theorem countRec_append_rec (ps : List CPoint) :
    countRec (ps ++ [recPoint]) = countRec ps + 1 := by
  unfold countRec
  rw [List.filter_append]
  simp [List.filter]

theorem recEff_mapTop (s : CombState) (f : CombScope → CombScope)
    (hf : ∀ sc, recProj (f sc) = recProj sc) :
    recStackRel (fun _ => 0) s.stack (s.mapTop f).stack ∧
      (s.mapTop f).reports = s.reports := by
  unfold CombState.mapTop
  split
  · exact ⟨recStackRel_refl _, rfl⟩
  · next top rest heq =>
    refine ⟨?_, rfl⟩
    rw [heq]
    exact ⟨f top, rfl, by rw [hf, recStepN_zero]⟩

theorem recEff_addCyclomatic (tag : String) (s : CombState) :
    recStackRel (fun _ => 0) s.stack (combAddCyclomatic tag s).stack ∧
      (combAddCyclomatic tag s).reports = s.reports :=
  recEff_mapTop s _ (fun sc => by simp [recProj])

theorem recEff_addCognitive (tag : String) (hne : tag ≠ "recursive call")
    (s : CombState) :
    recStackRel (fun _ => 0) s.stack (combAddCognitive tag s).stack ∧
      (combAddCognitive tag s).reports = s.reports :=
  recEff_mapTop s _ (fun sc => by
    simp [recProj, countRec_append_ne _ _ _ _ hne])

theorem recEff_addStructural (tag : String) (hne : tag ≠ "recursive call")
    (s : CombState) :
    recStackRel (fun _ => 0) s.stack (combAddStructural tag s).stack ∧
      (combAddStructural tag s).reports = s.reports :=
  recEff_mapTop s _ (fun sc => by
    simp [recProj, countRec_append_ne _ _ _ _ hne])

theorem recEff_addNestingNode (n : Ast) (s : CombState) :
    recStackRel (fun _ => 0) s.stack (combAddNestingNode n s).stack ∧
      (combAddNestingNode n s).reports = s.reports :=
  recEff_mapTop s _ (fun sc => by simp [recProj])

theorem recEff_nestingEnter (n : Ast) (s : CombState) :
    recStackRel (fun _ => 0) s.stack (combNestingEnter n s).stack ∧
      (combNestingEnter n s).reports = s.reports :=
  recEff_mapTop s _ (fun sc => by unfold recProj; split <;> rfl)

theorem recEff_nestingExit (n : Ast) (s : CombState) :
    recStackRel (fun _ => 0) s.stack (combNestingExit n s).stack ∧
      (combNestingExit n s).reports = s.reports :=
  recEff_mapTop s _ (fun sc => by unfold recProj; split <;> rfl)

theorem recEff_call (node : Ast) (s : CombState) :
    recStackRel (fun nm => if isRecursiveCallNode node nm then 1 else 0) s.stack
      (combCall node s).stack ∧ (combCall node s).reports = s.reports := by
  unfold combCall
  split
  · next heq => exact ⟨by rw [heq]; rfl, rfl⟩
  · next top rest heq =>
    split
    · next hname =>
      refine ⟨?_, rfl⟩
      rw [heq]
      refine ⟨top, rfl, ?_⟩
      have hnm : top.name = "" := by simpa using hname
      simp [recStepN, recProj, hnm]
    · next hname =>
      split
      · next hcond =>
        obtain ⟨hfl', hrec⟩ :
            top.hasRecursiveCall = false ∧
              isRecursiveCallNode node top.name = true := by simpa using hcond
        have hnm : top.name ≠ "" := by simpa using hname
        have hnm' : (top.name != "") = true := bne_iff_ne.mpr hnm
        unfold combAddCognitive CombState.mapTop
        dsimp only
        refine ⟨?_, rfl⟩
        rw [heq]
        refine ⟨_, rfl, ?_⟩
        simp [recProj, recStepN, hfl', hnm', hrec]
        exact countRec_append_rec _
      · next hcond =>
        refine ⟨?_, rfl⟩
        rw [heq]
        refine ⟨top, rfl, ?_⟩
        cases hfl : top.hasRecursiveCall with
        | true => simp [recProj, recStepN, hfl]
        | false =>
          have hrec : isRecursiveCallNode node top.name = false := by
            simpa [hfl] using hcond
          simp [recProj, recStepN, hrec]

theorem recEff_labeledJump (k : String) (hk : 2 < k.length)
    (lbl : Option String) (s : CombState) :
    recStackRel (fun _ => 0) s.stack (combLabeledJump k lbl s).stack ∧
      (combLabeledJump k lbl s).reports = s.reports := by
  unfold combLabeledJump
  split
  · next l =>
    refine recEff_addCognitive _ ?_ s
    intro hcontra
    have hlen := congrArg String.length hcontra
    have e1 : (" to label \'" : String).length = 11 := by decide
    have e2 : ("\'" : String).length = 1 := by decide
    have e3 : ("recursive call" : String).length = 14 := by decide
    simp only [String.length_append, e1, e2, e3] at hlen
    omega
  · exact ⟨recStackRel_refl _, rfl⟩

theorem recStackRel_comp0 {l1 l2 l3 : List CombScope}
    (h1 : recStackRel (fun _ => 0) l1 l2) (h2 : recStackRel (fun _ => 0) l2 l3) :
    recStackRel (fun _ => 0) l1 l3 :=
  recStackRel_congr (fun _ => rfl) (recStackRel_comp h1 h2)

theorem recEff_ifEnter (node : Ast) (anc : List Ast) (s : CombState) :
    recStackRel (fun _ => 0) s.stack (combIfEnter node anc s).stack ∧
      (combIfEnter node anc s).reports = s.reports := by
  unfold combIfEnter
  dsimp only
  obtain ⟨r1, p1⟩ := recEff_addCyclomatic "if" s
  split
  · split
    · obtain ⟨r2, p2⟩ := recEff_addCognitive "else if" (by decide)
        (combAddCyclomatic "if" s)
      exact ⟨recStackRel_comp0 r1 r2, by rw [p2, p1]⟩
    · obtain ⟨r2, p2⟩ := recEff_addStructural "if" (by decide)
        (combAddCyclomatic "if" s)
      obtain ⟨r3, p3⟩ := recEff_addNestingNode _
        (combAddStructural "if" (combAddCyclomatic "if" s))
      exact ⟨recStackRel_comp0 (recStackRel_comp0 r1 r2) r3,
        by rw [p3, p2, p1]⟩
  · exact ⟨r1, p1⟩

theorem recEff_logical (g : Ast → String) (node : Ast) (anc : List Ast)
    (s : CombState) :
    recStackRel (fun _ => 0) s.stack (combLogical g node anc s).stack ∧
      (combLogical g node anc s).reports = s.reports := by
  unfold combLogical
  split
  · exact ⟨recStackRel_refl _, rfl⟩
  · split
    · next i op l r =>
      split
      · exact ⟨recStackRel_refl _, rfl⟩
      · dsimp only
        obtain ⟨r1, p1⟩ := recEff_addCyclomatic op s
        split
        · exact ⟨r1, p1⟩
        · split
          · exact ⟨r1, p1⟩
          · obtain ⟨r2, p2⟩ := recEff_addCognitive
              ("logical operator \'" ++ op ++ "\'") (by
                intro hcontra
                have hlen := congrArg String.length hcontra
                have e1 : ("logical operator \'" : String).length = 18 := by
                  decide
                have e2 : ("\'" : String).length = 1 := by decide
                have e3 : ("recursive call" : String).length = 14 := by decide
                simp only [String.length_append, e1, e2, e3] at hlen
                omega) (combAddCyclomatic op s)
            exact ⟨recStackRel_comp0 r1 r2, by rw [p2, p1]⟩
    · exact ⟨recStackRel_refl _, rfl⟩

theorem recEff_loopEnter (tag : String) (hne : tag ≠ "recursive call")
    (body : Ast) (s : CombState) :
    recStackRel (fun _ => 0) s.stack (combLoopEnter tag body s).stack ∧
      (combLoopEnter tag body s).reports = s.reports := by
  unfold combLoopEnter
  obtain ⟨r1, p1⟩ := recEff_addCyclomatic tag s
  obtain ⟨r2, p2⟩ := recEff_addStructural tag hne (combAddCyclomatic tag s)
  obtain ⟨r3, p3⟩ := recEff_addNestingNode body
    (combAddStructural tag (combAddCyclomatic tag s))
  exact ⟨recStackRel_comp0 (recStackRel_comp0 r1 r2) r3, by rw [p3, p2, p1]⟩

theorem recEff_ifExit (node : Ast) (s : CombState) :
    recStackRel (fun _ => 0) s.stack (combIfExit node s).stack ∧
      (combIfExit node s).reports = s.reports := by
  unfold combIfExit
  split
  · next i tq c alt =>
    dsimp only
    obtain ⟨r1, p1⟩ := recEff_nestingExit c s
    split
    · split
      · exact ⟨r1, p1⟩
      · obtain ⟨r2, p2⟩ := recEff_addCognitive "else" (by decide)
          (combNestingExit c s)
        obtain ⟨r3, p3⟩ := recEff_addNestingNode _
          (combAddCognitive "else" (combNestingExit c s))
        exact ⟨recStackRel_comp0 (recStackRel_comp0 r1 r2) r3,
          by rw [p3, p2, p1]⟩
    · exact ⟨r1, p1⟩
  · exact ⟨recStackRel_refl _, rfl⟩

def isFnNode : Ast → Bool
  | .funcDecl _ _ _ | .funcExpr _ _ _ | .arrowFunc _ _ => true
  | _ => false

theorem recEff_enterFn (node : Ast) (anc : List Ast) (s : CombState) :
    (combEnterFunction node anc s).reports = s.reports ∧
      ((s.stack = [] ∧ (combEnterFunction node anc s).stack =
          [⟨node.nid, getFunctionName node anc.head?, [], [], 0, [], false⟩]) ∨
        (∃ top rest top', s.stack = top :: rest ∧
          (combEnterFunction node anc s).stack =
            ⟨node.nid, getFunctionName node anc.head?, [], [], 0, [], false⟩ ::
              top' :: rest ∧
          recProj top' = recProj top)) := by
  unfold combEnterFunction
  dsimp only
  split
  · next hc =>
    cases hs : s.stack with
    | nil => rw [hs] at hc; simp at hc
    | cons top rest =>
      refine ⟨rfl, Or.inr ⟨top, rest, _, rfl, rfl, ?_⟩⟩
      simp only [recProj, Prod.mk.injEq, true_and]
      exact countRec_append_ne _ _ _ _ (by split <;> decide)
  · cases hs : s.stack with
    | nil => exact ⟨rfl, Or.inl ⟨rfl, rfl⟩⟩
    | cons top rest => exact ⟨rfl, Or.inr ⟨top, rest, top, rfl, rfl, rfl⟩⟩

theorem recEff_exitFn (s : CombState) (top : CombScope) (rest : List CombScope)
    (h : s.stack = top :: rest) :
    (combExitFunction s).stack = rest ∧
      (combExitFunction s).reports.map recRepProj =
        s.reports.map recRepProj ++ [countRec top.cognitivePoints] := by
  unfold combExitFunction
  rw [h]
  exact ⟨rfl, by simp [recRepProj]⟩

theorem recStackRel_to_ite (a : Ast) (ha : ∀ nm, isRecursiveCallNode a nm = false)
    {l1 l2 : List CombScope} (h : recStackRel (fun _ => 0) l1 l2) :
    recStackRel (fun nm => if isRecursiveCallNode a nm then 1 else 0) l1 l2 :=
  recStackRel_congr (fun nm => by simp [ha]) h

theorem recEff_enterStep (g : Ast → String) (a : Ast) (anc : List Ast)
    (s : CombState) (hnf : isFnNode a = false) :
    recStackRel (fun nm => if isRecursiveCallNode a nm then 1 else 0) s.stack
      ((combVisitor g).enter a anc s).stack ∧
      ((combVisitor g).enter a anc s).reports = s.reports := by
  cases a with
  | funcDecl i n b => simp [isFnNode] at hnf
  | funcExpr i n b => simp [isFnNode] at hnf
  | arrowFunc i b => simp [isFnNode] at hnf
  | callE i c args =>
    dsimp only [combVisitor, combEnterHandlers]
    obtain ⟨r1, p1⟩ := recEff_call (.callE i c args) s
    obtain ⟨r2, p2⟩ := recEff_nestingEnter (.callE i c args)
      (combCall (.callE i c args) s)
    refine ⟨?_, by rw [p2, p1]⟩
    exact recStackRel_congr (fun nm => by simp) (recStackRel_comp r1 r2)
  | ifStmt i tq c alt =>
    dsimp only [combVisitor, combEnterHandlers]
    obtain ⟨r1, p1⟩ := recEff_ifEnter (.ifStmt i tq c alt) anc s
    obtain ⟨r2, p2⟩ := recEff_nestingEnter (.ifStmt i tq c alt) _
    exact ⟨recStackRel_to_ite (.ifStmt i tq c alt) (fun nm => rfl) (recStackRel_comp0 r1 r2),
      by rw [p2, p1]⟩
  | forStmt i b =>
    dsimp only [combVisitor, combEnterHandlers]
    obtain ⟨r1, p1⟩ := recEff_loopEnter "for" (by decide) b s
    obtain ⟨r2, p2⟩ := recEff_nestingEnter (.forStmt i b) _
    exact ⟨recStackRel_to_ite (.forStmt i b) (fun nm => rfl) (recStackRel_comp0 r1 r2),
      by rw [p2, p1]⟩
  | forInStmt i l r b =>
    dsimp only [combVisitor, combEnterHandlers]
    obtain ⟨r1, p1⟩ := recEff_loopEnter "for-in" (by decide) b s
    obtain ⟨r2, p2⟩ := recEff_nestingEnter (.forInStmt i l r b) _
    exact ⟨recStackRel_to_ite (.forInStmt i l r b) (fun nm => rfl) (recStackRel_comp0 r1 r2),
      by rw [p2, p1]⟩
  | forOfStmt i l r b =>
    dsimp only [combVisitor, combEnterHandlers]
    obtain ⟨r1, p1⟩ := recEff_loopEnter "for-of" (by decide) b s
    obtain ⟨r2, p2⟩ := recEff_nestingEnter (.forOfStmt i l r b) _
    exact ⟨recStackRel_to_ite (.forOfStmt i l r b) (fun nm => rfl) (recStackRel_comp0 r1 r2),
      by rw [p2, p1]⟩
  | whileStmt i tq b =>
    dsimp only [combVisitor, combEnterHandlers]
    obtain ⟨r1, p1⟩ := recEff_loopEnter "while" (by decide) b s
    obtain ⟨r2, p2⟩ := recEff_nestingEnter (.whileStmt i tq b) _
    exact ⟨recStackRel_to_ite (.whileStmt i tq b) (fun nm => rfl) (recStackRel_comp0 r1 r2),
      by rw [p2, p1]⟩
  | doWhileStmt i b tq =>
    dsimp only [combVisitor, combEnterHandlers]
    obtain ⟨r1, p1⟩ := recEff_loopEnter "do-while" (by decide) b s
    obtain ⟨r2, p2⟩ := recEff_nestingEnter (.doWhileStmt i b tq) _
    exact ⟨recStackRel_to_ite (.doWhileStmt i b tq) (fun nm => rfl) (recStackRel_comp0 r1 r2),
      by rw [p2, p1]⟩
  | switchStmt i d cs =>
    dsimp only [combVisitor, combEnterHandlers]
    obtain ⟨r1, p1⟩ := recEff_addStructural "switch" (by decide) s
    obtain ⟨r2, p2⟩ := recEff_addNestingNode (.switchStmt i d cs) _
    obtain ⟨r3, p3⟩ := recEff_nestingEnter (.switchStmt i d cs) _
    exact ⟨recStackRel_to_ite (.switchStmt i d cs) (fun nm => rfl)
      (recStackRel_comp0 (recStackRel_comp0 r1 r2) r3), by rw [p3, p2, p1]⟩
  | switchCase i tq body =>
    cases tq with
    | some x =>
      dsimp only [combVisitor, combEnterHandlers]
      obtain ⟨r1, p1⟩ := recEff_addCyclomatic "case" s
      obtain ⟨r2, p2⟩ := recEff_nestingEnter (.switchCase i (some x) body) _
      exact ⟨recStackRel_to_ite (.switchCase i (some x) body) (fun nm => rfl) (recStackRel_comp0 r1 r2),
        by rw [p2, p1]⟩
    | none =>
      dsimp only [combVisitor, combEnterHandlers]
      obtain ⟨r2, p2⟩ := recEff_nestingEnter (.switchCase i none body) s
      exact ⟨recStackRel_to_ite (.switchCase i none body) (fun nm => rfl) r2, p2⟩
  | catchCl i b =>
    dsimp only [combVisitor, combEnterHandlers]
    obtain ⟨r1, p1⟩ := recEff_addCyclomatic "catch" s
    obtain ⟨r2, p2⟩ := recEff_addStructural "catch" (by decide) _
    obtain ⟨r3, p3⟩ := recEff_addNestingNode b _
    obtain ⟨r4, p4⟩ := recEff_nestingEnter (.catchCl i b) _
    exact ⟨recStackRel_to_ite (.catchCl i b) (fun nm => rfl)
      (recStackRel_comp0 (recStackRel_comp0 (recStackRel_comp0 r1 r2) r3) r4),
      by rw [p4, p3, p2, p1]⟩
  | condExpr i tq c alt2 =>
    dsimp only [combVisitor, combEnterHandlers]
    obtain ⟨r1, p1⟩ := recEff_addCyclomatic "ternary" s
    obtain ⟨r2, p2⟩ := recEff_addStructural "ternary operator" (by decide) _
    obtain ⟨r3, p3⟩ := recEff_addNestingNode c _
    obtain ⟨r4, p4⟩ := recEff_addNestingNode alt2 _
    obtain ⟨r5, p5⟩ := recEff_nestingEnter (.condExpr i tq c alt2) _
    exact ⟨recStackRel_to_ite (.condExpr i tq c alt2) (fun nm => rfl)
      (recStackRel_comp0 (recStackRel_comp0
        (recStackRel_comp0 (recStackRel_comp0 r1 r2) r3) r4) r5),
      by rw [p5, p4, p3, p2, p1]⟩
  | logical i op l r =>
    dsimp only [combVisitor, combEnterHandlers]
    obtain ⟨r1, p1⟩ := recEff_logical g (.logical i op l r) anc s
    obtain ⟨r2, p2⟩ := recEff_nestingEnter (.logical i op l r) _
    exact ⟨recStackRel_to_ite (.logical i op l r) (fun nm => rfl) (recStackRel_comp0 r1 r2),
      by rw [p2, p1]⟩
  | assign i op l r =>
    dsimp only [combVisitor, combEnterHandlers]
    by_cases hop : LOGICAL_ASSIGNMENT_OPERATORS.contains op
    · simp only [hop, if_true]
      obtain ⟨r1, p1⟩ := recEff_addCyclomatic op s
      obtain ⟨r2, p2⟩ := recEff_nestingEnter (.assign i op l r) _
      exact ⟨recStackRel_to_ite (.assign i op l r) (fun nm => rfl) (recStackRel_comp0 r1 r2),
        by rw [p2, p1]⟩
    · simp only [hop, if_false, Bool.false_eq_true]
      obtain ⟨r2, p2⟩ := recEff_nestingEnter (.assign i op l r) s
      exact ⟨recStackRel_to_ite (.assign i op l r) (fun nm => rfl) r2, p2⟩
  | breakStmt i lbl =>
    dsimp only [combVisitor, combEnterHandlers]
    obtain ⟨r1, p1⟩ := recEff_labeledJump "break" (by decide) lbl s
    obtain ⟨r2, p2⟩ := recEff_nestingEnter (.breakStmt i lbl) _
    exact ⟨recStackRel_to_ite (.breakStmt i lbl) (fun nm => rfl) (recStackRel_comp0 r1 r2),
      by rw [p2, p1]⟩
  | contStmt i lbl =>
    dsimp only [combVisitor, combEnterHandlers]
    obtain ⟨r1, p1⟩ := recEff_labeledJump "continue" (by decide) lbl s
    obtain ⟨r2, p2⟩ := recEff_nestingEnter (.contStmt i lbl) _
    exact ⟨recStackRel_to_ite (.contStmt i lbl) (fun nm => rfl) (recStackRel_comp0 r1 r2),
      by rw [p2, p1]⟩
  | iden i n =>
    dsimp only [combVisitor, combEnterHandlers]
    obtain ⟨r2, p2⟩ := recEff_nestingEnter (.iden i n) s
    exact ⟨recStackRel_to_ite (.iden i n) (fun nm => rfl) r2, p2⟩
  | lit i sv =>
    dsimp only [combVisitor, combEnterHandlers]
    obtain ⟨r2, p2⟩ := recEff_nestingEnter (.lit i sv) s
    exact ⟨recStackRel_to_ite (.lit i sv) (fun nm => rfl) r2, p2⟩
  | arrayLit i =>
    dsimp only [combVisitor, combEnterHandlers]
    obtain ⟨r2, p2⟩ := recEff_nestingEnter (.arrayLit i) s
    exact ⟨recStackRel_to_ite (.arrayLit i) (fun nm => rfl) r2, p2⟩
  | objectLit i =>
    dsimp only [combVisitor, combEnterHandlers]
    obtain ⟨r2, p2⟩ := recEff_nestingEnter (.objectLit i) s
    exact ⟨recStackRel_to_ite (.objectLit i) (fun nm => rfl) r2, p2⟩
  | thisE i =>
    dsimp only [combVisitor, combEnterHandlers]
    obtain ⟨r2, p2⟩ := recEff_nestingEnter (.thisE i) s
    exact ⟨recStackRel_to_ite (.thisE i) (fun nm => rfl) r2, p2⟩
  | jsxElem i =>
    dsimp only [combVisitor, combEnterHandlers]
    obtain ⟨r2, p2⟩ := recEff_nestingEnter (.jsxElem i) s
    exact ⟨recStackRel_to_ite (.jsxElem i) (fun nm => rfl) r2, p2⟩
  | exprStmt i e =>
    dsimp only [combVisitor, combEnterHandlers]
    obtain ⟨r2, p2⟩ := recEff_nestingEnter (.exprStmt i e) s
    exact ⟨recStackRel_to_ite (.exprStmt i e) (fun nm => rfl) r2, p2⟩
  | retStmt i o =>
    dsimp only [combVisitor, combEnterHandlers]
    obtain ⟨r2, p2⟩ := recEff_nestingEnter (.retStmt i o) s
    exact ⟨recStackRel_to_ite (.retStmt i o) (fun nm => rfl) r2, p2⟩
  | block i body =>
    dsimp only [combVisitor, combEnterHandlers]
    obtain ⟨r2, p2⟩ := recEff_nestingEnter (.block i body) s
    exact ⟨recStackRel_to_ite (.block i body) (fun nm => rfl) r2, p2⟩
  | varDecl i k ds =>
    dsimp only [combVisitor, combEnterHandlers]
    obtain ⟨r2, p2⟩ := recEff_nestingEnter (.varDecl i k ds) s
    exact ⟨recStackRel_to_ite (.varDecl i k ds) (fun nm => rfl) r2, p2⟩
  | varDeclr i p ini =>
    dsimp only [combVisitor, combEnterHandlers]
    obtain ⟨r2, p2⟩ := recEff_nestingEnter (.varDeclr i p ini) s
    exact ⟨recStackRel_to_ite (.varDeclr i p ini) (fun nm => rfl) r2, p2⟩
  | tryStmt i b hh f =>
    dsimp only [combVisitor, combEnterHandlers]
    obtain ⟨r2, p2⟩ := recEff_nestingEnter (.tryStmt i b hh f) s
    exact ⟨recStackRel_to_ite (.tryStmt i b hh f) (fun nm => rfl) r2, p2⟩
  | member i o p cf =>
    dsimp only [combVisitor, combEnterHandlers]
    obtain ⟨r2, p2⟩ := recEff_nestingEnter (.member i o p cf) s
    exact ⟨recStackRel_to_ite (.member i o p cf) (fun nm => rfl) r2, p2⟩

theorem recEff_leaveStep (g : Ast → String) (a : Ast) (anc : List Ast)
    (s : CombState) (hnf : isFnNode a = false) :
    recStackRel (fun _ => 0) s.stack ((combVisitor g).leave a anc s).stack ∧
      ((combVisitor g).leave a anc s).reports = s.reports := by
  cases a with
  | funcDecl i n b => simp [isFnNode] at hnf
  | funcExpr i n b => simp [isFnNode] at hnf
  | arrowFunc i b => simp [isFnNode] at hnf
  | ifStmt i tq c alt =>
    dsimp only [combVisitor, combLeaveHandlers]
    obtain ⟨r1, p1⟩ := recEff_ifExit (.ifStmt i tq c alt) s
    obtain ⟨r2, p2⟩ := recEff_nestingExit (.ifStmt i tq c alt) _
    exact ⟨recStackRel_comp0 r1 r2, by rw [p2, p1]⟩
  | forStmt i b =>
    dsimp only [combVisitor, combLeaveHandlers]
    obtain ⟨r1, p1⟩ := recEff_nestingExit b s
    obtain ⟨r2, p2⟩ := recEff_nestingExit (.forStmt i b) _
    exact ⟨recStackRel_comp0 r1 r2, by rw [p2, p1]⟩
  | forInStmt i l r b =>
    dsimp only [combVisitor, combLeaveHandlers]
    obtain ⟨r1, p1⟩ := recEff_nestingExit b s
    obtain ⟨r2, p2⟩ := recEff_nestingExit (.forInStmt i l r b) _
    exact ⟨recStackRel_comp0 r1 r2, by rw [p2, p1]⟩
  | forOfStmt i l r b =>
    dsimp only [combVisitor, combLeaveHandlers]
    obtain ⟨r1, p1⟩ := recEff_nestingExit b s
    obtain ⟨r2, p2⟩ := recEff_nestingExit (.forOfStmt i l r b) _
    exact ⟨recStackRel_comp0 r1 r2, by rw [p2, p1]⟩
  | whileStmt i tq b =>
    dsimp only [combVisitor, combLeaveHandlers]
    obtain ⟨r1, p1⟩ := recEff_nestingExit b s
    obtain ⟨r2, p2⟩ := recEff_nestingExit (.whileStmt i tq b) _
    exact ⟨recStackRel_comp0 r1 r2, by rw [p2, p1]⟩
  | doWhileStmt i b tq =>
    dsimp only [combVisitor, combLeaveHandlers]
    obtain ⟨r1, p1⟩ := recEff_nestingExit b s
    obtain ⟨r2, p2⟩ := recEff_nestingExit (.doWhileStmt i b tq) _
    exact ⟨recStackRel_comp0 r1 r2, by rw [p2, p1]⟩
  | switchStmt i d cs =>
    dsimp only [combVisitor, combLeaveHandlers]
    obtain ⟨r1, p1⟩ := recEff_nestingExit (.switchStmt i d cs) s
    obtain ⟨r2, p2⟩ := recEff_nestingExit (.switchStmt i d cs) _
    exact ⟨recStackRel_comp0 r1 r2, by rw [p2, p1]⟩
  | catchCl i b =>
    dsimp only [combVisitor, combLeaveHandlers]
    obtain ⟨r1, p1⟩ := recEff_nestingExit b s
    obtain ⟨r2, p2⟩ := recEff_nestingExit (.catchCl i b) _
    exact ⟨recStackRel_comp0 r1 r2, by rw [p2, p1]⟩
  | iden i n =>
    dsimp only [combVisitor, combLeaveHandlers]
    exact recEff_nestingExit (.iden i n) s
  | lit i sv =>
    dsimp only [combVisitor, combLeaveHandlers]
    exact recEff_nestingExit (.lit i sv) s
  | arrayLit i =>
    dsimp only [combVisitor, combLeaveHandlers]
    exact recEff_nestingExit (.arrayLit i) s
  | objectLit i =>
    dsimp only [combVisitor, combLeaveHandlers]
    exact recEff_nestingExit (.objectLit i) s
  | thisE i =>
    dsimp only [combVisitor, combLeaveHandlers]
    exact recEff_nestingExit (.thisE i) s
  | jsxElem i =>
    dsimp only [combVisitor, combLeaveHandlers]
    exact recEff_nestingExit (.jsxElem i) s
  | exprStmt i e =>
    dsimp only [combVisitor, combLeaveHandlers]
    exact recEff_nestingExit (.exprStmt i e) s
  | retStmt i o =>
    dsimp only [combVisitor, combLeaveHandlers]
    exact recEff_nestingExit (.retStmt i o) s
  | block i body =>
    dsimp only [combVisitor, combLeaveHandlers]
    exact recEff_nestingExit (.block i body) s
  | varDecl i k ds =>
    dsimp only [combVisitor, combLeaveHandlers]
    exact recEff_nestingExit (.varDecl i k ds) s
  | varDeclr i p ini =>
    dsimp only [combVisitor, combLeaveHandlers]
    exact recEff_nestingExit (.varDeclr i p ini) s
  | switchCase i tq body =>
    dsimp only [combVisitor, combLeaveHandlers]
    exact recEff_nestingExit (.switchCase i tq body) s
  | tryStmt i b hh f =>
    dsimp only [combVisitor, combLeaveHandlers]
    exact recEff_nestingExit (.tryStmt i b hh f) s
  | condExpr i tq c alt2 =>
    dsimp only [combVisitor, combLeaveHandlers]
    exact recEff_nestingExit (.condExpr i tq c alt2) s
  | logical i op l r =>
    dsimp only [combVisitor, combLeaveHandlers]
    exact recEff_nestingExit (.logical i op l r) s
  | assign i op l r =>
    dsimp only [combVisitor, combLeaveHandlers]
    exact recEff_nestingExit (.assign i op l r) s
  | breakStmt i lbl =>
    dsimp only [combVisitor, combLeaveHandlers]
    exact recEff_nestingExit (.breakStmt i lbl) s
  | contStmt i lbl =>
    dsimp only [combVisitor, combLeaveHandlers]
    exact recEff_nestingExit (.contStmt i lbl) s
  | callE i c args =>
    dsimp only [combVisitor, combLeaveHandlers]
    exact recEff_nestingExit (.callE i c args) s
  | member i o p cf =>
    dsimp only [combVisitor, combLeaveHandlers]
    exact recEff_nestingExit (.member i o p cf) s

theorem nestingEnter_cons (a : Ast) (s : CombState) (top : CombScope)
    (rest : List CombScope) (h : s.stack = top :: rest) :
    ∃ top2, (combNestingEnter a s).stack = top2 :: rest ∧
      recProj top2 = recProj top ∧ (combNestingEnter a s).reports = s.reports := by
  unfold combNestingEnter CombState.mapTop
  rw [h]
  refine ⟨_, rfl, ?_, rfl⟩
  dsimp only
  unfold recProj
  split <;> rfl

theorem recRun_function_shape (g : Ast → String) (a b : Ast) (anc : List Ast)
    (s : CombState)
    (hb_rel : recStackRel (fun nm => recSites nm b)
      (combNestingEnter a (combEnterFunction a anc s)).stack
      (runVisitor (combVisitor g) b (a :: anc)
        (combNestingEnter a (combEnterFunction a anc s))).stack)
    (hb_rep : (runVisitor (combVisitor g) b (a :: anc)
        (combNestingEnter a (combEnterFunction a anc s))).reports.map recRepProj =
      (combNestingEnter a (combEnterFunction a anc s)).reports.map recRepProj ++
        recReps b (some a)) :
    recStackRel (fun _ => 0) s.stack
      (combNestingExit a (combExitFunction (runVisitor (combVisitor g) b
        (a :: anc) (combNestingEnter a (combEnterFunction a anc s))))).stack ∧
    (combNestingExit a (combExitFunction (runVisitor (combVisitor g) b
        (a :: anc)
        (combNestingEnter a (combEnterFunction a anc s))))).reports.map
        recRepProj =
      s.reports.map recRepProj ++ recReps b (some a) ++
        [funcRecCount (getFunctionName a anc.head?) b] := by
  obtain ⟨qrep, hshape⟩ := recEff_enterFn a anc s
  rcases hshape with ⟨hnil, hstk⟩ | ⟨top, rest, topP, hs, hstk, hproj⟩
  · obtain ⟨ns2, hns2, hpns2, hrep2⟩ := nestingEnter_cons a _ _ _ hstk
    rw [hns2] at hb_rel
    obtain ⟨t2, ht2, hpt⟩ := hb_rel
    obtain ⟨q4stack, q4rep⟩ := recEff_exitFn _ t2 _ ht2
    obtain ⟨e5, q5⟩ := recEff_nestingExit a (combExitFunction _)
    rw [q4stack] at e5
    have hcount : countRec t2.cognitivePoints =
        funcRecCount (getFunctionName a anc.head?) b := by
      have h4 := congrArg (fun q : Nat × String × Bool × Nat => q.2.2.2) hpt
      have hnq := congrArg (fun q : Nat × String × Bool × Nat => q.2.1) hpns2
      rw [hpns2] at h4
      simp only [recProj] at hnq h4
      rw [hnq] at h4
      simpa [recStepN, countRec, funcRecCount] using h4
    constructor
    · rw [hnil]
      exact e5
    · rw [q5, q4rep, hb_rep, hrep2, qrep, hcount, List.append_assoc]
  · obtain ⟨ns2, hns2, hpns2, hrep2⟩ := nestingEnter_cons a _ _ _ hstk
    rw [hns2] at hb_rel
    obtain ⟨t2, ht2, hpt⟩ := hb_rel
    obtain ⟨q4stack, q4rep⟩ := recEff_exitFn _ t2 _ ht2
    obtain ⟨e5, q5⟩ := recEff_nestingExit a (combExitFunction _)
    rw [q4stack] at e5
    have hcount : countRec t2.cognitivePoints =
        funcRecCount (getFunctionName a anc.head?) b := by
      have h4 := congrArg (fun q : Nat × String × Bool × Nat => q.2.2.2) hpt
      have hnq := congrArg (fun q : Nat × String × Bool × Nat => q.2.1) hpns2
      rw [hpns2] at h4
      simp only [recProj] at hnq h4
      rw [hnq] at h4
      simpa [recStepN, countRec, funcRecCount] using h4
    constructor
    · rw [hs]
      obtain ⟨top2, htop2, hptop2⟩ := e5
      refine ⟨top2, htop2, ?_⟩
      rw [hptop2, hproj]
    · rw [q5, q4rep, hb_rep, hrep2, qrep, hcount, List.append_assoc]

/-! ### One-step unfolding equations for the runner (definitional) -/

theorem runVisitor_iden {σ : Type} (V : EmbVisitor σ) (i : Nat) (n : String)
    (anc : List Ast) (s : σ) :
    runVisitor V (.iden i n) anc s =
      V.leave (.iden i n) anc (V.enter (.iden i n) anc s) := rfl

theorem runVisitor_lit {σ : Type} (V : EmbVisitor σ) (i : Nat) (sv : Option String)
    (anc : List Ast) (s : σ) :
    runVisitor V (.lit i sv) anc s =
      V.leave (.lit i sv) anc (V.enter (.lit i sv) anc s) := rfl

theorem runVisitor_arrayLit {σ : Type} (V : EmbVisitor σ) (i : Nat)
    (anc : List Ast) (s : σ) :
    runVisitor V (.arrayLit i) anc s =
      V.leave (.arrayLit i) anc (V.enter (.arrayLit i) anc s) := rfl

theorem runVisitor_objectLit {σ : Type} (V : EmbVisitor σ) (i : Nat)
    (anc : List Ast) (s : σ) :
    runVisitor V (.objectLit i) anc s =
      V.leave (.objectLit i) anc (V.enter (.objectLit i) anc s) := rfl

theorem runVisitor_thisE {σ : Type} (V : EmbVisitor σ) (i : Nat)
    (anc : List Ast) (s : σ) :
    runVisitor V (.thisE i) anc s =
      V.leave (.thisE i) anc (V.enter (.thisE i) anc s) := rfl

theorem runVisitor_jsxElem {σ : Type} (V : EmbVisitor σ) (i : Nat)
    (anc : List Ast) (s : σ) :
    runVisitor V (.jsxElem i) anc s =
      V.leave (.jsxElem i) anc (V.enter (.jsxElem i) anc s) := rfl

theorem runVisitor_exprStmt {σ : Type} (V : EmbVisitor σ) (i : Nat) (e : Ast)
    (anc : List Ast) (s : σ) :
    runVisitor V (.exprStmt i e) anc s =
      V.leave (.exprStmt i e) anc (runVisitor V e ((.exprStmt i e : Ast) :: anc) (V.enter (.exprStmt i e) anc s)) := rfl

theorem runVisitor_retStmt {σ : Type} (V : EmbVisitor σ) (i : Nat) (o : Option Ast)
    (anc : List Ast) (s : σ) :
    runVisitor V (.retStmt i o) anc s =
      V.leave (.retStmt i o) anc (runOpt V o ((.retStmt i o : Ast) :: anc) (V.enter (.retStmt i o) anc s)) := rfl

theorem runVisitor_block {σ : Type} (V : EmbVisitor σ) (i : Nat) (body : List Ast)
    (anc : List Ast) (s : σ) :
    runVisitor V (.block i body) anc s =
      V.leave (.block i body) anc (runList V body ((.block i body : Ast) :: anc) (V.enter (.block i body) anc s)) := rfl

theorem runVisitor_varDecl {σ : Type} (V : EmbVisitor σ) (i : Nat) (k : String) (ds : List Ast)
    (anc : List Ast) (s : σ) :
    runVisitor V (.varDecl i k ds) anc s =
      V.leave (.varDecl i k ds) anc (runList V ds ((.varDecl i k ds : Ast) :: anc) (V.enter (.varDecl i k ds) anc s)) := rfl

theorem runVisitor_varDeclr {σ : Type} (V : EmbVisitor σ) (i : Nat) (p : Ast) (ini : Option Ast)
    (anc : List Ast) (s : σ) :
    runVisitor V (.varDeclr i p ini) anc s =
      V.leave (.varDeclr i p ini) anc (runOpt V ini ((.varDeclr i p ini : Ast) :: anc) (runVisitor V p ((.varDeclr i p ini : Ast) :: anc) (V.enter (.varDeclr i p ini) anc s))) := rfl

theorem runVisitor_ifStmt {σ : Type} (V : EmbVisitor σ) (i : Nat) (tq : Ast) (c : Ast) (alt : Option Ast)
    (anc : List Ast) (s : σ) :
    runVisitor V (.ifStmt i tq c alt) anc s =
      V.leave (.ifStmt i tq c alt) anc (runOpt V alt ((.ifStmt i tq c alt : Ast) :: anc) (runVisitor V c ((.ifStmt i tq c alt : Ast) :: anc) (runVisitor V tq ((.ifStmt i tq c alt : Ast) :: anc) (V.enter (.ifStmt i tq c alt) anc s)))) := rfl

theorem runVisitor_forStmt {σ : Type} (V : EmbVisitor σ) (i : Nat) (b : Ast)
    (anc : List Ast) (s : σ) :
    runVisitor V (.forStmt i b) anc s =
      V.leave (.forStmt i b) anc (runVisitor V b ((.forStmt i b : Ast) :: anc) (V.enter (.forStmt i b) anc s)) := rfl

theorem runVisitor_forInStmt {σ : Type} (V : EmbVisitor σ) (i : Nat) (l : Ast) (r : Ast) (b : Ast)
    (anc : List Ast) (s : σ) :
    runVisitor V (.forInStmt i l r b) anc s =
      V.leave (.forInStmt i l r b) anc (runVisitor V b ((.forInStmt i l r b : Ast) :: anc) (runVisitor V r ((.forInStmt i l r b : Ast) :: anc) (runVisitor V l ((.forInStmt i l r b : Ast) :: anc) (V.enter (.forInStmt i l r b) anc s)))) := rfl

theorem runVisitor_forOfStmt {σ : Type} (V : EmbVisitor σ) (i : Nat) (l : Ast) (r : Ast) (b : Ast)
    (anc : List Ast) (s : σ) :
    runVisitor V (.forOfStmt i l r b) anc s =
      V.leave (.forOfStmt i l r b) anc (runVisitor V b ((.forOfStmt i l r b : Ast) :: anc) (runVisitor V r ((.forOfStmt i l r b : Ast) :: anc) (runVisitor V l ((.forOfStmt i l r b : Ast) :: anc) (V.enter (.forOfStmt i l r b) anc s)))) := rfl

theorem runVisitor_whileStmt {σ : Type} (V : EmbVisitor σ) (i : Nat) (tq : Ast) (b : Ast)
    (anc : List Ast) (s : σ) :
    runVisitor V (.whileStmt i tq b) anc s =
      V.leave (.whileStmt i tq b) anc (runVisitor V b ((.whileStmt i tq b : Ast) :: anc) (runVisitor V tq ((.whileStmt i tq b : Ast) :: anc) (V.enter (.whileStmt i tq b) anc s))) := rfl

theorem runVisitor_doWhileStmt {σ : Type} (V : EmbVisitor σ) (i : Nat) (b : Ast) (tq : Ast)
    (anc : List Ast) (s : σ) :
    runVisitor V (.doWhileStmt i b tq) anc s =
      V.leave (.doWhileStmt i b tq) anc (runVisitor V tq ((.doWhileStmt i b tq : Ast) :: anc) (runVisitor V b ((.doWhileStmt i b tq : Ast) :: anc) (V.enter (.doWhileStmt i b tq) anc s))) := rfl

theorem runVisitor_switchStmt {σ : Type} (V : EmbVisitor σ) (i : Nat) (d : Ast) (cs : List Ast)
    (anc : List Ast) (s : σ) :
    runVisitor V (.switchStmt i d cs) anc s =
      V.leave (.switchStmt i d cs) anc (runList V cs ((.switchStmt i d cs : Ast) :: anc) (runVisitor V d ((.switchStmt i d cs : Ast) :: anc) (V.enter (.switchStmt i d cs) anc s))) := rfl

theorem runVisitor_switchCase {σ : Type} (V : EmbVisitor σ) (i : Nat) (tq : Option Ast) (body : List Ast)
    (anc : List Ast) (s : σ) :
    runVisitor V (.switchCase i tq body) anc s =
      V.leave (.switchCase i tq body) anc (runList V body ((.switchCase i tq body : Ast) :: anc) (runOpt V tq ((.switchCase i tq body : Ast) :: anc) (V.enter (.switchCase i tq body) anc s))) := rfl

theorem runVisitor_tryStmt {σ : Type} (V : EmbVisitor σ) (i : Nat) (b : Ast) (hh : Option Ast) (f : Option Ast)
    (anc : List Ast) (s : σ) :
    runVisitor V (.tryStmt i b hh f) anc s =
      V.leave (.tryStmt i b hh f) anc (runOpt V f ((.tryStmt i b hh f : Ast) :: anc) (runOpt V hh ((.tryStmt i b hh f : Ast) :: anc) (runVisitor V b ((.tryStmt i b hh f : Ast) :: anc) (V.enter (.tryStmt i b hh f) anc s)))) := rfl

theorem runVisitor_catchCl {σ : Type} (V : EmbVisitor σ) (i : Nat) (b : Ast)
    (anc : List Ast) (s : σ) :
    runVisitor V (.catchCl i b) anc s =
      V.leave (.catchCl i b) anc (runVisitor V b ((.catchCl i b : Ast) :: anc) (V.enter (.catchCl i b) anc s)) := rfl

theorem runVisitor_condExpr {σ : Type} (V : EmbVisitor σ) (i : Nat) (tq : Ast) (c : Ast) (alt2 : Ast)
    (anc : List Ast) (s : σ) :
    runVisitor V (.condExpr i tq c alt2) anc s =
      V.leave (.condExpr i tq c alt2) anc (runVisitor V alt2 ((.condExpr i tq c alt2 : Ast) :: anc) (runVisitor V c ((.condExpr i tq c alt2 : Ast) :: anc) (runVisitor V tq ((.condExpr i tq c alt2 : Ast) :: anc) (V.enter (.condExpr i tq c alt2) anc s)))) := rfl

theorem runVisitor_logical {σ : Type} (V : EmbVisitor σ) (i : Nat) (op : String) (l : Ast) (r : Ast)
    (anc : List Ast) (s : σ) :
    runVisitor V (.logical i op l r) anc s =
      V.leave (.logical i op l r) anc (runVisitor V r ((.logical i op l r : Ast) :: anc) (runVisitor V l ((.logical i op l r : Ast) :: anc) (V.enter (.logical i op l r) anc s))) := rfl

theorem runVisitor_assign {σ : Type} (V : EmbVisitor σ) (i : Nat) (op : String) (l : Ast) (r : Ast)
    (anc : List Ast) (s : σ) :
    runVisitor V (.assign i op l r) anc s =
      V.leave (.assign i op l r) anc (runVisitor V r ((.assign i op l r : Ast) :: anc) (runVisitor V l ((.assign i op l r : Ast) :: anc) (V.enter (.assign i op l r) anc s))) := rfl

theorem runVisitor_callE {σ : Type} (V : EmbVisitor σ) (i : Nat) (c : Ast) (args : List Ast)
    (anc : List Ast) (s : σ) :
    runVisitor V (.callE i c args) anc s =
      V.leave (.callE i c args) anc (runList V args ((.callE i c args : Ast) :: anc) (runVisitor V c ((.callE i c args : Ast) :: anc) (V.enter (.callE i c args) anc s))) := rfl

theorem runVisitor_member {σ : Type} (V : EmbVisitor σ) (i : Nat) (o : Ast) (p : Ast) (cf : Bool)
    (anc : List Ast) (s : σ) :
    runVisitor V (.member i o p cf) anc s =
      V.leave (.member i o p cf) anc (runVisitor V p ((.member i o p cf : Ast) :: anc) (runVisitor V o ((.member i o p cf : Ast) :: anc) (V.enter (.member i o p cf) anc s))) := rfl

theorem runVisitor_breakStmt {σ : Type} (V : EmbVisitor σ) (i : Nat) (lbl : Option String)
    (anc : List Ast) (s : σ) :
    runVisitor V (.breakStmt i lbl) anc s =
      V.leave (.breakStmt i lbl) anc (V.enter (.breakStmt i lbl) anc s) := rfl

theorem runVisitor_contStmt {σ : Type} (V : EmbVisitor σ) (i : Nat) (lbl : Option String)
    (anc : List Ast) (s : σ) :
    runVisitor V (.contStmt i lbl) anc s =
      V.leave (.contStmt i lbl) anc (V.enter (.contStmt i lbl) anc s) := rfl

theorem runVisitor_funcDecl {σ : Type} (V : EmbVisitor σ) (i : Nat) (n : String) (b : Ast)
    (anc : List Ast) (s : σ) :
    runVisitor V (.funcDecl i n b) anc s =
      V.leave (.funcDecl i n b) anc (runVisitor V b ((.funcDecl i n b : Ast) :: anc) (V.enter (.funcDecl i n b) anc s)) := rfl

theorem runVisitor_funcExpr {σ : Type} (V : EmbVisitor σ) (i : Nat) (n : Option String) (b : Ast)
    (anc : List Ast) (s : σ) :
    runVisitor V (.funcExpr i n b) anc s =
      V.leave (.funcExpr i n b) anc (runVisitor V b ((.funcExpr i n b : Ast) :: anc) (V.enter (.funcExpr i n b) anc s)) := rfl

theorem runVisitor_arrowFunc {σ : Type} (V : EmbVisitor σ) (i : Nat) (b : Ast)
    (anc : List Ast) (s : σ) :
    runVisitor V (.arrowFunc i b) anc s =
      V.leave (.arrowFunc i b) anc (runVisitor V b ((.arrowFunc i b : Ast) :: anc) (V.enter (.arrowFunc i b) anc s)) := rfl

theorem combEnter_funcDecl (g : Ast → String) (i : Nat) (n : String) (b : Ast)
    (anc : List Ast) (s : CombState) :
    (combVisitor g).enter (.funcDecl i n b) anc s =
      combNestingEnter (.funcDecl i n b)
        (combEnterFunction (.funcDecl i n b) anc s) := rfl

theorem combLeave_funcDecl (g : Ast → String) (i : Nat) (n : String) (b : Ast)
    (anc : List Ast) (s : CombState) :
    (combVisitor g).leave (.funcDecl i n b) anc s =
      combNestingExit (.funcDecl i n b) (combExitFunction s) := rfl

theorem combEnter_funcExpr (g : Ast → String) (i : Nat) (n : Option String)
    (b : Ast) (anc : List Ast) (s : CombState) :
    (combVisitor g).enter (.funcExpr i n b) anc s =
      combNestingEnter (.funcExpr i n b)
        (combEnterFunction (.funcExpr i n b) anc s) := rfl

theorem combLeave_funcExpr (g : Ast → String) (i : Nat) (n : Option String)
    (b : Ast) (anc : List Ast) (s : CombState) :
    (combVisitor g).leave (.funcExpr i n b) anc s =
      combNestingExit (.funcExpr i n b) (combExitFunction s) := rfl

theorem combEnter_arrowFunc (g : Ast → String) (i : Nat) (b : Ast)
    (anc : List Ast) (s : CombState) :
    (combVisitor g).enter (.arrowFunc i b) anc s =
      combNestingEnter (.arrowFunc i b)
        (combEnterFunction (.arrowFunc i b) anc s) := rfl

theorem combLeave_arrowFunc (g : Ast → String) (i : Nat) (b : Ast)
    (anc : List Ast) (s : CombState) :
    (combVisitor g).leave (.arrowFunc i b) anc s =
      combNestingExit (.arrowFunc i b) (combExitFunction s) := rfl

/-! ### The recursion-point invariant over the combined traversal -/

mutual
theorem recRun_visitor (g : Ast → String) (a : Ast) (anc : List Ast)
    (s : CombState) :
    recStackRel (fun nm => recSites nm a) s.stack
      (runVisitor (combVisitor g) a anc s).stack ∧
    (runVisitor (combVisitor g) a anc s).reports.map recRepProj =
      s.reports.map recRepProj ++ recReps a anc.head? := by
  cases a with
  | iden i n =>
    rw [runVisitor_iden]
    obtain ⟨e0, q0⟩ := recEff_enterStep g (.iden i n) anc s rfl
    obtain ⟨eL, qL⟩ := recEff_leaveStep g (.iden i n) anc
      ((combVisitor g).enter (.iden i n) anc s) rfl
    refine ⟨recStackRel_congr (fun nm => ?_) (recStackRel_comp e0 eL), ?_⟩
    · simp [recSites, isRecursiveCallNode]
      try omega
    · rw [qL, q0]
      simp [recReps, List.head?_cons, List.append_assoc]
  | lit i sv =>
    rw [runVisitor_lit]
    obtain ⟨e0, q0⟩ := recEff_enterStep g (.lit i sv) anc s rfl
    obtain ⟨eL, qL⟩ := recEff_leaveStep g (.lit i sv) anc
      ((combVisitor g).enter (.lit i sv) anc s) rfl
    refine ⟨recStackRel_congr (fun nm => ?_) (recStackRel_comp e0 eL), ?_⟩
    · simp [recSites, isRecursiveCallNode]
      try omega
    · rw [qL, q0]
      simp [recReps, List.head?_cons, List.append_assoc]
  | arrayLit i =>
    rw [runVisitor_arrayLit]
    obtain ⟨e0, q0⟩ := recEff_enterStep g (.arrayLit i) anc s rfl
    obtain ⟨eL, qL⟩ := recEff_leaveStep g (.arrayLit i) anc
      ((combVisitor g).enter (.arrayLit i) anc s) rfl
    refine ⟨recStackRel_congr (fun nm => ?_) (recStackRel_comp e0 eL), ?_⟩
    · simp [recSites, isRecursiveCallNode]
      try omega
    · rw [qL, q0]
      simp [recReps, List.head?_cons, List.append_assoc]
  | objectLit i =>
    rw [runVisitor_objectLit]
    obtain ⟨e0, q0⟩ := recEff_enterStep g (.objectLit i) anc s rfl
    obtain ⟨eL, qL⟩ := recEff_leaveStep g (.objectLit i) anc
      ((combVisitor g).enter (.objectLit i) anc s) rfl
    refine ⟨recStackRel_congr (fun nm => ?_) (recStackRel_comp e0 eL), ?_⟩
    · simp [recSites, isRecursiveCallNode]
      try omega
    · rw [qL, q0]
      simp [recReps, List.head?_cons, List.append_assoc]
  | thisE i =>
    rw [runVisitor_thisE]
    obtain ⟨e0, q0⟩ := recEff_enterStep g (.thisE i) anc s rfl
    obtain ⟨eL, qL⟩ := recEff_leaveStep g (.thisE i) anc
      ((combVisitor g).enter (.thisE i) anc s) rfl
    refine ⟨recStackRel_congr (fun nm => ?_) (recStackRel_comp e0 eL), ?_⟩
    · simp [recSites, isRecursiveCallNode]
      try omega
    · rw [qL, q0]
      simp [recReps, List.head?_cons, List.append_assoc]
  | jsxElem i =>
    rw [runVisitor_jsxElem]
    obtain ⟨e0, q0⟩ := recEff_enterStep g (.jsxElem i) anc s rfl
    obtain ⟨eL, qL⟩ := recEff_leaveStep g (.jsxElem i) anc
      ((combVisitor g).enter (.jsxElem i) anc s) rfl
    refine ⟨recStackRel_congr (fun nm => ?_) (recStackRel_comp e0 eL), ?_⟩
    · simp [recSites, isRecursiveCallNode]
      try omega
    · rw [qL, q0]
      simp [recReps, List.head?_cons, List.append_assoc]
  | exprStmt i e =>
    rw [runVisitor_exprStmt]
    obtain ⟨e0, q0⟩ := recEff_enterStep g (.exprStmt i e) anc s rfl
    obtain ⟨e1, q1⟩ := recRun_visitor g e ((.exprStmt i e : Ast) :: anc)
      ((combVisitor g).enter (.exprStmt i e) anc s)
    obtain ⟨eL, qL⟩ := recEff_leaveStep g (.exprStmt i e) anc
      (runVisitor (combVisitor g) e ((.exprStmt i e : Ast) :: anc) ((combVisitor g).enter (.exprStmt i e) anc s)) rfl
    refine ⟨recStackRel_congr (fun nm => ?_) (recStackRel_comp (recStackRel_comp e0 e1) eL), ?_⟩
    · simp [recSites, isRecursiveCallNode]
      try omega
    · rw [qL, q1, q0]
      simp [recReps, List.head?_cons, List.append_assoc]
  | retStmt i o =>
    rw [runVisitor_retStmt]
    obtain ⟨e0, q0⟩ := recEff_enterStep g (.retStmt i o) anc s rfl
    obtain ⟨e1, q1⟩ := recRun_opt g o ((.retStmt i o : Ast) :: anc)
      ((combVisitor g).enter (.retStmt i o) anc s)
    obtain ⟨eL, qL⟩ := recEff_leaveStep g (.retStmt i o) anc
      (runOpt (combVisitor g) o ((.retStmt i o : Ast) :: anc) ((combVisitor g).enter (.retStmt i o) anc s)) rfl
    refine ⟨recStackRel_congr (fun nm => ?_) (recStackRel_comp (recStackRel_comp e0 e1) eL), ?_⟩
    · simp [recSites, isRecursiveCallNode]
      try omega
    · rw [qL, q1, q0]
      simp [recReps, List.head?_cons, List.append_assoc]
  | block i body =>
    rw [runVisitor_block]
    obtain ⟨e0, q0⟩ := recEff_enterStep g (.block i body) anc s rfl
    obtain ⟨e1, q1⟩ := recRun_list g body ((.block i body : Ast) :: anc)
      ((combVisitor g).enter (.block i body) anc s)
    obtain ⟨eL, qL⟩ := recEff_leaveStep g (.block i body) anc
      (runList (combVisitor g) body ((.block i body : Ast) :: anc) ((combVisitor g).enter (.block i body) anc s)) rfl
    refine ⟨recStackRel_congr (fun nm => ?_) (recStackRel_comp (recStackRel_comp e0 e1) eL), ?_⟩
    · simp [recSites, isRecursiveCallNode]
      try omega
    · rw [qL, q1, q0]
      simp [recReps, List.head?_cons, List.append_assoc]
  | varDecl i k ds =>
    rw [runVisitor_varDecl]
    obtain ⟨e0, q0⟩ := recEff_enterStep g (.varDecl i k ds) anc s rfl
    obtain ⟨e1, q1⟩ := recRun_list g ds ((.varDecl i k ds : Ast) :: anc)
      ((combVisitor g).enter (.varDecl i k ds) anc s)
    obtain ⟨eL, qL⟩ := recEff_leaveStep g (.varDecl i k ds) anc
      (runList (combVisitor g) ds ((.varDecl i k ds : Ast) :: anc) ((combVisitor g).enter (.varDecl i k ds) anc s)) rfl
    refine ⟨recStackRel_congr (fun nm => ?_) (recStackRel_comp (recStackRel_comp e0 e1) eL), ?_⟩
    · simp [recSites, isRecursiveCallNode]
      try omega
    · rw [qL, q1, q0]
      simp [recReps, List.head?_cons, List.append_assoc]
  | varDeclr i p ini =>
    rw [runVisitor_varDeclr]
    obtain ⟨e0, q0⟩ := recEff_enterStep g (.varDeclr i p ini) anc s rfl
    obtain ⟨e1, q1⟩ := recRun_visitor g p ((.varDeclr i p ini : Ast) :: anc)
      ((combVisitor g).enter (.varDeclr i p ini) anc s)
    obtain ⟨e2, q2⟩ := recRun_opt g ini ((.varDeclr i p ini : Ast) :: anc)
      (runVisitor (combVisitor g) p ((.varDeclr i p ini : Ast) :: anc) ((combVisitor g).enter (.varDeclr i p ini) anc s))
    obtain ⟨eL, qL⟩ := recEff_leaveStep g (.varDeclr i p ini) anc
      (runOpt (combVisitor g) ini ((.varDeclr i p ini : Ast) :: anc) (runVisitor (combVisitor g) p ((.varDeclr i p ini : Ast) :: anc) ((combVisitor g).enter (.varDeclr i p ini) anc s))) rfl
    refine ⟨recStackRel_congr (fun nm => ?_) (recStackRel_comp (recStackRel_comp (recStackRel_comp e0 e1) e2) eL), ?_⟩
    · simp [recSites, isRecursiveCallNode]
      try omega
    · rw [qL, q2, q1, q0]
      simp [recReps, List.head?_cons, List.append_assoc]
  | ifStmt i tq c alt =>
    rw [runVisitor_ifStmt]
    obtain ⟨e0, q0⟩ := recEff_enterStep g (.ifStmt i tq c alt) anc s rfl
    obtain ⟨e1, q1⟩ := recRun_visitor g tq ((.ifStmt i tq c alt : Ast) :: anc)
      ((combVisitor g).enter (.ifStmt i tq c alt) anc s)
    obtain ⟨e2, q2⟩ := recRun_visitor g c ((.ifStmt i tq c alt : Ast) :: anc)
      (runVisitor (combVisitor g) tq ((.ifStmt i tq c alt : Ast) :: anc) ((combVisitor g).enter (.ifStmt i tq c alt) anc s))
    obtain ⟨e3, q3⟩ := recRun_opt g alt ((.ifStmt i tq c alt : Ast) :: anc)
      (runVisitor (combVisitor g) c ((.ifStmt i tq c alt : Ast) :: anc) (runVisitor (combVisitor g) tq ((.ifStmt i tq c alt : Ast) :: anc) ((combVisitor g).enter (.ifStmt i tq c alt) anc s)))
    obtain ⟨eL, qL⟩ := recEff_leaveStep g (.ifStmt i tq c alt) anc
      (runOpt (combVisitor g) alt ((.ifStmt i tq c alt : Ast) :: anc) (runVisitor (combVisitor g) c ((.ifStmt i tq c alt : Ast) :: anc) (runVisitor (combVisitor g) tq ((.ifStmt i tq c alt : Ast) :: anc) ((combVisitor g).enter (.ifStmt i tq c alt) anc s)))) rfl
    refine ⟨recStackRel_congr (fun nm => ?_) (recStackRel_comp (recStackRel_comp (recStackRel_comp (recStackRel_comp e0 e1) e2) e3) eL), ?_⟩
    · simp [recSites, isRecursiveCallNode]
      try omega
    · rw [qL, q3, q2, q1, q0]
      simp [recReps, List.head?_cons, List.append_assoc]
  | forStmt i b =>
    rw [runVisitor_forStmt]
    obtain ⟨e0, q0⟩ := recEff_enterStep g (.forStmt i b) anc s rfl
    obtain ⟨e1, q1⟩ := recRun_visitor g b ((.forStmt i b : Ast) :: anc)
      ((combVisitor g).enter (.forStmt i b) anc s)
    obtain ⟨eL, qL⟩ := recEff_leaveStep g (.forStmt i b) anc
      (runVisitor (combVisitor g) b ((.forStmt i b : Ast) :: anc) ((combVisitor g).enter (.forStmt i b) anc s)) rfl
    refine ⟨recStackRel_congr (fun nm => ?_) (recStackRel_comp (recStackRel_comp e0 e1) eL), ?_⟩
    · simp [recSites, isRecursiveCallNode]
      try omega
    · rw [qL, q1, q0]
      simp [recReps, List.head?_cons, List.append_assoc]
  | forInStmt i l r b =>
    rw [runVisitor_forInStmt]
    obtain ⟨e0, q0⟩ := recEff_enterStep g (.forInStmt i l r b) anc s rfl
    obtain ⟨e1, q1⟩ := recRun_visitor g l ((.forInStmt i l r b : Ast) :: anc)
      ((combVisitor g).enter (.forInStmt i l r b) anc s)
    obtain ⟨e2, q2⟩ := recRun_visitor g r ((.forInStmt i l r b : Ast) :: anc)
      (runVisitor (combVisitor g) l ((.forInStmt i l r b : Ast) :: anc) ((combVisitor g).enter (.forInStmt i l r b) anc s))
    obtain ⟨e3, q3⟩ := recRun_visitor g b ((.forInStmt i l r b : Ast) :: anc)
      (runVisitor (combVisitor g) r ((.forInStmt i l r b : Ast) :: anc) (runVisitor (combVisitor g) l ((.forInStmt i l r b : Ast) :: anc) ((combVisitor g).enter (.forInStmt i l r b) anc s)))
    obtain ⟨eL, qL⟩ := recEff_leaveStep g (.forInStmt i l r b) anc
      (runVisitor (combVisitor g) b ((.forInStmt i l r b : Ast) :: anc) (runVisitor (combVisitor g) r ((.forInStmt i l r b : Ast) :: anc) (runVisitor (combVisitor g) l ((.forInStmt i l r b : Ast) :: anc) ((combVisitor g).enter (.forInStmt i l r b) anc s)))) rfl
    refine ⟨recStackRel_congr (fun nm => ?_) (recStackRel_comp (recStackRel_comp (recStackRel_comp (recStackRel_comp e0 e1) e2) e3) eL), ?_⟩
    · simp [recSites, isRecursiveCallNode]
      try omega
    · rw [qL, q3, q2, q1, q0]
      simp [recReps, List.head?_cons, List.append_assoc]
  | forOfStmt i l r b =>
    rw [runVisitor_forOfStmt]
    obtain ⟨e0, q0⟩ := recEff_enterStep g (.forOfStmt i l r b) anc s rfl
    obtain ⟨e1, q1⟩ := recRun_visitor g l ((.forOfStmt i l r b : Ast) :: anc)
      ((combVisitor g).enter (.forOfStmt i l r b) anc s)
    obtain ⟨e2, q2⟩ := recRun_visitor g r ((.forOfStmt i l r b : Ast) :: anc)
      (runVisitor (combVisitor g) l ((.forOfStmt i l r b : Ast) :: anc) ((combVisitor g).enter (.forOfStmt i l r b) anc s))
    obtain ⟨e3, q3⟩ := recRun_visitor g b ((.forOfStmt i l r b : Ast) :: anc)
      (runVisitor (combVisitor g) r ((.forOfStmt i l r b : Ast) :: anc) (runVisitor (combVisitor g) l ((.forOfStmt i l r b : Ast) :: anc) ((combVisitor g).enter (.forOfStmt i l r b) anc s)))
    obtain ⟨eL, qL⟩ := recEff_leaveStep g (.forOfStmt i l r b) anc
      (runVisitor (combVisitor g) b ((.forOfStmt i l r b : Ast) :: anc) (runVisitor (combVisitor g) r ((.forOfStmt i l r b : Ast) :: anc) (runVisitor (combVisitor g) l ((.forOfStmt i l r b : Ast) :: anc) ((combVisitor g).enter (.forOfStmt i l r b) anc s)))) rfl
    refine ⟨recStackRel_congr (fun nm => ?_) (recStackRel_comp (recStackRel_comp (recStackRel_comp (recStackRel_comp e0 e1) e2) e3) eL), ?_⟩
    · simp [recSites, isRecursiveCallNode]
      try omega
    · rw [qL, q3, q2, q1, q0]
      simp [recReps, List.head?_cons, List.append_assoc]
  | whileStmt i tq b =>
    rw [runVisitor_whileStmt]
    obtain ⟨e0, q0⟩ := recEff_enterStep g (.whileStmt i tq b) anc s rfl
    obtain ⟨e1, q1⟩ := recRun_visitor g tq ((.whileStmt i tq b : Ast) :: anc)
      ((combVisitor g).enter (.whileStmt i tq b) anc s)
    obtain ⟨e2, q2⟩ := recRun_visitor g b ((.whileStmt i tq b : Ast) :: anc)
      (runVisitor (combVisitor g) tq ((.whileStmt i tq b : Ast) :: anc) ((combVisitor g).enter (.whileStmt i tq b) anc s))
    obtain ⟨eL, qL⟩ := recEff_leaveStep g (.whileStmt i tq b) anc
      (runVisitor (combVisitor g) b ((.whileStmt i tq b : Ast) :: anc) (runVisitor (combVisitor g) tq ((.whileStmt i tq b : Ast) :: anc) ((combVisitor g).enter (.whileStmt i tq b) anc s))) rfl
    refine ⟨recStackRel_congr (fun nm => ?_) (recStackRel_comp (recStackRel_comp (recStackRel_comp e0 e1) e2) eL), ?_⟩
    · simp [recSites, isRecursiveCallNode]
      try omega
    · rw [qL, q2, q1, q0]
      simp [recReps, List.head?_cons, List.append_assoc]
  | doWhileStmt i b tq =>
    rw [runVisitor_doWhileStmt]
    obtain ⟨e0, q0⟩ := recEff_enterStep g (.doWhileStmt i b tq) anc s rfl
    obtain ⟨e1, q1⟩ := recRun_visitor g b ((.doWhileStmt i b tq : Ast) :: anc)
      ((combVisitor g).enter (.doWhileStmt i b tq) anc s)
    obtain ⟨e2, q2⟩ := recRun_visitor g tq ((.doWhileStmt i b tq : Ast) :: anc)
      (runVisitor (combVisitor g) b ((.doWhileStmt i b tq : Ast) :: anc) ((combVisitor g).enter (.doWhileStmt i b tq) anc s))
    obtain ⟨eL, qL⟩ := recEff_leaveStep g (.doWhileStmt i b tq) anc
      (runVisitor (combVisitor g) tq ((.doWhileStmt i b tq : Ast) :: anc) (runVisitor (combVisitor g) b ((.doWhileStmt i b tq : Ast) :: anc) ((combVisitor g).enter (.doWhileStmt i b tq) anc s))) rfl
    refine ⟨recStackRel_congr (fun nm => ?_) (recStackRel_comp (recStackRel_comp (recStackRel_comp e0 e1) e2) eL), ?_⟩
    · simp [recSites, isRecursiveCallNode]
      try omega
    · rw [qL, q2, q1, q0]
      simp [recReps, List.head?_cons, List.append_assoc]
  | switchStmt i d cs =>
    rw [runVisitor_switchStmt]
    obtain ⟨e0, q0⟩ := recEff_enterStep g (.switchStmt i d cs) anc s rfl
    obtain ⟨e1, q1⟩ := recRun_visitor g d ((.switchStmt i d cs : Ast) :: anc)
      ((combVisitor g).enter (.switchStmt i d cs) anc s)
    obtain ⟨e2, q2⟩ := recRun_list g cs ((.switchStmt i d cs : Ast) :: anc)
      (runVisitor (combVisitor g) d ((.switchStmt i d cs : Ast) :: anc) ((combVisitor g).enter (.switchStmt i d cs) anc s))
    obtain ⟨eL, qL⟩ := recEff_leaveStep g (.switchStmt i d cs) anc
      (runList (combVisitor g) cs ((.switchStmt i d cs : Ast) :: anc) (runVisitor (combVisitor g) d ((.switchStmt i d cs : Ast) :: anc) ((combVisitor g).enter (.switchStmt i d cs) anc s))) rfl
    refine ⟨recStackRel_congr (fun nm => ?_) (recStackRel_comp (recStackRel_comp (recStackRel_comp e0 e1) e2) eL), ?_⟩
    · simp [recSites, isRecursiveCallNode]
      try omega
    · rw [qL, q2, q1, q0]
      simp [recReps, List.head?_cons, List.append_assoc]
  | switchCase i tq body =>
    rw [runVisitor_switchCase]
    obtain ⟨e0, q0⟩ := recEff_enterStep g (.switchCase i tq body) anc s rfl
    obtain ⟨e1, q1⟩ := recRun_opt g tq ((.switchCase i tq body : Ast) :: anc)
      ((combVisitor g).enter (.switchCase i tq body) anc s)
    obtain ⟨e2, q2⟩ := recRun_list g body ((.switchCase i tq body : Ast) :: anc)
      (runOpt (combVisitor g) tq ((.switchCase i tq body : Ast) :: anc) ((combVisitor g).enter (.switchCase i tq body) anc s))
    obtain ⟨eL, qL⟩ := recEff_leaveStep g (.switchCase i tq body) anc
      (runList (combVisitor g) body ((.switchCase i tq body : Ast) :: anc) (runOpt (combVisitor g) tq ((.switchCase i tq body : Ast) :: anc) ((combVisitor g).enter (.switchCase i tq body) anc s))) rfl
    refine ⟨recStackRel_congr (fun nm => ?_) (recStackRel_comp (recStackRel_comp (recStackRel_comp e0 e1) e2) eL), ?_⟩
    · simp [recSites, isRecursiveCallNode]
      try omega
    · rw [qL, q2, q1, q0]
      simp [recReps, List.head?_cons, List.append_assoc]
  | tryStmt i b hh f =>
    rw [runVisitor_tryStmt]
    obtain ⟨e0, q0⟩ := recEff_enterStep g (.tryStmt i b hh f) anc s rfl
    obtain ⟨e1, q1⟩ := recRun_visitor g b ((.tryStmt i b hh f : Ast) :: anc)
      ((combVisitor g).enter (.tryStmt i b hh f) anc s)
    obtain ⟨e2, q2⟩ := recRun_opt g hh ((.tryStmt i b hh f : Ast) :: anc)
      (runVisitor (combVisitor g) b ((.tryStmt i b hh f : Ast) :: anc) ((combVisitor g).enter (.tryStmt i b hh f) anc s))
    obtain ⟨e3, q3⟩ := recRun_opt g f ((.tryStmt i b hh f : Ast) :: anc)
      (runOpt (combVisitor g) hh ((.tryStmt i b hh f : Ast) :: anc) (runVisitor (combVisitor g) b ((.tryStmt i b hh f : Ast) :: anc) ((combVisitor g).enter (.tryStmt i b hh f) anc s)))
    obtain ⟨eL, qL⟩ := recEff_leaveStep g (.tryStmt i b hh f) anc
      (runOpt (combVisitor g) f ((.tryStmt i b hh f : Ast) :: anc) (runOpt (combVisitor g) hh ((.tryStmt i b hh f : Ast) :: anc) (runVisitor (combVisitor g) b ((.tryStmt i b hh f : Ast) :: anc) ((combVisitor g).enter (.tryStmt i b hh f) anc s)))) rfl
    refine ⟨recStackRel_congr (fun nm => ?_) (recStackRel_comp (recStackRel_comp (recStackRel_comp (recStackRel_comp e0 e1) e2) e3) eL), ?_⟩
    · simp [recSites, isRecursiveCallNode]
      try omega
    · rw [qL, q3, q2, q1, q0]
      simp [recReps, List.head?_cons, List.append_assoc]
  | catchCl i b =>
    rw [runVisitor_catchCl]
    obtain ⟨e0, q0⟩ := recEff_enterStep g (.catchCl i b) anc s rfl
    obtain ⟨e1, q1⟩ := recRun_visitor g b ((.catchCl i b : Ast) :: anc)
      ((combVisitor g).enter (.catchCl i b) anc s)
    obtain ⟨eL, qL⟩ := recEff_leaveStep g (.catchCl i b) anc
      (runVisitor (combVisitor g) b ((.catchCl i b : Ast) :: anc) ((combVisitor g).enter (.catchCl i b) anc s)) rfl
    refine ⟨recStackRel_congr (fun nm => ?_) (recStackRel_comp (recStackRel_comp e0 e1) eL), ?_⟩
    · simp [recSites, isRecursiveCallNode]
      try omega
    · rw [qL, q1, q0]
      simp [recReps, List.head?_cons, List.append_assoc]
  | condExpr i tq c alt2 =>
    rw [runVisitor_condExpr]
    obtain ⟨e0, q0⟩ := recEff_enterStep g (.condExpr i tq c alt2) anc s rfl
    obtain ⟨e1, q1⟩ := recRun_visitor g tq ((.condExpr i tq c alt2 : Ast) :: anc)
      ((combVisitor g).enter (.condExpr i tq c alt2) anc s)
    obtain ⟨e2, q2⟩ := recRun_visitor g c ((.condExpr i tq c alt2 : Ast) :: anc)
      (runVisitor (combVisitor g) tq ((.condExpr i tq c alt2 : Ast) :: anc) ((combVisitor g).enter (.condExpr i tq c alt2) anc s))
    obtain ⟨e3, q3⟩ := recRun_visitor g alt2 ((.condExpr i tq c alt2 : Ast) :: anc)
      (runVisitor (combVisitor g) c ((.condExpr i tq c alt2 : Ast) :: anc) (runVisitor (combVisitor g) tq ((.condExpr i tq c alt2 : Ast) :: anc) ((combVisitor g).enter (.condExpr i tq c alt2) anc s)))
    obtain ⟨eL, qL⟩ := recEff_leaveStep g (.condExpr i tq c alt2) anc
      (runVisitor (combVisitor g) alt2 ((.condExpr i tq c alt2 : Ast) :: anc) (runVisitor (combVisitor g) c ((.condExpr i tq c alt2 : Ast) :: anc) (runVisitor (combVisitor g) tq ((.condExpr i tq c alt2 : Ast) :: anc) ((combVisitor g).enter (.condExpr i tq c alt2) anc s)))) rfl
    refine ⟨recStackRel_congr (fun nm => ?_) (recStackRel_comp (recStackRel_comp (recStackRel_comp (recStackRel_comp e0 e1) e2) e3) eL), ?_⟩
    · simp [recSites, isRecursiveCallNode]
      try omega
    · rw [qL, q3, q2, q1, q0]
      simp [recReps, List.head?_cons, List.append_assoc]
  | logical i op l r =>
    rw [runVisitor_logical]
    obtain ⟨e0, q0⟩ := recEff_enterStep g (.logical i op l r) anc s rfl
    obtain ⟨e1, q1⟩ := recRun_visitor g l ((.logical i op l r : Ast) :: anc)
      ((combVisitor g).enter (.logical i op l r) anc s)
    obtain ⟨e2, q2⟩ := recRun_visitor g r ((.logical i op l r : Ast) :: anc)
      (runVisitor (combVisitor g) l ((.logical i op l r : Ast) :: anc) ((combVisitor g).enter (.logical i op l r) anc s))
    obtain ⟨eL, qL⟩ := recEff_leaveStep g (.logical i op l r) anc
      (runVisitor (combVisitor g) r ((.logical i op l r : Ast) :: anc) (runVisitor (combVisitor g) l ((.logical i op l r : Ast) :: anc) ((combVisitor g).enter (.logical i op l r) anc s))) rfl
    refine ⟨recStackRel_congr (fun nm => ?_) (recStackRel_comp (recStackRel_comp (recStackRel_comp e0 e1) e2) eL), ?_⟩
    · simp [recSites, isRecursiveCallNode]
      try omega
    · rw [qL, q2, q1, q0]
      simp [recReps, List.head?_cons, List.append_assoc]
  | assign i op l r =>
    rw [runVisitor_assign]
    obtain ⟨e0, q0⟩ := recEff_enterStep g (.assign i op l r) anc s rfl
    obtain ⟨e1, q1⟩ := recRun_visitor g l ((.assign i op l r : Ast) :: anc)
      ((combVisitor g).enter (.assign i op l r) anc s)
    obtain ⟨e2, q2⟩ := recRun_visitor g r ((.assign i op l r : Ast) :: anc)
      (runVisitor (combVisitor g) l ((.assign i op l r : Ast) :: anc) ((combVisitor g).enter (.assign i op l r) anc s))
    obtain ⟨eL, qL⟩ := recEff_leaveStep g (.assign i op l r) anc
      (runVisitor (combVisitor g) r ((.assign i op l r : Ast) :: anc) (runVisitor (combVisitor g) l ((.assign i op l r : Ast) :: anc) ((combVisitor g).enter (.assign i op l r) anc s))) rfl
    refine ⟨recStackRel_congr (fun nm => ?_) (recStackRel_comp (recStackRel_comp (recStackRel_comp e0 e1) e2) eL), ?_⟩
    · simp [recSites, isRecursiveCallNode]
      try omega
    · rw [qL, q2, q1, q0]
      simp [recReps, List.head?_cons, List.append_assoc]
  | callE i c args =>
    rw [runVisitor_callE]
    obtain ⟨e0, q0⟩ := recEff_enterStep g (.callE i c args) anc s rfl
    obtain ⟨e1, q1⟩ := recRun_visitor g c ((.callE i c args : Ast) :: anc)
      ((combVisitor g).enter (.callE i c args) anc s)
    obtain ⟨e2, q2⟩ := recRun_list g args ((.callE i c args : Ast) :: anc)
      (runVisitor (combVisitor g) c ((.callE i c args : Ast) :: anc) ((combVisitor g).enter (.callE i c args) anc s))
    obtain ⟨eL, qL⟩ := recEff_leaveStep g (.callE i c args) anc
      (runList (combVisitor g) args ((.callE i c args : Ast) :: anc) (runVisitor (combVisitor g) c ((.callE i c args : Ast) :: anc) ((combVisitor g).enter (.callE i c args) anc s))) rfl
    refine ⟨recStackRel_congr (fun nm => ?_) (recStackRel_comp (recStackRel_comp (recStackRel_comp e0 e1) e2) eL), ?_⟩
    · simp only [recSites, isRecursiveCallNode]
      omega
    · rw [qL, q2, q1, q0]
      simp [recReps, List.head?_cons, List.append_assoc]
  | member i o p cf =>
    rw [runVisitor_member]
    obtain ⟨e0, q0⟩ := recEff_enterStep g (.member i o p cf) anc s rfl
    obtain ⟨e1, q1⟩ := recRun_visitor g o ((.member i o p cf : Ast) :: anc)
      ((combVisitor g).enter (.member i o p cf) anc s)
    obtain ⟨e2, q2⟩ := recRun_visitor g p ((.member i o p cf : Ast) :: anc)
      (runVisitor (combVisitor g) o ((.member i o p cf : Ast) :: anc) ((combVisitor g).enter (.member i o p cf) anc s))
    obtain ⟨eL, qL⟩ := recEff_leaveStep g (.member i o p cf) anc
      (runVisitor (combVisitor g) p ((.member i o p cf : Ast) :: anc) (runVisitor (combVisitor g) o ((.member i o p cf : Ast) :: anc) ((combVisitor g).enter (.member i o p cf) anc s))) rfl
    refine ⟨recStackRel_congr (fun nm => ?_) (recStackRel_comp (recStackRel_comp (recStackRel_comp e0 e1) e2) eL), ?_⟩
    · simp [recSites, isRecursiveCallNode]
      try omega
    · rw [qL, q2, q1, q0]
      simp [recReps, List.head?_cons, List.append_assoc]
  | breakStmt i lbl =>
    rw [runVisitor_breakStmt]
    obtain ⟨e0, q0⟩ := recEff_enterStep g (.breakStmt i lbl) anc s rfl
    obtain ⟨eL, qL⟩ := recEff_leaveStep g (.breakStmt i lbl) anc
      ((combVisitor g).enter (.breakStmt i lbl) anc s) rfl
    refine ⟨recStackRel_congr (fun nm => ?_) (recStackRel_comp e0 eL), ?_⟩
    · simp [recSites, isRecursiveCallNode]
      try omega
    · rw [qL, q0]
      simp [recReps, List.head?_cons, List.append_assoc]
  | contStmt i lbl =>
    rw [runVisitor_contStmt]
    obtain ⟨e0, q0⟩ := recEff_enterStep g (.contStmt i lbl) anc s rfl
    obtain ⟨eL, qL⟩ := recEff_leaveStep g (.contStmt i lbl) anc
      ((combVisitor g).enter (.contStmt i lbl) anc s) rfl
    refine ⟨recStackRel_congr (fun nm => ?_) (recStackRel_comp e0 eL), ?_⟩
    · simp [recSites, isRecursiveCallNode]
      try omega
    · rw [qL, q0]
      simp [recReps, List.head?_cons, List.append_assoc]
  | funcDecl i n b =>
    rw [runVisitor_funcDecl, combEnter_funcDecl, combLeave_funcDecl]
    obtain ⟨hb_rel, hb_rep⟩ := recRun_visitor g b ((.funcDecl i n b : Ast) :: anc)
      (combNestingEnter (.funcDecl i n b) (combEnterFunction (.funcDecl i n b) anc s))
    rw [List.head?_cons] at hb_rep
    obtain ⟨hrel, hrep⟩ := recRun_function_shape g (.funcDecl i n b) b anc s hb_rel hb_rep
    refine ⟨recStackRel_congr (fun nm => by simp [recSites]) hrel, ?_⟩
    rw [hrep]
    simp [recReps, List.append_assoc]
  | funcExpr i n b =>
    rw [runVisitor_funcExpr, combEnter_funcExpr, combLeave_funcExpr]
    obtain ⟨hb_rel, hb_rep⟩ := recRun_visitor g b ((.funcExpr i n b : Ast) :: anc)
      (combNestingEnter (.funcExpr i n b) (combEnterFunction (.funcExpr i n b) anc s))
    rw [List.head?_cons] at hb_rep
    obtain ⟨hrel, hrep⟩ := recRun_function_shape g (.funcExpr i n b) b anc s hb_rel hb_rep
    refine ⟨recStackRel_congr (fun nm => by simp [recSites]) hrel, ?_⟩
    rw [hrep]
    simp [recReps, List.append_assoc]
  | arrowFunc i b =>
    rw [runVisitor_arrowFunc, combEnter_arrowFunc, combLeave_arrowFunc]
    obtain ⟨hb_rel, hb_rep⟩ := recRun_visitor g b ((.arrowFunc i b : Ast) :: anc)
      (combNestingEnter (.arrowFunc i b) (combEnterFunction (.arrowFunc i b) anc s))
    rw [List.head?_cons] at hb_rep
    obtain ⟨hrel, hrep⟩ := recRun_function_shape g (.arrowFunc i b) b anc s hb_rel hb_rep
    refine ⟨recStackRel_congr (fun nm => by simp [recSites]) hrel, ?_⟩
    rw [hrep]
    simp [recReps, List.append_assoc]

theorem recRun_list (g : Ast → String) (xs : List Ast) (anc : List Ast)
    (s : CombState) :
    recStackRel (fun nm => recSitesList nm xs) s.stack
      (runList (combVisitor g) xs anc s).stack ∧
    (runList (combVisitor g) xs anc s).reports.map recRepProj =
      s.reports.map recRepProj ++ recRepsList xs anc.head? := by
  cases xs with
  | nil =>
    refine ⟨?_, by simp [runList, recRepsList]⟩
    simp only [runList]
    exact recStackRel_congr (fun nm => by simp [recSitesList]) (recStackRel_refl _)
  | cons x rest =>
    simp only [runList]
    obtain ⟨e1, q1⟩ := recRun_visitor g x anc s
    obtain ⟨e2, q2⟩ := recRun_list g rest anc (runVisitor (combVisitor g) x anc s)
    refine ⟨recStackRel_congr (fun nm => by simp [recSitesList])
      (recStackRel_comp e1 e2), ?_⟩
    rw [q2, q1]
    simp [recRepsList, List.append_assoc]

theorem recRun_opt (g : Ast → String) (o : Option Ast) (anc : List Ast)
    (s : CombState) :
    recStackRel (fun nm => recSitesOpt nm o) s.stack
      (runOpt (combVisitor g) o anc s).stack ∧
    (runOpt (combVisitor g) o anc s).reports.map recRepProj =
      s.reports.map recRepProj ++ recRepsOpt o anc.head? := by
  cases o with
  | none =>
    refine ⟨?_, by simp [runOpt, recRepsOpt]⟩
    simp only [runOpt]
    exact recStackRel_congr (fun nm => by simp [recSitesOpt]) (recStackRel_refl _)
  | some x =>
    simp only [runOpt]
    obtain ⟨e1, q1⟩ := recRun_visitor g x anc s
    exact ⟨recStackRel_congr (fun nm => by simp [recSitesOpt]) e1,
      by rw [q1]; simp [recRepsOpt]⟩
end


/-- C9: in the combined scorer, every emitted function report carries
`recursive call` cognitive points as given by `recReps`: exactly one flat
`+1` point (`recPoint` has complexity 1 and no nesting add-on) when the
recursion detector classifies at least one call site of the function body —
not descending into nested function literals — as self-recursive against
the function's resolved name (and that name is nonempty), and zero points
otherwise; in particular the count is 1 regardless of how many recursive
call sites the body contains. -/
theorem recursion_scored_once_per_function (g : Ast → String) (a : Ast) :
    (combRun g a).reports.map recRepProj = recReps a none := by
  have h := (recRun_visitor g a [] initComb).2
  simpa [initComb] using h

/-! ### C3: logical-operator chains in the combined scorer

`chainAst ops` is the left-associated chain `a op1 b op2 b ...` with the
operator list given outermost-first (JS parses `a && b && c` as
`(a && b) && c`, so the outermost operator is the textually last one; the
change count is order-independent). -/

def chainAst : List String → Ast
  | [] => .iden 0 "a"
  | op :: rest => .logical 0 op (chainAst rest) (.iden 0 "b")

def opChanges : List String → Nat
  | [] => 0
  | [_] => 0
  | a :: b :: rest => (if a = b then 0 else 1) + opChanges (b :: rest)

def chainCycPts : List String → List CPoint
  | [] => []
  | op :: rest => createCPoint op :: chainCycPts rest

def chainCogPts : Option String → List String → List CPoint
  | _, [] => []
  | po, op :: rest =>
    (if po == some op then ([] : List CPoint)
     else [createCPoint ("logical operator \'" ++ op ++ "\'")]) ++
      chainCogPts (some op) rest

def chainCogCount : Option String → List String → Nat
  | _, [] => 0
  | po, op :: rest =>
    (if po == some op then 0 else 1) + chainCogCount (some op) rest

/-- The operator of the immediate parent when it is a logical expression. -/
def ancHeadOp : List Ast → Option String
  | (.logical _ p _ _) :: _ => some p
  | _ => none

theorem contMatch_eq (anc : List Ast) (op : String) :
    (match anc.head? with
     | some (.logical _ pop _ _) => pop == op
     | _ => false) = (ancHeadOp anc == some op) := by
  cases anc with
  | nil => rfl
  | cons p anc2 => cases p <;> rfl

theorem isJsx_chain (op : String) (l : Ast) :
    isJsxShortCircuit (.logical 0 op l (.iden 0 "b")) = false := by
  simp only [isJsxShortCircuit, getRightmostInChain, followRight]
  split <;> rfl

theorem isDefault_chain (g : Ast → String) (op : String) (l : Ast)
    (anc : List Ast) :
    isDefaultValuePattern g (.logical 0 op l (.iden 0 "b")) anc = false := by
  simp only [isDefaultValuePattern, getRightmostInChain, followRight,
    isLiteralType, Bool.not_false, if_true, ite_self]

theorem nestingEnter_noop (a : Ast) (top : CombScope) (rest : List CombScope)
    (lvl : Nat) (reports : List CombReport)
    (hnn : top.nestingNodes.contains a.nid = false) :
    combNestingEnter a ⟨top :: rest, lvl, reports⟩ =
      ⟨top :: rest, lvl, reports⟩ := by
  unfold combNestingEnter CombState.mapTop
  simp only [hnn, Bool.false_eq_true, if_false]

theorem nestingExit_noop (a : Ast) (top : CombScope) (rest : List CombScope)
    (lvl : Nat) (reports : List CombReport)
    (hnn : top.nestingNodes.contains a.nid = false) :
    combNestingExit a ⟨top :: rest, lvl, reports⟩ =
      ⟨top :: rest, lvl, reports⟩ := by
  unfold combNestingExit CombState.mapTop
  simp only [hnn, Bool.false_eq_true, if_false]

theorem combLogical_eval (g : Ast → String) (op : String) (l r0 : Ast)
    (anc : List Ast) (top : CombScope) (rest : List CombScope) (lvl : Nat)
    (reports : List CombReport) (hop : LOGICAL_OPERATORS.contains op = true)
    (hdef : isDefaultValuePattern g (.logical 0 op l r0) anc = false)
    (hjsx : isJsxShortCircuit (.logical 0 op l r0) = false) :
    combLogical g (.logical 0 op l r0) anc ⟨top :: rest, lvl, reports⟩ =
      ⟨{ top with
          cyclomaticPoints := top.cyclomaticPoints ++ [createCPoint op],
          cognitivePoints := top.cognitivePoints ++
            (if ancHeadOp anc == some op then []
             else [createCPoint ("logical operator \'" ++ op ++ "\'")]) } ::
        rest, lvl, reports⟩ := by
  unfold combLogical
  simp only [hop, hdef, hjsx, Bool.not_true, Bool.or_self, Bool.false_eq_true,
    if_false, List.isEmpty_cons, contMatch_eq]
  unfold combAddCyclomatic combAddCognitive CombState.mapTop
  by_cases hc : (ancHeadOp anc == some op) = true
  · simp [hc]
  · simp only [Bool.not_eq_true] at hc
    simp [hc]

theorem run_iden_noop (g : Ast → String) (i : Nat) (nmid : String)
    (anc : List Ast) (top : CombScope) (rest : List CombScope) (lvl : Nat)
    (reports : List CombReport) (hnn : top.nestingNodes.contains i = false) :
    runVisitor (combVisitor g) (.iden i nmid) anc ⟨top :: rest, lvl, reports⟩ =
      ⟨top :: rest, lvl, reports⟩ := by
  rw [runVisitor_iden]
  have he : (combVisitor g).enter (.iden i nmid) anc
      (⟨top :: rest, lvl, reports⟩ : CombState) =
      combNestingEnter (.iden i nmid) ⟨top :: rest, lvl, reports⟩ := rfl
  rw [he, nestingEnter_noop _ _ _ _ _ hnn]
  have hl : (combVisitor g).leave (.iden i nmid) anc
      (⟨top :: rest, lvl, reports⟩ : CombState) =
      combNestingExit (.iden i nmid) ⟨top :: rest, lvl, reports⟩ := rfl
  rw [hl, nestingExit_noop _ _ _ _ _ hnn]

theorem chain_run (g : Ast → String) (ops : List String) (anc : List Ast)
    (top : CombScope) (rest : List CombScope) (lvl : Nat)
    (reports : List CombReport)
    (hnn : top.nestingNodes.contains 0 = false)
    (hops : ∀ o ∈ ops, o ∈ LOGICAL_OPERATORS) :
    runVisitor (combVisitor g) (chainAst ops) anc ⟨top :: rest, lvl, reports⟩ =
      ⟨{ top with
          cyclomaticPoints := top.cyclomaticPoints ++ chainCycPts ops,
          cognitivePoints := top.cognitivePoints ++
            chainCogPts (ancHeadOp anc) ops } :: rest, lvl, reports⟩ := by
  revert hnn hops
  induction ops generalizing anc top with
  | nil =>
    intro hnn hops
    show runVisitor (combVisitor g) (.iden 0 "a") anc _ = _
    rw [run_iden_noop g 0 "a" anc top rest lvl reports hnn]
    simp [chainCycPts, chainCogPts]
  | cons op restOps ih =>
    intro hnn hops
    have hop : LOGICAL_OPERATORS.contains op = true :=
      List.elem_eq_true_of_mem (hops op (by simp))
    show runVisitor (combVisitor g)
        (.logical 0 op (chainAst restOps) (.iden 0 "b")) anc _ = _
    rw [runVisitor_logical]
    have he : (combVisitor g).enter
        (.logical 0 op (chainAst restOps) (.iden 0 "b")) anc
        (⟨top :: rest, lvl, reports⟩ : CombState) =
        combNestingEnter (.logical 0 op (chainAst restOps) (.iden 0 "b"))
          (combLogical g (.logical 0 op (chainAst restOps) (.iden 0 "b")) anc
            ⟨top :: rest, lvl, reports⟩) := rfl
    have hl : ∀ X : CombState, (combVisitor g).leave
        (.logical 0 op (chainAst restOps) (.iden 0 "b")) anc X =
        combNestingExit (.logical 0 op (chainAst restOps) (.iden 0 "b")) X :=
      fun X => rfl
    rw [he, combLogical_eval g op _ _ anc top rest lvl reports hop
        (isDefault_chain g op _ anc) (isJsx_chain op _),
      nestingEnter_noop, ih, run_iden_noop, hl, nestingExit_noop]
    all_goals first
    | exact hnn
    | exact fun o ho => hops o (by simp [ho])
    | simp [ancHeadOp, chainCycPts, chainCogPts, List.append_assoc]

theorem sumComplexity_append (l1 l2 : List CPoint) :
    sumComplexity (l1 ++ l2) = sumComplexity l1 + sumComplexity l2 := by
  unfold sumComplexity
  rw [List.foldl_append, sumComplexity_shift]

theorem sumComplexity_chainCyc (ops : List String) :
    sumComplexity (chainCycPts ops) = ops.length := by
  induction ops with
  | nil => rfl
  | cons op rest ih =>
    unfold chainCycPts sumComplexity
    rw [List.foldl_cons, sumComplexity_shift]
    unfold sumComplexity at ih
    rw [ih]
    simp [createCPoint, DEFAULT_COMPLEXITY_INCREMENT]
    omega

theorem sumComplexity_chainCog (po : Option String) (ops : List String) :
    sumComplexity (chainCogPts po ops) = chainCogCount po ops := by
  induction ops generalizing po with
  | nil => rfl
  | cons op rest ih =>
    unfold chainCogPts chainCogCount
    rw [sumComplexity_append, ih]
    by_cases hc : (po == some op) = true <;>
      simp [hc, sumComplexity, createCPoint, DEFAULT_COMPLEXITY_INCREMENT] <;>
      omega

theorem chainCogCount_some (a : String) (ops : List String) :
    chainCogCount (some a) ops = opChanges (a :: ops) := by
  induction ops generalizing a with
  | nil => rfl
  | cons b rest ih =>
    unfold chainCogCount opChanges
    rw [ih]
    by_cases h : a = b <;> simp [h, beq_iff_eq]

theorem chainCogCount_none (ops : List String) (h : ops ≠ []) :
    chainCogCount none ops = 1 + opChanges ops := by
  cases ops with
  | nil => exact absurd rfl h
  | cons op rest =>
    unfold chainCogCount
    rw [chainCogCount_some]
    simp

theorem chain_fn_eval (B : Ast) (cyc2 cog2 : List CPoint) (nl2 : Int)
    (rc2 : Bool)
    (hrun : runVisitor (combVisitor identText) B
        [(.retStmt 3 (some B) : Ast), .block 2 [.retStmt 3 (some B)],
         .funcDecl 1 "f" (.block 2 [.retStmt 3 (some B)])]
        ⟨[⟨1, "f", [], [], 0, [], false⟩], 1, []⟩ =
      ⟨[⟨1, "f", cyc2, cog2, nl2, [], rc2⟩], 1, []⟩) :
    combRun identText (.funcDecl 1 "f" (.block 2 [.retStmt 3 (some B)])) =
      ⟨[], 0, [⟨1, "f", BASE_FUNCTION_COMPLEXITY + sumComplexity cyc2,
        sumComplexity cog2, cyc2, cog2⟩]⟩ := by
  unfold combRun
  rw [runVisitor_funcDecl, combEnter_funcDecl, combLeave_funcDecl,
    runVisitor_block]
  rw [show combNestingEnter (.funcDecl 1 "f" (.block 2 [.retStmt 3 (some B)]))
      (combEnterFunction (.funcDecl 1 "f" (.block 2 [.retStmt 3 (some B)]))
        [] initComb) =
      (⟨[⟨1, "f", [], [], 0, [], false⟩], 1, []⟩ : CombState) from rfl]
  rw [show (combVisitor identText).enter (.block 2 [.retStmt 3 (some B)])
      [(.funcDecl 1 "f" (.block 2 [.retStmt 3 (some B)]) : Ast)]
      (⟨[⟨1, "f", [], [], 0, [], false⟩], 1, []⟩ : CombState) =
      (⟨[⟨1, "f", [], [], 0, [], false⟩], 1, []⟩ : CombState) from rfl]
  simp only [runList]
  rw [runVisitor_retStmt]
  rw [show (combVisitor identText).enter (.retStmt 3 (some B))
      [(.block 2 [.retStmt 3 (some B)] : Ast),
       .funcDecl 1 "f" (.block 2 [.retStmt 3 (some B)])]
      (⟨[⟨1, "f", [], [], 0, [], false⟩], 1, []⟩ : CombState) =
      (⟨[⟨1, "f", [], [], 0, [], false⟩], 1, []⟩ : CombState) from rfl]
  simp only [runOpt]
  rw [hrun]
  rfl

/-- C3 (amended): in the combined scorer, a left-associated chain of
short-circuit logical operators contributes cyclomatic +1 per operator
occurrence (function total `1 + N` for `N` operators) and cognitive
`1 + (number of operator changes between adjacent operators)` — so a
uniform chain scores exactly 1 cognitive point however long it is, and
each operator change adds exactly one more.  The spec's example figures are
wrong: `a && b && c && d` scores (cyclomatic, cognitive) = (4, 1), not
(5, 1), and `(a && b) || c` scores (3, 2), not (4, 3). -/
theorem chain_scores (ops : List String) (hne : ops ≠ [])
    (hops : ∀ o ∈ ops, o ∈ LOGICAL_OPERATORS) :
    (combRun identText (.funcDecl 1 "f"
        (.block 2 [.retStmt 3 (some (chainAst ops))]))).reports.map
        (fun r => (r.cyclomatic, r.cognitive)) =
      [((1 : Int) + ops.length, (1 : Int) + opChanges ops)] := by
  have hrun := chain_run identText ops
    [(.retStmt 3 (some (chainAst ops)) : Ast),
     .block 2 [.retStmt 3 (some (chainAst ops))],
     .funcDecl 1 "f" (.block 2 [.retStmt 3 (some (chainAst ops))])]
    ⟨1, "f", [], [], 0, [], false⟩ [] 1 [] rfl hops
  rw [chain_fn_eval (chainAst ops) (chainCycPts ops) (chainCogPts none ops)
    0 false hrun]
  simp only [List.map_cons, List.map_nil]
  rw [sumComplexity_chainCyc, sumComplexity_chainCog,
    chainCogCount_none ops hne]
  simp only [BASE_FUNCTION_COMPLEXITY]
  push_cast
  ring_nf

/-- Witness for the chain theorem at the mixed chain `(a && b) || c`
(operators outermost-first `["||", "&&"]` is the same multiset; the
counted changes are order-independent, and this instance is written with
the outermost operator first): cyclomatic 3, cognitive 2 — matching the
repository's `mixedLogical` fixture. -/
theorem chain_scores_witness :
    (["||", "&&"] : List String) ≠ [] ∧
      (∀ o ∈ (["||", "&&"] : List String), o ∈ LOGICAL_OPERATORS) ∧
      (combRun identText (.funcDecl 1 "f"
          (.block 2 [.retStmt 3 (some (chainAst ["||", "&&"]))]))).reports.map
          (fun r => (r.cyclomatic, r.cognitive)) =
        [((1 : Int) + (["||", "&&"] : List String).length,
          (1 : Int) + opChanges ["||", "&&"])] :=
  ⟨by decide, by decide, chain_scores ["||", "&&"] (by decide) (by decide)⟩
